import Mathlib

/-!
The client audio engine (src/src/client.cpp).

A shallow embedding of `CClient`: the buffer negotiation of `Init`, the sound
card conversion buffers and the frame pipeline, the gain rate limiter and the
connect / disconnect life cycle; and the connection status and the string
settings of the settings classes (src/src/settings.h).

Conventions.
* C++ `int` values are `Int`; `/` on `int` is `Int.tdiv` (truncation).
* `float` values are elements of an arbitrary type `F`: the gains, and the
  values of the delay estimate, whose `float` operations are supplied by a
  `CFloatOps` record; the conversion of an `int` to `float` is computed
  (rounding to 24 significant bits). The signal processing primitives
  (reverberation, pan, codec) are arbitrary functions supplied by a `CFrameEnv`
  record. The sound card term of the delay estimate is also evaluated over the
  rationals.
* Collaborators that are not part of `client.cpp` (sound device, channel) are
  records holding their observable state together with their answers; every
  call made to them is appended to the `log` of the client.
* `CVector<int16_t>` is `List Int`.
-/

set_option maxRecDepth 100000

namespace Jamulus

/-! ## Constants and enumerations -/

/-- The compile-time constants used by `client.cpp`. They are declared in
`global.h` and `util.h`, which are not among the sources, so they are taken as
parameters. -/
structure Consts where
  SYSTEM_FRAME_SIZE_SAMPLES : Int
  DOUBLE_SYSTEM_FRAME_SIZE_SAMPLES : Int
  FRAME_SIZE_FACTOR_PREFERRED : Int
  FRAME_SIZE_FACTOR_DEFAULT : Int
  FRAME_SIZE_FACTOR_SAFE : Int
  SYSTEM_SAMPLE_RATE_HZ : Int
  MAX_NUM_CHANNELS : Int
  DEFAULT_GAIN_DELAY_PERIOD_MS : Int
  OPUS_NUM_BYTES_MONO_LOW_QUALITY : Int
  OPUS_NUM_BYTES_MONO_NORMAL_QUALITY : Int
  OPUS_NUM_BYTES_MONO_HIGH_QUALITY : Int
  OPUS_NUM_BYTES_MONO_LOW_QUALITY_DBLE_FRAMESIZE : Int
  OPUS_NUM_BYTES_MONO_NORMAL_QUALITY_DBLE_FRAMESIZE : Int
  OPUS_NUM_BYTES_MONO_HIGH_QUALITY_DBLE_FRAMESIZE : Int
  OPUS_NUM_BYTES_STEREO_LOW_QUALITY : Int
  OPUS_NUM_BYTES_STEREO_NORMAL_QUALITY : Int
  OPUS_NUM_BYTES_STEREO_HIGH_QUALITY : Int
  OPUS_NUM_BYTES_STEREO_LOW_QUALITY_DBLE_FRAMESIZE : Int
  OPUS_NUM_BYTES_STEREO_NORMAL_QUALITY_DBLE_FRAMESIZE : Int
  OPUS_NUM_BYTES_STEREO_HIGH_QUALITY_DBLE_FRAMESIZE : Int

/-- A concrete choice of the constants: frame sizes of 64 and 128 samples and a
gain delay of 300 ms as named in the comments of `client.cpp`, candidate
factors 1, 2 and 4. Used to evaluate the model on concrete inputs. -/
def stdConsts : Consts where
  SYSTEM_FRAME_SIZE_SAMPLES := 64
  DOUBLE_SYSTEM_FRAME_SIZE_SAMPLES := 128
  FRAME_SIZE_FACTOR_PREFERRED := 1
  FRAME_SIZE_FACTOR_DEFAULT := 2
  FRAME_SIZE_FACTOR_SAFE := 4
  SYSTEM_SAMPLE_RATE_HZ := 48000
  MAX_NUM_CHANNELS := 150
  DEFAULT_GAIN_DELAY_PERIOD_MS := 300
  OPUS_NUM_BYTES_MONO_LOW_QUALITY := 12
  OPUS_NUM_BYTES_MONO_NORMAL_QUALITY := 22
  OPUS_NUM_BYTES_MONO_HIGH_QUALITY := 36
  OPUS_NUM_BYTES_MONO_LOW_QUALITY_DBLE_FRAMESIZE := 25
  OPUS_NUM_BYTES_MONO_NORMAL_QUALITY_DBLE_FRAMESIZE := 45
  OPUS_NUM_BYTES_MONO_HIGH_QUALITY_DBLE_FRAMESIZE := 82
  OPUS_NUM_BYTES_STEREO_LOW_QUALITY := 24
  OPUS_NUM_BYTES_STEREO_NORMAL_QUALITY := 35
  OPUS_NUM_BYTES_STEREO_HIGH_QUALITY := 73
  OPUS_NUM_BYTES_STEREO_LOW_QUALITY_DBLE_FRAMESIZE := 47
  OPUS_NUM_BYTES_STEREO_NORMAL_QUALITY_DBLE_FRAMESIZE := 71
  OPUS_NUM_BYTES_STEREO_HIGH_QUALITY_DBLE_FRAMESIZE := 165

/-- Audio compression type (`eAudioCompressionType`). -/
inductive EAudComprType where
  | CT_NONE
  | CT_OPUS
  | CT_OPUS64
  deriving DecidableEq, Repr

/-- Audio channel configuration (`eAudioChannelConf`). -/
inductive EAudChanConf where
  | CC_MONO
  | CC_MONO_IN_STEREO_OUT
  | CC_STEREO
  deriving DecidableEq, Repr

/-- Audio quality (`eAudioQuality`). -/
inductive EAudioQuality where
  | AQ_LOW
  | AQ_NORMAL
  | AQ_HIGH
  deriving DecidableEq, Repr

/-- Status returned by `Channel.GetData`; only `GS_BUFFER_OK` is tested by the
client. -/
inductive EGetDataStat where
  | GS_BUFFER_OK
  | GS_BUFFER_UNDERRUN
  | GS_CHAN_NOW_DISCONNECTED
  | GS_CHAN_NOT_CONNECTED
  deriving DecidableEq, Repr

/-- The four codec instances built by the constructor; the same tag names the
encoder and the decoder of an instance (`OpusEncoderMono` / `OpusDecoderMono`,
and so on). A null pointer is `none`. -/
inductive OpusInst where
  | Mono
  | Stereo
  | Mono64
  | Stereo64
  deriving DecidableEq, Repr

/-- Reset type of a device-driven reinitialisation request. -/
inductive tSndCrdResetType where
  | RS_ONLY_RESTART
  | RS_ONLY_RESTART_AND_INIT
  | RS_RELOAD_RESTART_AND_INIT
  deriving DecidableEq, Repr

/-- A parsed host address. -/
abbrev CHostAddress := String

/-- Calls made to collaborators and signals emitted, in program order. -/
inductive Call (F : Type) where
  | SoundBufferSizeSupported (iSize : Int)
  | SoundSetBufferSize (iPrefSize : Int)
  | SoundStart
  | SoundStop
  | SoundReloadDevice
  | OpusSetBitrate (enc : Option OpusInst) (iNumCodedBytes iFrameSize : Int)
  | ChannelSetAudioStreamProperties (eType : EAudComprType)
      (iNumCodedBytes iFrameSizeFactor iNumAudioChannels : Int)
  | AudioReverbInit (eConf : EAudChanConf) (iStereoBlockSizeSam iSampleRate : Int)
  | ChannelSetRemoteChanGain (iId : Int) (fGain : F)
  | ChannelPrepAndSendPacket (vecCeltData : List Int) (iNumCodedBytes : Int)
  | ChannelGetData (iNumCodedBytes : Int)
  | ChannelUpdateSocketBufferSize
  | ChannelSetAddress (addr : CHostAddress)
  | ChannelSetEnable (bEnable : Bool)
  | ChannelDisconnect
  | ShowError
  | ProcessEventsWait
  | CreateCLDisconnection (addr : CHostAddress)
  | SignalLevelMeterReset
  | EmitConnecting (strServerName : String)
  | EmitDisconnected
  | EmitSoundDeviceChanged
  | EmitPingTimeReceived (iMs : Int)
  | EmitCLPingTimeWithNumClientsReceived (addr : CHostAddress) (iMs iNumClients : Int)
  | EmitControllerInFaderLevel (iChannelIdx iValue : Int)

/-! ## Collaborators -/

/-- Modelled from the spec: the conversion ring buffer class (`CBuffer`,
declared in `buffer.h`) is not among the sources. Following sections 2, 3 and
4.3 it is a first-in first-out store of samples of bounded capacity: `Init`
sets the capacity and empties it, `Put` pushes a block, `Get` pops a block into
the caller's vector, `GetAvailData` is the fill level. A push that does not fit
and a pop of more than the fill level are refused and change nothing. -/
structure CBuffer where
  iMemSize : Int
  data : List Int
  deriving DecidableEq, Repr

namespace CBuffer

/-- The call `Init ( iNewMemSize )`. -/
def Init (iNewMemSize : Int) : CBuffer :=
  { iMemSize := iNewMemSize, data := [] }

/-- The call `GetAvailData()`. -/
def GetAvailData (b : CBuffer) : Int :=
  (b.data.length : Int)

/-- The call `Put ( vecData, iInSize )`: the new ring and whether the block was
accepted. -/
def Put (b : CBuffer) (vecData : List Int) (iInSize : Int) : CBuffer × Bool :=
  if 0 ≤ iInSize ∧ b.GetAvailData + iInSize ≤ b.iMemSize then
    ({ b with data := b.data ++ vecData.take iInSize.toNat }, true)
  else
    (b, false)

/-- The call `Get ( vecData, iOutSize )`: the new ring, the caller's vector with
its first `iOutSize` entries overwritten, and whether the block was delivered. -/
def Get (b : CBuffer) (vecData : List Int) (iOutSize : Int) : CBuffer × List Int × Bool :=
  if 0 ≤ iOutSize ∧ iOutSize ≤ b.GetAvailData then
    ({ b with data := b.data.drop iOutSize.toNat },
      b.data.take iOutSize.toNat ++ vecData.drop iOutSize.toNat, true)
  else
    (b, vecData, false)

end CBuffer

/-- The sound device (`CSound`): whether it is started, and its answers to the
queries of `Init`. `bThrowsInInit` says that the device calls made by `Init`
raise `CGenErr`; `bStartThrows` and `bStartedAfterStart` describe the next
`Start()`: whether it raises `CGenErr` and whether `IsStarted()` holds after
it. -/
structure CSound where
  bStarted : Bool
  BufferSizeSupported : Int → Bool
  SetBufferSize : Int → Int
  bThrowsInInit : Bool
  bStartThrows : Bool
  bStartedAfterStart : Bool

/-- The channel (`CChannel`): enable flag and server address. -/
structure CChannel where
  bIsEnabled : Bool
  Address : CHostAddress

/-- The single-shot timer `TimerGain`. -/
structure QTimer where
  bActive : Bool
  iInterval : Int
  deriving DecidableEq, Repr

/-! ## Client state -/

/-- The members of `CClient` read or written by the functions modelled here. -/
structure CClient (F : Type) where
  Channel : CChannel
  Sound : CSound
  CurOpusEncoder : Option OpusInst
  CurOpusDecoder : Option OpusInst
  eAudioCompressionType : EAudComprType
  iCeltNumCodedBytes : Int
  iOPUSFrameSizeSamples : Int
  eAudioQuality : EAudioQuality
  eAudioChannelConf : EAudChanConf
  iNumAudioChannels : Int
  bIsInitializationPhase : Bool
  bMuteOutStream : Bool
  fMuteOutStreamGain : F
  vecCeltData : List Int
  vecbyNetwData : List Int
  iAudioInFader : Int
  bReverbOnLeftChan : Bool
  iReverbLevel : Int
  iSndCrdPrefFrameSizeFactor : Int
  iSndCrdFrameSizeFactor : Int
  bSndCrdConversionBufferRequired : Bool
  iSndCardMonoBlockSizeSamConvBuff : Int
  SndCrdConversionBufferIn : CBuffer
  SndCrdConversionBufferOut : CBuffer
  vecDataConvBuf : List Int
  vecsStereoSndCrdMuteStream : List Int
  vecZeros : List Int
  iMonoBlockSizeSam : Int
  iStereoBlockSizeSam : Int
  bFraSiFactPrefSupported : Bool
  bFraSiFactDefSupported : Bool
  bFraSiFactSafeSupported : Bool
  bEnableOPUS64 : Bool
  bEnableIPv6 : Bool
  TimerGain : QTimer
  oldGain : Int → F
  newGain : Int → F
  minGainId : Int
  maxGainId : Int
  iCurPingTime : Int
  log : List (Call F)

/-- The call `vec.Init ( iNewSize )` / `vec.Init ( iNewSize, 0 )` of `CVector`:
a vector of `iNewSize` zeros. -/
def vecInit (iNewSize : Int) : List Int :=
  List.replicate iNewSize.toNat 0

/-- The call `vec.Reset ( 0 )` of `CVector`: every entry is set to zero. -/
def vecReset (vec : List Int) : List Int :=
  List.replicate vec.length 0

namespace CClient

variable {F : Type}

/-! ## Init -/

/-- First part of `Init` (buffer negotiation): the support flags of the three
candidate sizes, the size granted by the device for the preferred size, and the
decision whether a conversion buffer is required. -/
def InitBufferSize (K : Consts) (c : CClient F) : CClient F :=
  let iFraSizePreffered := K.SYSTEM_FRAME_SIZE_SAMPLES * K.FRAME_SIZE_FACTOR_PREFERRED
  let iFraSizeDefault := K.SYSTEM_FRAME_SIZE_SAMPLES * K.FRAME_SIZE_FACTOR_DEFAULT
  let iFraSizeSafe := K.SYSTEM_FRAME_SIZE_SAMPLES * K.FRAME_SIZE_FACTOR_SAFE
  let iPrefMonoFrameSize := c.iSndCrdPrefFrameSizeFactor * K.SYSTEM_FRAME_SIZE_SAMPLES
  let c1 : CClient F :=
    { c with
      bFraSiFactPrefSupported := c.Sound.BufferSizeSupported iFraSizePreffered
      bFraSiFactDefSupported := c.Sound.BufferSizeSupported iFraSizeDefault
      bFraSiFactSafeSupported := c.Sound.BufferSizeSupported iFraSizeSafe
      iMonoBlockSizeSam := c.Sound.SetBufferSize iPrefMonoFrameSize
      log := c.log ++ [Call.SoundBufferSizeSupported iFraSizePreffered,
        Call.SoundBufferSizeSupported iFraSizeDefault,
        Call.SoundBufferSizeSupported iFraSizeSafe,
        Call.SoundSetBufferSize iPrefMonoFrameSize] }
  if (c1.iMonoBlockSizeSam = K.SYSTEM_FRAME_SIZE_SAMPLES * K.FRAME_SIZE_FACTOR_PREFERRED
        ∧ c1.bEnableOPUS64 = true)
      ∨ c1.iMonoBlockSizeSam = K.SYSTEM_FRAME_SIZE_SAMPLES * K.FRAME_SIZE_FACTOR_DEFAULT
      ∨ c1.iMonoBlockSizeSam = K.SYSTEM_FRAME_SIZE_SAMPLES * K.FRAME_SIZE_FACTOR_SAFE then
    { c1 with
      iSndCrdFrameSizeFactor := Int.tdiv c1.iMonoBlockSizeSam K.SYSTEM_FRAME_SIZE_SAMPLES
      bSndCrdConversionBufferRequired := false }
  else
    { c1 with
      bSndCrdConversionBufferRequired := true
      iSndCardMonoBlockSizeSamConvBuff := c1.iMonoBlockSizeSam
      iSndCrdFrameSizeFactor := 1 }

/-- Second part of `Init`: the OPUS frame size mode chosen from the current
mono block size. -/
def InitCompressionType (K : Consts) (c : CClient F) : CClient F :=
  if c.bSndCrdConversionBufferRequired = true then
    if c.iSndCardMonoBlockSizeSamConvBuff < K.DOUBLE_SYSTEM_FRAME_SIZE_SAMPLES
        ∧ c.bEnableOPUS64 = true then
      { c with
        iMonoBlockSizeSam := K.SYSTEM_FRAME_SIZE_SAMPLES
        eAudioCompressionType := EAudComprType.CT_OPUS64 }
    else
      { c with
        iMonoBlockSizeSam := K.DOUBLE_SYSTEM_FRAME_SIZE_SAMPLES
        eAudioCompressionType := EAudComprType.CT_OPUS }
  else
    if c.iMonoBlockSizeSam < K.DOUBLE_SYSTEM_FRAME_SIZE_SAMPLES then
      { c with eAudioCompressionType := EAudComprType.CT_OPUS64 }
    else
      { c with
        iSndCrdFrameSizeFactor := Int.tdiv c.iSndCrdFrameSizeFactor 2
        eAudioCompressionType := EAudComprType.CT_OPUS }

/-- Third part of `Init` ("inits for audio coding"): the active codec
instances, the number of audio channels and the number of coded bytes. -/
def InitAudioCoding (K : Consts) (c : CClient F) : CClient F :=
  if c.eAudioCompressionType = EAudComprType.CT_OPUS then
    if c.eAudioChannelConf = EAudChanConf.CC_MONO then
      { c with
        iOPUSFrameSizeSamples := K.DOUBLE_SYSTEM_FRAME_SIZE_SAMPLES
        CurOpusEncoder := some OpusInst.Mono
        CurOpusDecoder := some OpusInst.Mono
        iNumAudioChannels := 1
        iCeltNumCodedBytes :=
          match c.eAudioQuality with
          | EAudioQuality.AQ_LOW => K.OPUS_NUM_BYTES_MONO_LOW_QUALITY_DBLE_FRAMESIZE
          | EAudioQuality.AQ_NORMAL => K.OPUS_NUM_BYTES_MONO_NORMAL_QUALITY_DBLE_FRAMESIZE
          | EAudioQuality.AQ_HIGH => K.OPUS_NUM_BYTES_MONO_HIGH_QUALITY_DBLE_FRAMESIZE }
    else
      { c with
        iOPUSFrameSizeSamples := K.DOUBLE_SYSTEM_FRAME_SIZE_SAMPLES
        CurOpusEncoder := some OpusInst.Stereo
        CurOpusDecoder := some OpusInst.Stereo
        iNumAudioChannels := 2
        iCeltNumCodedBytes :=
          match c.eAudioQuality with
          | EAudioQuality.AQ_LOW => K.OPUS_NUM_BYTES_STEREO_LOW_QUALITY_DBLE_FRAMESIZE
          | EAudioQuality.AQ_NORMAL => K.OPUS_NUM_BYTES_STEREO_NORMAL_QUALITY_DBLE_FRAMESIZE
          | EAudioQuality.AQ_HIGH => K.OPUS_NUM_BYTES_STEREO_HIGH_QUALITY_DBLE_FRAMESIZE }
  else
    if c.eAudioChannelConf = EAudChanConf.CC_MONO then
      { c with
        iOPUSFrameSizeSamples := K.SYSTEM_FRAME_SIZE_SAMPLES
        CurOpusEncoder := some OpusInst.Mono64
        CurOpusDecoder := some OpusInst.Mono64
        iNumAudioChannels := 1
        iCeltNumCodedBytes :=
          match c.eAudioQuality with
          | EAudioQuality.AQ_LOW => K.OPUS_NUM_BYTES_MONO_LOW_QUALITY
          | EAudioQuality.AQ_NORMAL => K.OPUS_NUM_BYTES_MONO_NORMAL_QUALITY
          | EAudioQuality.AQ_HIGH => K.OPUS_NUM_BYTES_MONO_HIGH_QUALITY }
    else
      { c with
        iOPUSFrameSizeSamples := K.SYSTEM_FRAME_SIZE_SAMPLES
        CurOpusEncoder := some OpusInst.Stereo64
        CurOpusDecoder := some OpusInst.Stereo64
        iNumAudioChannels := 2
        iCeltNumCodedBytes :=
          match c.eAudioQuality with
          | EAudioQuality.AQ_LOW => K.OPUS_NUM_BYTES_STEREO_LOW_QUALITY
          | EAudioQuality.AQ_NORMAL => K.OPUS_NUM_BYTES_STEREO_NORMAL_QUALITY
          | EAudioQuality.AQ_HIGH => K.OPUS_NUM_BYTES_STEREO_HIGH_QUALITY }

/-- Fourth part of `Init`: the stereo block size, the work vectors, the bit
rate of the active encoder, the stream properties handed to the channel and the
reverberation. -/
def InitVectors (K : Consts) (c : CClient F) : CClient F :=
  let iStereo := 2 * c.iMonoBlockSizeSam
  { c with
    iStereoBlockSizeSam := iStereo
    vecCeltData := vecInit c.iCeltNumCodedBytes
    vecZeros := vecInit iStereo
    vecsStereoSndCrdMuteStream := vecInit iStereo
    vecbyNetwData := vecInit c.iCeltNumCodedBytes
    log := c.log ++ [Call.OpusSetBitrate c.CurOpusEncoder c.iCeltNumCodedBytes
        c.iOPUSFrameSizeSamples,
      Call.ChannelSetAudioStreamProperties c.eAudioCompressionType c.iCeltNumCodedBytes
        c.iSndCrdFrameSizeFactor c.iNumAudioChannels,
      Call.AudioReverbInit c.eAudioChannelConf iStereo K.SYSTEM_SAMPLE_RATE_HZ] }

/-- Last part of `Init`: the sound card conversion buffers, when required, and
the initialization phase flag. -/
def InitConversionBuffers (c : CClient F) : CClient F :=
  let c1 : CClient F :=
    if c.bSndCrdConversionBufferRequired = true then
      let iSndCardStereoBlockSizeSamConvBuff := 2 * c.iSndCardMonoBlockSizeSamConvBuff
      let iConBufSize := c.iStereoBlockSizeSam + iSndCardStereoBlockSizeSamConvBuff
      { c with
        SndCrdConversionBufferIn := CBuffer.Init iConBufSize
        SndCrdConversionBufferOut :=
          ((CBuffer.Init iConBufSize).Put c.vecZeros c.iStereoBlockSizeSam).1
        vecDataConvBuf := vecInit c.iStereoBlockSizeSam }
    else c
  { c1 with bIsInitializationPhase := true }

/-- The function `CClient::Init`. -/
def Init (K : Consts) (c : CClient F) : CClient F :=
  InitConversionBuffers (InitVectors K (InitAudioCoding K (InitCompressionType K
    (InitBufferSize K c))))

/-- The size the device grants when `Init` runs in state `c`, that is the value
returned by `Sound.SetBufferSize`. -/
def grantedSize (K : Consts) (c : CClient F) : Int :=
  c.Sound.SetBufferSize (c.iSndCrdPrefFrameSizeFactor * K.SYSTEM_FRAME_SIZE_SAMPLES)

/-- The arguments of the calls of `Channel.SetAudioStreamProperties` recorded in
a log, oldest first. -/
def streamPropsCalls : List (Call F) → List (EAudComprType × Int × Int × Int)
  | [] => []
  | Call.ChannelSetAudioStreamProperties t b f n :: l => (t, b, f, n) :: streamPropsCalls l
  | _ :: l => streamPropsCalls l

/-! ## Gain rate limiter -/

/-- Reduction of an integer to the range of a 32 bit `int` (two's complement):
the value left by an `int` operation whose exact result is `x`. -/
def wrapInt32 (x : Int) : Int :=
  (x + 2147483648) % 4294967296 - 2147483648

/-- The call `TimerGain.start ( msec )`. -/
def QTimerStart (msec : Int) : QTimer :=
  { bActive := true, iInterval := msec }

/-- The function `CClient::StartDelayTimer`: resets the range of channel IDs to
check and starts the delay timer. -/
def StartDelayTimer (K : Consts) (c : CClient F) : CClient F :=
  let c1 : CClient F := { c with maxGainId := 0, minGainId := K.MAX_NUM_CHANNELS }
  if c1.iCurPingTime < Int.tdiv K.DEFAULT_GAIN_DELAY_PERIOD_MS 2 then
    { c1 with TimerGain := QTimerStart K.DEFAULT_GAIN_DELAY_PERIOD_MS }
  else
    { c1 with TimerGain := QTimerStart (wrapInt32 (c1.iCurPingTime * 2)) }

/-- The function `CClient::SetRemoteChanGain`. -/
def SetRemoteChanGain (K : Consts) (c : CClient F) (iId : Int) (fGain : F)
    (bIsMyOwnFader : Bool) : CClient F :=
  let c1 : CClient F := if bIsMyOwnFader = true then { c with fMuteOutStreamGain := fGain } else c
  if c1.TimerGain.bActive = true then
    let c2 : CClient F := { c1 with newGain := Function.update c1.newGain iId fGain }
    let c3 : CClient F := if iId < c2.minGainId then { c2 with minGainId := iId } else c2
    let c4 : CClient F := if iId ≥ c3.maxGainId then { c3 with maxGainId := iId + 1 } else c3
    c4
  else
    let c2 : CClient F :=
      { c1 with
        newGain := Function.update c1.newGain iId fGain
        oldGain := Function.update c1.oldGain iId fGain
        log := c1.log ++ [Call.ChannelSetRemoteChanGain iId fGain] }
    StartDelayTimer K c2

/-- The loop of `OnTimerRemoteChanGain`: `n` iterations are left, the loop
variable is `iId`; `fne` is the comparison `!=` of `float`. The state carries
the flag `bSent`. -/
def OnTimerLoop (fne : F → F → Bool) : Nat → Int → CClient F × Bool → CClient F × Bool
  | 0, _, s => s
  | n + 1, iId, (c, bSent) =>
    if fne (c.newGain iId) (c.oldGain iId) = true then
      let fGain := c.newGain iId
      OnTimerLoop fne n (iId + 1)
        ({ c with
            oldGain := Function.update c.oldGain iId fGain
            log := c.log ++ [Call.ChannelSetRemoteChanGain iId fGain] }, true)
    else
      OnTimerLoop fne n (iId + 1) (c, bSent)

/-- The function `CClient::OnTimerRemoteChanGain`; the loop runs from
`minGainId` while `iId < maxGainId`. -/
def OnTimerRemoteChanGain (K : Consts) (fne : F → F → Bool) (c : CClient F) : CClient F :=
  let r := OnTimerLoop fne (c.maxGainId - c.minGainId).toNat c.minGainId (c, false)
  if r.2 = true then StartDelayTimer K r.1 else r.1

/-- Expiry of the single-shot timer `TimerGain`: the timer becomes inactive and
the connected slot `OnTimerRemoteChanGain` runs. -/
def TimerGainTimeout (K : Consts) (fne : F → F → Bool) (c : CClient F) : CClient F :=
  OnTimerRemoteChanGain K fne { c with TimerGain := { c.TimerGain with bActive := false } }

/-- All gain messages recorded in a log, oldest first. -/
def gainsSent : List (Call F) → List (Int × F)
  | [] => []
  | Call.ChannelSetRemoteChanGain i g :: l => (i, g) :: gainsSent l
  | _ :: l => gainsSent l

/-- A sequence of calls `SetRemoteChanGain ( iId, g, b )` for one channel, in
order, with no timer expiry in between. -/
def SetRemoteChanGainSeq (K : Consts) (c : CClient F) (iId : Int) : List (F × Bool) → CClient F
  | [] => c
  | (g, b) :: l => SetRemoteChanGainSeq K (SetRemoteChanGain K c iId g b) iId l

/-- The last gain of a burst of calls that starts with gain `g` and continues
with the calls `l`. -/
def lastGain (g : F) : List (F × Bool) → F
  | [] => g
  | (g', _) :: l => lastGain g' l

/-! ## Frame pipeline -/

/-- The constant `AUD_FADER_IN_MAX` of `settings.h`. -/
def AUD_FADER_IN_MAX : Int := 100

/-- The constant `AUD_FADER_IN_MIDDLE` of `settings.h`. -/
def AUD_FADER_IN_MIDDLE : Int := Int.tdiv AUD_FADER_IN_MAX 2

/-- Read of `vec[i]` (zero outside the vector). -/
def vecGet (v : List Int) (i : Int) : Int :=
  if 0 ≤ i then v.getD i.toNat 0 else 0

/-- Write `vec[i] = x` (no effect outside the vector). -/
def vecSet (v : List Int) (i : Int) (x : Int) : List Int :=
  if 0 ≤ i then v.set i.toNat x else v

/-- Write of the block `pcm` at `&vec[off]`. -/
def vecWriteAt : List Int → Nat → List Int → List Int
  | v, _, [] => v
  | v, off, x :: xs => vecWriteAt (v.set off x) (off + 1) xs

/-- Write of the block `pcm` at `&vec[iOff]` for an `int` offset. -/
def vecWrite (v : List Int) (iOff : Int) (pcm : List Int) : List Int :=
  if 0 ≤ iOff then vecWriteAt v iOff.toNat pcm else v

/-- Result of a primitive that works in place on the caller's vector `v` and
leaves the samples `w` in it: the vector keeps its size. -/
def vecInPlace (v w : List Int) : List Int :=
  (w ++ v.drop w.length).take v.length

/-- What one run of `ProcessAudioDataIntern` obtains from its collaborators:
the signal processing primitives (which compute with `float` and keep internal
state, so they are arbitrary functions here), the answers of `Channel.GetData`
for the sub-frames and the answer of `Channel.IsConnected()`. -/
structure CFrameEnv (F : Type) where
  ReverbProcess : List Int → Bool → Int → List Int
  PanStereo : Int → Int → List Int → List Int
  PanMono : Int → Int → List Int → List Int
  Encode : Option OpusInst → Nat → List Int → Int → Int → List Int
  GetData : Nat → Int → EGetDataStat × List Int
  Decode : Option OpusInst → Nat → Option (List Int) → Int → Int → List Int
  MuteMix : Int → Int → F → Int
  IsConnected : Bool

/-- The loop copying mono data into the stereo buffer from the end:
`for ( i = iMono - 1, j = iStereo - 2; i >= 0; i--, j -= 2 )
 vec[j] = vec[j + 1] = vec[i]`, with `n` iterations left. -/
def MonoToStereoLoop : Nat → Int → Int → List Int → List Int
  | 0, _, _, v => v
  | n + 1, i, j, v =>
    let x := vecGet v i
    MonoToStereoLoop n (i - 1) (j - 2) (vecSet (vecSet v (j + 1) x) j x)

/-- The mono to stereo copy for the block sizes of the client. -/
def MonoToStereo (c : CClient F) (v : List Int) : List Int :=
  MonoToStereoLoop c.iMonoBlockSizeSam.toNat (c.iMonoBlockSizeSam - 1)
    (c.iStereoBlockSizeSam - 2) v

/-- The encode and send loop, `n` iterations left, loop variable `i`. -/
def EncodeLoop (env : CFrameEnv F) (vec : List Int) : Nat → Nat → CClient F → CClient F
  | 0, _, c => c
  | n + 1, i, c =>
    let iOff : Int := (i : Int) * c.iNumAudioChannels * c.iOPUSFrameSizeSamples
    let c1 : CClient F :=
      if c.CurOpusEncoder ≠ none then
        let pcm := if c.bMuteOutStream = true then c.vecZeros.drop iOff.toNat
          else vec.drop iOff.toNat
        { c with vecCeltData :=
            (env.Encode c.CurOpusEncoder i pcm c.iOPUSFrameSizeSamples c.iCeltNumCodedBytes) }
      else c
    EncodeLoop env vec n (i + 1)
      { c1 with log := c1.log ++
          [Call.ChannelPrepAndSendPacket c1.vecCeltData c1.iCeltNumCodedBytes] }

/-- The receive and decode loop, `n` iterations left, loop variable `i`. -/
def DecodeLoop (env : CFrameEnv F) : Nat → Nat → CClient F × List Int → CClient F × List Int
  | 0, _, s => s
  | n + 1, i, (c, vec) =>
    let r := env.GetData i c.iCeltNumCodedBytes
    let c1 : CClient F :=
      { c with
        vecbyNetwData := r.2
        log := c.log ++ [Call.ChannelGetData c.iCeltNumCodedBytes] }
    let c2 : CClient F :=
      if r.1 = EGetDataStat.GS_BUFFER_OK then { c1 with bIsInitializationPhase := false } else c1
    let pCurCodedData : Option (List Int) :=
      if r.1 = EGetDataStat.GS_BUFFER_OK then some c1.vecbyNetwData else none
    let vec1 :=
      if c2.CurOpusDecoder ≠ none then
        vecWrite vec ((i : Int) * c2.iNumAudioChannels * c2.iOPUSFrameSizeSamples)
          (env.Decode c2.CurOpusDecoder i pCurCodedData c2.iCeltNumCodedBytes
            c2.iOPUSFrameSizeSamples)
      else vec
    DecodeLoop env n (i + 1) (c2, vec1)

/-- The loop adding the local data for a muted stream, `n` iterations left. -/
def MuteMixLoop (env : CFrameEnv F) (c : CClient F) : Nat → Int → List Int → List Int
  | 0, _, v => v
  | n + 1, i, v =>
    MuteMixLoop env c n (i + 1)
      (vecSet v i (env.MuteMix (vecGet v i) (vecGet c.vecsStereoSndCrdMuteStream i)
        c.fMuteOutStreamGain))

/-- Transmit side of `ProcessAudioDataIntern` up to the encoder: the
reverberation, the pan and mix of mono signals, and the copy for mono-in /
stereo-out, applied to the block `vec0`. (The level meter update reads the
block only.) -/
def TransmitPrepare (env : CFrameEnv F) (c : CClient F) (vec0 : List Int) : List Int :=
  let vec1 :=
    if c.iReverbLevel ≠ 0 then
      vecInPlace vec0 (env.ReverbProcess vec0 c.bReverbOnLeftChan c.iReverbLevel)
    else vec0
  let vec2 :=
    if c.iAudioInFader ≠ AUD_FADER_IN_MIDDLE ∨ c.eAudioChannelConf ≠ EAudChanConf.CC_STEREO then
      if c.eAudioChannelConf = EAudChanConf.CC_STEREO then
        vecInPlace vec1 (env.PanStereo c.iAudioInFader c.iMonoBlockSizeSam vec1)
      else
        vecInPlace vec1 (env.PanMono c.iAudioInFader c.iMonoBlockSizeSam vec1)
    else vec1
  if c.eAudioChannelConf = EAudChanConf.CC_MONO_IN_STEREO_OUT then MonoToStereo c vec2
  else vec2

/-- Middle of `ProcessAudioDataIntern`: encoding and sending of the prepared
block `vec3`, storing of the local data for a muted stream, receiving and
decoding, and adding of the local data for a muted stream. -/
def EncodeDecode (env : CFrameEnv F) (c : CClient F) (vec3 : List Int) :
    CClient F × List Int :=
  let c1 := EncodeLoop env vec3 c.iSndCrdFrameSizeFactor.toNat 0 c
  let c2 : CClient F :=
    if c1.bMuteOutStream = true then { c1 with vecsStereoSndCrdMuteStream := vec3 } else c1
  let r := DecodeLoop env c2.iSndCrdFrameSizeFactor.toNat 0 (c2, vec3)
  (r.1,
    if r.1.bMuteOutStream = true then MuteMixLoop env r.1 r.1.iStereoBlockSizeSam.toNat 0 r.2
    else r.2)

/-- The function `CClient::ProcessAudioDataIntern` on the block `vec0`: the new
client state and the block left in the caller's vector. -/
def ProcessAudioDataIntern (env : CFrameEnv F) (c : CClient F) (vec0 : List Int) :
    CClient F × List Int :=
  let r := EncodeDecode env c (TransmitPrepare env c vec0)
  let vec5 :=
    if env.IsConnected = true ∧ r.1.bIsInitializationPhase = false then
      if r.1.eAudioChannelConf = EAudChanConf.CC_MONO then MonoToStereo r.1 r.2 else r.2
    else
      vecReset r.2
  ({ r.1 with log := r.1.log ++ [Call.ChannelUpdateSocketBufferSize] }, vec5)

/-- Body of the loop of `ProcessSndCrdAudioData`: one block of data is taken
out of the input conversion buffer, processed, and put into the output
conversion buffer. -/
def ConvLoopBody (env : CFrameEnv F) (c : CClient F) : CClient F :=
  let g := c.SndCrdConversionBufferIn.Get c.vecDataConvBuf c.iStereoBlockSizeSam
  let c1 : CClient F := { c with SndCrdConversionBufferIn := g.1, vecDataConvBuf := g.2.1 }
  let r := ProcessAudioDataIntern env c1 c1.vecDataConvBuf
  let c2 : CClient F := { r.1 with vecDataConvBuf := r.2 }
  { c2 with SndCrdConversionBufferOut :=
      (c2.SndCrdConversionBufferOut.Put c2.vecDataConvBuf c2.iStereoBlockSizeSam).1 }

/-- The loop `while ( SndCrdConversionBufferIn.GetAvailData() >=
iStereoBlockSizeSam )` of `ProcessSndCrdAudioData`; `k` counts the engine
frames already processed in this call and selects the environment of the next
one. The result is `none` when the loop has not ended within `fuel` tests of
its condition. -/
def ConvLoop (envs : Nat → CFrameEnv F) : Nat → Nat → CClient F → Option (CClient F)
  | 0, _, _ => none
  | fuel + 1, k, c =>
    if c.SndCrdConversionBufferIn.GetAvailData ≥ c.iStereoBlockSizeSam then
      ConvLoop envs fuel (k + 1) (ConvLoopBody (envs k) c)
    else some c

/-- The function `CClient::ProcessSndCrdAudioData` on the device block `vec`:
the new client state and the block returned to the caller, or `none` when the
conversion loop has not ended within `fuel` tests. -/
def ProcessSndCrdAudioData (fuel : Nat) (envs : Nat → CFrameEnv F) (c : CClient F)
    (vec : List Int) : Option (CClient F × List Int) :=
  if c.bSndCrdConversionBufferRequired = true then
    let c1 : CClient F :=
      { c with SndCrdConversionBufferIn :=
          (c.SndCrdConversionBufferIn.Put vec (vec.length : Int)).1 }
    match ConvLoop envs fuel 0 c1 with
    | none => none
    | some c2 =>
      let g := c2.SndCrdConversionBufferOut.Get vec (vec.length : Int)
      some ({ c2 with SndCrdConversionBufferOut := g.1 }, g.2.1)
  else
    some (ProcessAudioDataIntern (envs 0) c vec)

/-- One device callback: the settings in force when it runs (they are changed
by setters that do not run `Init`), the environments of the engine frames it
processes and the device block. -/
structure CInvocation (F : Type) where
  bMuteOutStream : Bool
  fMuteOutStreamGain : F
  iReverbLevel : Int
  bReverbOnLeftChan : Bool
  iAudioInFader : Int
  envs : Nat → CFrameEnv F
  vec : List Int

/-- The client with the settings of an invocation in force. -/
def applySettings (c : CClient F) (inv : CInvocation F) : CClient F :=
  { c with
    bMuteOutStream := inv.bMuteOutStream
    fMuteOutStreamGain := inv.fMuteOutStreamGain
    iReverbLevel := inv.iReverbLevel
    bReverbOnLeftChan := inv.bReverbOnLeftChan
    iAudioInFader := inv.iAudioInFader }

/-- A sequence of device callbacks: the final state and the blocks returned to
the device, in order; `none` when one of the calls has not ended within
`fuel`. -/
def runPipeline (fuel : Nat) : CClient F → List (CInvocation F) →
    Option (CClient F × List (List Int))
  | c, [] => some (c, [])
  | c, inv :: rest =>
    match ProcessSndCrdAudioData fuel inv.envs (applySettings c inv) inv.vec with
    | none => none
    | some r =>
      match runPipeline fuel r.1 rest with
      | none => none
      | some q => some (q.1, r.2 :: q.2)

/-- The frames of one device callback are silenced: the channel is not
connected when any of them is processed, or the client is in its
initialization phase and no `GetData` delivers a packet. -/
def SilentFrames (envs : Nat → CFrameEnv F) (c : CClient F) : Prop :=
  (∀ j, (envs j).IsConnected = false)
    ∨ (c.bIsInitializationPhase = true
      ∧ ∀ j i n, ((envs j).GetData i n).1 ≠ EGetDataStat.GS_BUFFER_OK)

/-- State of the conversion buffers between two device callbacks, for a stereo
engine frame of `E` samples and a stereo device block of `D` samples: both
rings have capacity `E + D`, their fill levels sum to `E`, and the input ring
holds less than one engine frame. -/
def RingInv (E D : Int) (c : CClient F) : Prop :=
  c.bSndCrdConversionBufferRequired = true
    ∧ c.iStereoBlockSizeSam = E
    ∧ 0 < E
    ∧ c.SndCrdConversionBufferIn.iMemSize = E + D
    ∧ c.SndCrdConversionBufferOut.iMemSize = E + D
    ∧ c.SndCrdConversionBufferIn.GetAvailData + c.SndCrdConversionBufferOut.GetAvailData = E
    ∧ c.SndCrdConversionBufferIn.GetAvailData < E

/-! ## Connection life cycle -/

/-- The call `Sound.Start()`. -/
def SoundStart (c : CClient F) : CClient F :=
  { c with
    Sound := { c.Sound with bStarted := c.Sound.bStartedAfterStart }
    log := c.log ++ [Call.SoundStart] }

/-- The call `Sound.Stop()`. -/
def SoundStop (c : CClient F) : CClient F :=
  { c with
    Sound := { c.Sound with bStarted := false }
    log := c.log ++ [Call.SoundStop] }

/-- The call `Channel.SetEnable ( bEnable )`. -/
def ChannelSetEnable (c : CClient F) (bEnable : Bool) : CClient F :=
  { c with
    Channel := { c.Channel with bIsEnabled := bEnable }
    log := c.log ++ [Call.ChannelSetEnable bEnable] }

/-- Emission of a signal, or a call without effect on the modelled state. -/
def emit (c : CClient F) (e : Call F) : CClient F :=
  { c with log := c.log ++ [e] }

/-- The function `CClient::SetServerAddr`; `ParseNetworkAddress` is the parser
of `NetworkUtil`, which answers `none` for an invalid address. -/
def SetServerAddr (ParseNetworkAddress : String → Bool → Option CHostAddress)
    (c : CClient F) (strNAddr : String) : CClient F × Bool :=
  match ParseNetworkAddress strNAddr c.bEnableIPv6 with
  | some HostAddress =>
    ({ c with
        Channel := { c.Channel with Address := HostAddress }
        log := c.log ++ [Call.ChannelSetAddress HostAddress] }, true)
  | none => (c, false)

/-- The `try` block of `Connect` with its `catch` handler: `Init`, enabling the
channel and starting the device; when `CGenErr` is raised the remaining
statements are skipped and the error is shown. A run of `Init` that raises is
taken to raise at its first device call. -/
def ConnectTry (K : Consts) (c : CClient F) : CClient F :=
  if c.Sound.bThrowsInInit = true then
    emit c Call.ShowError
  else
    let c1 := Init K c
    let c2 := ChannelSetEnable c1 true
    let c3 := SoundStart c2
    if c2.Sound.bStartThrows = true then emit c3 Call.ShowError else c3

/-- The function `CClient::Connect`: the new state and the returned value. -/
def Connect (K : Consts) (ParseNetworkAddress : String → Bool → Option CHostAddress)
    (c : CClient F) (strSelectedAddress strServerName : String) : CClient F × Bool :=
  if c.Channel.bIsEnabled = false then
    let r := SetServerAddr ParseNetworkAddress c strSelectedAddress
    if r.2 = true then
      let c2 := ConnectTry K r.1
      if c2.Channel.bIsEnabled = true ∧ c2.Sound.bStarted = true then
        (emit c2 (Call.EmitConnecting strServerName), true)
      else
        let c3 := SoundStop c2
        let c4 := ChannelSetEnable c3 false
        (emit c4 Call.EmitDisconnected, false)
    else
      (r.1, r.1.Channel.bIsEnabled)
  else
    (c, c.Channel.bIsEnabled)

/-- The function `CClient::Disconnect`: the new state and the returned value.
The wait loop of about 100 ms that processes the pending events is the single
entry `ProcessEventsWait`. -/
def Disconnect (c : CClient F) : CClient F × Bool :=
  if c.Channel.bIsEnabled = true then
    let c1 := emit c Call.ChannelDisconnect
    let c2 := emit c1 Call.ProcessEventsWait
    let c3 := emit c2 (Call.CreateCLDisconnection c2.Channel.Address)
    let c4 := ChannelSetEnable c3 false
    let c5 := SoundStop c4
    let c6 := emit c5 Call.SignalLevelMeterReset
    let c7 := emit c6 Call.EmitDisconnected
    (c7, !c7.Channel.bIsEnabled)
  else
    (c, !c.Channel.bIsEnabled)

/-! ## Ping handling -/

/-- The function `CClient::EvaluatePingMessage`: the difference between the
current time `iElapsed` (the value of `PreciseTime.elapsed()`, in ms) and the
received time, as the `int` that is returned. -/
def EvaluatePingMessage (iElapsed iMs : Int) : Int :=
  wrapInt32 (iElapsed - iMs)

/-- The function `CClient::OnCLPingReceived`; `iElapsed` is the value of
`PreciseTime.elapsed()` when it runs. -/
def OnCLPingReceived (iElapsed : Int) (c : CClient F) (InetAddr : CHostAddress) (iMs : Int) :
    CClient F :=
  if c.Sound.bStarted = true ∧ InetAddr = c.Channel.Address then
    let iCurDiff := EvaluatePingMessage iElapsed iMs
    if iCurDiff ≥ 0 then
      { c with
        iCurPingTime := iCurDiff
        log := c.log ++ [Call.EmitPingTimeReceived iCurDiff] }
    else c
  else c

/-- The function `CClient::OnCLPingWithNumClientsReceived`. -/
def OnCLPingWithNumClientsReceived (iElapsed : Int) (c : CClient F) (InetAddr : CHostAddress)
    (iMs iNumClients : Int) : CClient F :=
  let iCurDiff := EvaluatePingMessage iElapsed iMs
  if iCurDiff ≥ 0 then
    emit c (Call.EmitCLPingTimeWithNumClientsReceived InetAddr iCurDiff iNumClients)
  else c

/-- The round-trip values emitted by `PingTimeReceived` and
`CLPingTimeWithNumClientsReceived` recorded in a log, oldest first. -/
def pingTimesEmitted : List (Call F) → List Int
  | [] => []
  | Call.EmitPingTimeReceived iMs :: l => iMs :: pingTimesEmitted l
  | Call.EmitCLPingTimeWithNumClientsReceived _ iMs _ :: l => iMs :: pingTimesEmitted l
  | _ :: l => pingTimesEmitted l

/-! ## Operations of the gain rate limiter -/

/-- An operation on the gain rate limiter: a call of one of its three
functions, or the expiry of the timer. -/
inductive GainOp (F : Type) where
  | SetRemoteChanGain (iId : Int) (fGain : F) (bIsMyOwnFader : Bool)
  | OnTimerRemoteChanGain
  | TimerGainTimeout
  | StartDelayTimer

/-- The state after an operation on the gain rate limiter. -/
def applyGainOp (K : Consts) (fne : F → F → Bool) (c : CClient F) : GainOp F → CClient F
  | GainOp.SetRemoteChanGain iId fGain b => SetRemoteChanGain K c iId fGain b
  | GainOp.OnTimerRemoteChanGain => OnTimerRemoteChanGain K fne c
  | GainOp.TimerGainTimeout => TimerGainTimeout K fne c
  | GainOp.StartDelayTimer => StartDelayTimer K c

/-- The state after a sequence of operations on the gain rate limiter. -/
def runGainOps (K : Consts) (fne : F → F → Bool) : CClient F → List (GainOp F) → CClient F
  | c, [] => c
  | c, op :: ops => runGainOps K fne (applyGainOp K fne c op) ops

/-- The channel id of an operation lies in `[0, MAX_NUM_CHANNELS)`. -/
def GainOp.idInRange (K : Consts) : GainOp F → Prop
  | GainOp.SetRemoteChanGain iId _ _ => 0 ≤ iId ∧ iId < K.MAX_NUM_CHANNELS
  | _ => True

/-- The two shapes of the range of channel ids to check: the value set by
`StartDelayTimer` (`minGainId = MAX_NUM_CHANNELS`, `maxGainId = 0`), or a
non-empty interval of valid ids. -/
def DirtyRangeInv (K : Consts) (c : CClient F) : Prop :=
  (c.minGainId = K.MAX_NUM_CHANNELS ∧ c.maxGainId = 0)
    ∨ (0 ≤ c.minGainId ∧ c.minGainId < c.maxGainId ∧ c.maxGainId ≤ K.MAX_NUM_CHANNELS)

/-- The `n` consecutive integers from `iId` on, in increasing order. -/
def idsFrom (iId : Int) : Nat → List Int
  | 0 => []
  | n + 1 => iId :: idsFrom (iId + 1) n

/-- The channel ids `minGainId <= id < maxGainId`, in increasing order. -/
def dirtyIds (c : CClient F) : List Int :=
  idsFrom c.minGainId (c.maxGainId - c.minGainId).toNat

/-- The messages due at a timer expiry, in the words of the specification: for
every channel id in the range whose pending gain differs from the last sent
one, the id with its pending gain. -/
def pendingSends (fne : F → F → Bool) (c : CClient F) : List (Int × F) :=
  ((dirtyIds c).filter (fun i => fne (c.newGain i) (c.oldGain i))).map
    (fun i => (i, c.newGain i))

/-! ## Codec mode table -/

/-- The codec mode table in the words of the specification: the number of coded
bytes for a compression type (long frames for `CT_OPUS`, short frames
otherwise), mono or stereo, and a quality. -/
def codedBytesFor (K : Consts) (eType : EAudComprType) (bMono : Bool) (q : EAudioQuality) :
    Int :=
  match eType, bMono, q with
  | EAudComprType.CT_OPUS, true, EAudioQuality.AQ_LOW =>
    K.OPUS_NUM_BYTES_MONO_LOW_QUALITY_DBLE_FRAMESIZE
  | EAudComprType.CT_OPUS, true, EAudioQuality.AQ_NORMAL =>
    K.OPUS_NUM_BYTES_MONO_NORMAL_QUALITY_DBLE_FRAMESIZE
  | EAudComprType.CT_OPUS, true, EAudioQuality.AQ_HIGH =>
    K.OPUS_NUM_BYTES_MONO_HIGH_QUALITY_DBLE_FRAMESIZE
  | EAudComprType.CT_OPUS, false, EAudioQuality.AQ_LOW =>
    K.OPUS_NUM_BYTES_STEREO_LOW_QUALITY_DBLE_FRAMESIZE
  | EAudComprType.CT_OPUS, false, EAudioQuality.AQ_NORMAL =>
    K.OPUS_NUM_BYTES_STEREO_NORMAL_QUALITY_DBLE_FRAMESIZE
  | EAudComprType.CT_OPUS, false, EAudioQuality.AQ_HIGH =>
    K.OPUS_NUM_BYTES_STEREO_HIGH_QUALITY_DBLE_FRAMESIZE
  | _, true, EAudioQuality.AQ_LOW => K.OPUS_NUM_BYTES_MONO_LOW_QUALITY
  | _, true, EAudioQuality.AQ_NORMAL => K.OPUS_NUM_BYTES_MONO_NORMAL_QUALITY
  | _, true, EAudioQuality.AQ_HIGH => K.OPUS_NUM_BYTES_MONO_HIGH_QUALITY
  | _, false, EAudioQuality.AQ_LOW => K.OPUS_NUM_BYTES_STEREO_LOW_QUALITY
  | _, false, EAudioQuality.AQ_NORMAL => K.OPUS_NUM_BYTES_STEREO_NORMAL_QUALITY
  | _, false, EAudioQuality.AQ_HIGH => K.OPUS_NUM_BYTES_STEREO_HIGH_QUALITY

/-- The codec instance of a compression type and channel count: the one of the
four instances built for that frame size class and that number of channels. -/
def codecInstFor (eType : EAudComprType) (bMono : Bool) : OpusInst :=
  match eType, bMono with
  | EAudComprType.CT_OPUS, true => OpusInst.Mono
  | EAudComprType.CT_OPUS, false => OpusInst.Stereo
  | _, true => OpusInst.Mono64
  | _, false => OpusInst.Stereo64

/-- The bit rate settings recorded in a log, oldest first. -/
def bitrateCalls : List (Call F) → List (Option OpusInst × Int × Int)
  | [] => []
  | Call.OpusSetBitrate e b n :: l => (e, b, n) :: bitrateCalls l
  | _ :: l => bitrateCalls l

/-! ## Channel calls of the frame pipeline -/

/-- The byte counts of the packets handed to `Channel.PrepAndSendPacket`
recorded in a log, oldest first. -/
def sendPacketCalls : List (Call F) → List Int
  | [] => []
  | Call.ChannelPrepAndSendPacket _ n :: l => n :: sendPacketCalls l
  | _ :: l => sendPacketCalls l

/-- The byte counts requested from `Channel.GetData` recorded in a log, oldest
first. -/
def getDataCalls : List (Call F) → List Int
  | [] => []
  | Call.ChannelGetData n :: l => n :: getDataCalls l
  | _ :: l => getDataCalls l

/-! ## Outcome of the conversion buffer operations -/

/-- The outcomes (accepted or refused) of the two conversion buffer operations
of one pass of the loop of `ProcessSndCrdAudioData`, in program order: the
`Get` from the input buffer and the `Put` into the output buffer. -/
def ConvLoopBodyFlags (env : CFrameEnv F) (c : CClient F) : List Bool :=
  let g := c.SndCrdConversionBufferIn.Get c.vecDataConvBuf c.iStereoBlockSizeSam
  let c1 : CClient F := { c with SndCrdConversionBufferIn := g.1, vecDataConvBuf := g.2.1 }
  let r := ProcessAudioDataIntern env c1 c1.vecDataConvBuf
  let c2 : CClient F := { r.1 with vecDataConvBuf := r.2 }
  [g.2.2, (c2.SndCrdConversionBufferOut.Put c2.vecDataConvBuf c2.iStereoBlockSizeSam).2]

/-- The outcomes of the conversion buffer operations of the loop of
`ProcessSndCrdAudioData`, in program order. -/
def ConvLoopFlags (envs : Nat → CFrameEnv F) : Nat → Nat → CClient F → List Bool
  | 0, _, _ => []
  | fuel + 1, k, c =>
    if c.SndCrdConversionBufferIn.GetAvailData ≥ c.iStereoBlockSizeSam then
      ConvLoopBodyFlags (envs k) c ++ ConvLoopFlags envs fuel (k + 1) (ConvLoopBody (envs k) c)
    else []

/-- The outcomes of all conversion buffer operations of one call of
`ProcessSndCrdAudioData`, in program order: the `Put` of the device block, the
operations of the loop, and the final `Get` of the device block. -/
def ProcessSndCrdAudioDataFlags (fuel : Nat) (envs : Nat → CFrameEnv F) (c : CClient F)
    (vec : List Int) : List Bool :=
  if c.bSndCrdConversionBufferRequired = true then
    let p := c.SndCrdConversionBufferIn.Put vec (vec.length : Int)
    let c1 : CClient F := { c with SndCrdConversionBufferIn := p.1 }
    p.2 :: (ConvLoopFlags envs fuel 0 c1 ++
      match ConvLoop envs fuel 0 c1 with
      | none => []
      | some c2 => [(c2.SndCrdConversionBufferOut.Get vec (vec.length : Int)).2.2])
  else []

/-- The outcomes of all conversion buffer operations of a sequence of device
callbacks. -/
def runPipelineFlags (fuel : Nat) : CClient F → List (CInvocation F) → List Bool
  | _, [] => []
  | c, inv :: rest =>
    ProcessSndCrdAudioDataFlags fuel inv.envs (applySettings c inv) inv.vec ++
      match ProcessSndCrdAudioData fuel inv.envs (applySettings c inv) inv.vec with
      | none => []
      | some r => runPipelineFlags fuel r.1 rest

/-! ## Delay estimate -/

/-- The sound card term `fTotalSoundCardDelayMs` of
`CClient::EstimatedOverallDelay`, evaluated over the rationals in place of
`float`. The arguments are the values of
`GetSndCrdConvBufAdditionalDelayMonoBlSize()` and `GetSndCrdActualMonoBlSize()`
(getters declared in `client.h`, which is not among the sources) and of
`Sound.GetInOutLatencyMs()`. The product `3 * GetSndCrdActualMonoBlSize()` is
an `int` product. -/
def fTotalSoundCardDelayMs (K : Consts)
    (iSndCrdConvBufAdditionalDelayMonoBlSize iSndCrdActualMonoBlSize : Int)
    (fSoundCardInputOutputLatencyMs : Rat) : Rat :=
  let fTotal0 : Rat :=
    (iSndCrdConvBufAdditionalDelayMonoBlSize : Rat) * 1000 / (K.SYSTEM_SAMPLE_RATE_HZ : Rat)
  if fSoundCardInputOutputLatencyMs = 0 then
    fTotal0 + ((wrapInt32 (3 * iSndCrdActualMonoBlSize) : Int) : Rat) * 1000
      / (K.SYSTEM_SAMPLE_RATE_HZ : Rat)
  else
    fTotal0 + fSoundCardInputOutputLatencyMs

/-! ## Delay estimate in single precision -/

/-- The loop of `MonoToStereoLoop` with every vector access checked: the result
is `none` as soon as one of the indices `i`, `j`, `j + 1` of an iteration lies
outside the vector. -/
def MonoToStereoLoopChecked : Nat → Int → Int → List Int → Option (List Int)
  | 0, _, _, v => some v
  | n + 1, i, j, v =>
    if 0 ≤ i ∧ i < (v.length : Int) ∧ 0 ≤ j ∧ j + 1 < (v.length : Int) then
      let x := vecGet v i
      MonoToStereoLoopChecked n (i - 1) (j - 2) (vecSet (vecSet v (j + 1) x) j x)
    else none

/-! ## Reinitialisation with the device stopped -/

/-- Modelled from the spec: the helper `CSoundBase::CSoundStopper` (declared in
`soundbase.h`) is not among the sources. Following section 4.5 and the comments
at its uses ("if client was running then first stop it and restart again after
new initialization"), its constructor stops the device when it is running and
remembers whether it was. -/
def CSoundStopperEnter (c : CClient F) : CClient F × Bool :=
  if c.Sound.bStarted = true then (SoundStop c, true) else (c, false)

/-- Modelled from the spec: the destructor of `CSoundBase::CSoundStopper`, which
starts the device again when it was running. -/
def CSoundStopperLeave (c : CClient F) (bWasStarted : Bool) : CClient F :=
  if bWasStarted = true then SoundStart c else c

/-- The call `Sound.ReloadDevice()`; `Reload` gives the device after the
reload. -/
def SoundReloadDevice (Reload : CSound → CSound) (c : CClient F) : CClient F :=
  { c with
    Sound := Reload c.Sound
    log := c.log ++ [Call.SoundReloadDevice] }

/-- The function `CClient::OnSndCrdReinitRequest` for a device whose calls do
not raise; the lock `MutexDriverReinit` is not modelled. A value of
`iSndCrdResetType` that is none of the three enumerators takes the path of
`RS_ONLY_RESTART_AND_INIT` and is not modelled separately. -/
def OnSndCrdReinitRequest (K : Consts) (Reload : CSound → CSound) (c : CClient F)
    (eSndCrdResetType : tSndCrdResetType) : CClient F :=
  let s := CSoundStopperEnter c
  let c1 : CClient F :=
    if eSndCrdResetType ≠ tSndCrdResetType.RS_ONLY_RESTART then
      let c2 : CClient F :=
        if eSndCrdResetType = tSndCrdResetType.RS_RELOAD_RESTART_AND_INIT then
          SoundReloadDevice Reload s.1
        else s.1
      Init K c2
    else s.1
  emit (CSoundStopperLeave c1 s.2) Call.EmitSoundDeviceChanged

/-- The function `CClient::SetSndCrdPrefFrameSizeFactor` for a device whose
calls do not raise. -/
def SetSndCrdPrefFrameSizeFactor (K : Consts) (c : CClient F) (iNewFactor : Int) : CClient F :=
  if iNewFactor = K.FRAME_SIZE_FACTOR_PREFERRED ∨ iNewFactor = K.FRAME_SIZE_FACTOR_DEFAULT
      ∨ iNewFactor = K.FRAME_SIZE_FACTOR_SAFE then
    let s := CSoundStopperEnter c
    let c1 : CClient F := { s.1 with iSndCrdPrefFrameSizeFactor := iNewFactor }
    CSoundStopperLeave (Init K c1) s.2
  else c

/-- The sizes asked for in the calls of `Sound.SetBufferSize` recorded in a
log, oldest first. -/
def setBufferSizeCalls : List (Call F) → List Int
  | [] => []
  | Call.SoundSetBufferSize n :: l => n :: setBufferSizeCalls l
  | _ :: l => setBufferSizeCalls l

/-- The device calls and the signal `SoundDeviceChanged` recorded in a log,
oldest first; the calls made by `Init` are represented by its call of
`Sound.SetBufferSize`. -/
def deviceCalls : List (Call F) → List (Call F)
  | [] => []
  | Call.SoundStop :: l => Call.SoundStop :: deviceCalls l
  | Call.SoundStart :: l => Call.SoundStart :: deviceCalls l
  | Call.SoundReloadDevice :: l => Call.SoundReloadDevice :: deviceCalls l
  | Call.SoundSetBufferSize n :: l => Call.SoundSetBufferSize n :: deviceCalls l
  | Call.EmitSoundDeviceChanged :: l => Call.EmitSoundDeviceChanged :: deviceCalls l
  | _ :: l => deviceCalls l

/-! ## Events of the gain rate limiter -/

/-- The function `CClient::OnControllerInFaderLevel`; `HEADLESS` says whether
the macro of that name is defined, `CalcFaderGain` is `MathUtils::CalcFaderGain`. -/
def OnControllerInFaderLevel (K : Consts) (HEADLESS : Bool) (CalcFaderGain : Int → F)
    (c : CClient F) (iChannelIdx iValue : Int) : CClient F :=
  let c1 : CClient F :=
    if HEADLESS = true then
      if iChannelIdx ≥ 0 ∧ iChannelIdx < K.MAX_NUM_CHANNELS then
        SetRemoteChanGain K c iChannelIdx (CalcFaderGain iValue) false
      else c
    else c
  emit c1 (Call.EmitControllerInFaderLevel iChannelIdx iValue)

/-- The events that drive the gain rate limiter: a call of `SetRemoteChanGain`
and the expiry of the timer `TimerGain`. -/
inductive GainEvent (F : Type) where
  | SetRemoteChanGain (iId : Int) (fGain : F) (bIsMyOwnFader : Bool)
  | TimerExpiry

/-- One event of the gain rate limiter. The timer can expire only while it is
active; then it becomes inactive and `OnTimerRemoteChanGain` runs. -/
def applyGainEvent (K : Consts) (fne : F → F → Bool) (c : CClient F) : GainEvent F → CClient F
  | GainEvent.SetRemoteChanGain iId fGain b => SetRemoteChanGain K c iId fGain b
  | GainEvent.TimerExpiry =>
    if c.TimerGain.bActive = true then TimerGainTimeout K fne c else c

/-- A sequence of events of the gain rate limiter. -/
def runGainEvents (K : Consts) (fne : F → F → Bool) : CClient F → List (GainEvent F) → CClient F
  | c, [] => c
  | c, e :: l => runGainEvents K fne (applyGainEvent K fne c e) l

/-- The gain requested last for every channel by the calls of
`SetRemoteChanGain` among a sequence of events; `f` gives the gains before the
sequence. -/
def requestedGains (f : Int → F) : List (GainEvent F) → Int → F
  | [] => f
  | GainEvent.SetRemoteChanGain iId fGain _ :: l => requestedGains (Function.update f iId fGain) l
  | GainEvent.TimerExpiry :: l => requestedGains f l

/-- The gain sent last for every channel by a sequence of gain messages; `f`
gives the gains before the sequence. -/
def sentGains (f : Int → F) : List (Int × F) → Int → F
  | [] => f
  | (iId, fGain) :: l => sentGains (Function.update f iId fGain) l

/-- The gain messages sent since the log had the messages `l0`. -/
def gainsSentSince (l0 : List (Call F)) (l : List (Call F)) : List (Int × F) :=
  (gainsSent l).drop (gainsSent l0).length

/-! ## Example states -/

/-- A sound device that is stopped, supports every size and grants the size
`iGranted` whatever is asked for. -/
def exampleSound (iGranted : Int) : CSound where
  bStarted := false
  BufferSizeSupported := fun _ => true
  SetBufferSize := fun _ => iGranted
  bThrowsInInit := false
  bStartThrows := false
  bStartedAfterStart := true

/-- A client state with the member values set by the constructor of `CClient`
(gains are rationals), for a given device and short-frame setting. -/
def exampleClient (K : Consts) (Sound : CSound) (bOPUS64 : Bool) : CClient Rat where
  Channel := { bIsEnabled := false, Address := "" }
  Sound := Sound
  CurOpusEncoder := none
  CurOpusDecoder := none
  eAudioCompressionType := EAudComprType.CT_OPUS
  iCeltNumCodedBytes := K.OPUS_NUM_BYTES_MONO_LOW_QUALITY
  iOPUSFrameSizeSamples := K.DOUBLE_SYSTEM_FRAME_SIZE_SAMPLES
  eAudioQuality := EAudioQuality.AQ_NORMAL
  eAudioChannelConf := EAudChanConf.CC_MONO
  iNumAudioChannels := 1
  bIsInitializationPhase := true
  bMuteOutStream := false
  fMuteOutStreamGain := 1
  vecCeltData := []
  vecbyNetwData := []
  iAudioInFader := 50
  bReverbOnLeftChan := false
  iReverbLevel := 0
  iSndCrdPrefFrameSizeFactor := K.FRAME_SIZE_FACTOR_DEFAULT
  iSndCrdFrameSizeFactor := K.FRAME_SIZE_FACTOR_DEFAULT
  bSndCrdConversionBufferRequired := false
  iSndCardMonoBlockSizeSamConvBuff := 0
  SndCrdConversionBufferIn := CBuffer.Init 0
  SndCrdConversionBufferOut := CBuffer.Init 0
  vecDataConvBuf := []
  vecsStereoSndCrdMuteStream := []
  vecZeros := []
  iMonoBlockSizeSam := 0
  iStereoBlockSizeSam := 0
  bFraSiFactPrefSupported := false
  bFraSiFactDefSupported := false
  bFraSiFactSafeSupported := false
  bEnableOPUS64 := bOPUS64
  bEnableIPv6 := false
  TimerGain := { bActive := false, iInterval := 0 }
  oldGain := fun _ => 0
  newGain := fun _ => 0
  minGainId := K.MAX_NUM_CHANNELS
  maxGainId := 0
  iCurPingTime := 0
  log := []

/-- A frame environment: no signal processing effect, the channel is connected,
every `GetData` delivers a packet and the decoder produces one frame of
samples of value 7. -/
def exampleEnvConnected : CFrameEnv Rat where
  ReverbProcess := fun v _ _ => v
  PanStereo := fun _ _ v => v
  PanMono := fun _ _ v => v
  Encode := fun _ _ _ _ _ => []
  GetData := fun _ _ => (EGetDataStat.GS_BUFFER_OK, [])
  Decode := fun _ _ _ _ iFrameSize => List.replicate iFrameSize.toNat 7
  MuteMix := fun a _ _ => a
  IsConnected := true

/-- A frame environment after a disconnect: as `exampleEnvConnected`, but the
channel is not connected and `GetData` delivers nothing. -/
def exampleEnvDisconnected : CFrameEnv Rat :=
  { exampleEnvConnected with
    GetData := fun _ _ => (EGetDataStat.GS_CHAN_NOT_CONNECTED, [])
    IsConnected := false }

/-- A device callback with a block of `n` samples of value 1 and the settings
of the constructor. -/
def exampleInvocation (env : CFrameEnv Rat) (n : Nat) : CInvocation Rat where
  bMuteOutStream := false
  fMuteOutStreamGain := 1
  iReverbLevel := 0
  bReverbOnLeftChan := false
  iAudioInFader := 50
  envs := fun _ => env
  vec := List.replicate n 1

end CClient

/-! ## Connection status of the client settings (settings.h) -/

/-- The signals emitted by the connection status functions of
`CClientSettings`. -/
inductive CClientSettingsSignal where
  | ConnectRequested
  | DisconnectRequested
  | Connecting
  | Disconnecting
  | Connected
  | Disconnected
  deriving DecidableEq, Repr

/-- The status values of `CClientSettings`; `QString` is `String`. The signals
emitted are collected in `signals`. -/
structure CClientSettings where
  strServerAddress : String
  strServerName : String
  bConnectRequested : Bool
  bDisconnectRequested : Bool
  bConnectionEnabled : Bool
  bConnected : Bool
  signals : List CClientSettingsSignal
  deriving DecidableEq, Repr

namespace CClientSettings

/-- The status values set by the constructor of `CClientSettings`; the two
strings are default constructed. -/
def ctor : CClientSettings where
  strServerAddress := ""
  strServerName := ""
  bConnectRequested := false
  bDisconnectRequested := false
  bConnectionEnabled := false
  bConnected := false
  signals := []

/-- The function `CClientSettings::StartConnection`: new state and result. -/
def StartConnection (s : CClientSettings) (serverAddress serverName : String) :
    CClientSettings × Bool :=
  if s.bConnectionEnabled = false ∧ s.bConnectRequested = false ∧ serverAddress.isEmpty = false then
    ({ s with
        strServerAddress := serverAddress
        strServerName := (if serverName.isEmpty = true then serverAddress else serverName)
        bConnectRequested := true
        signals := s.signals ++ [CClientSettingsSignal.ConnectRequested] }, true)
  else (s, false)

/-- The function `CClientSettings::EndConnection`: new state and result. -/
def EndConnection (s : CClientSettings) : CClientSettings × Bool :=
  if s.bConnectionEnabled = true then
    if s.bDisconnectRequested = false then
      ({ s with
          bDisconnectRequested := true
          signals := s.signals ++ [CClientSettingsSignal.DisconnectRequested] }, true)
    else (s, true)
  else (s, false)

/-- The function `CClientSettings::AckConnecting`. -/
def AckConnecting (s : CClientSettings) (ack : Bool) : CClientSettings :=
  if s.bConnectRequested = true then
    let s1 : CClientSettings := { s with bConnectRequested := false, bConnectionEnabled := ack }
    if ack = true then
      { s1 with signals := s1.signals ++ [CClientSettingsSignal.Connecting] }
    else
      { s1 with bConnected := false }
  else s

/-- The function `CClientSettings::AckDisconnecting`. -/
def AckDisconnecting (s : CClientSettings) (ack : Bool) : CClientSettings :=
  if s.bDisconnectRequested = true then
    let s1 : CClientSettings := { s with bDisconnectRequested := false }
    if ack = true then
      { s1 with signals := s1.signals ++ [CClientSettingsSignal.Disconnecting] }
    else s1
  else s

/-- The function `CClientSettings::SetConnected`. -/
def SetConnected (s : CClientSettings) (bState0 : Bool) : CClientSettings :=
  let bState := bState0 && s.bConnectionEnabled
  if s.bConnected ≠ bState then
    let s1 : CClientSettings := { s with bConnected := bState }
    if s1.bConnected = true then
      { s1 with signals := s1.signals ++ [CClientSettingsSignal.Connected] }
    else
      { s1 with
        bConnectionEnabled := false
        signals := s1.signals ++ [CClientSettingsSignal.Disconnected] }
  else s

/-- A call of one of the connection status functions. -/
inductive Op where
  | StartConnection (serverAddress serverName : String)
  | EndConnection
  | AckConnecting (ack : Bool)
  | AckDisconnecting (ack : Bool)
  | SetConnected (bState : Bool)

/-- The state after one call. -/
def applyOp (s : CClientSettings) : Op → CClientSettings
  | Op.StartConnection a n => (s.StartConnection a n).1
  | Op.EndConnection => s.EndConnection.1
  | Op.AckConnecting ack => s.AckConnecting ack
  | Op.AckDisconnecting ack => s.AckDisconnecting ack
  | Op.SetConnected b => s.SetConnected b

/-- The state after a sequence of calls. -/
def runOps : CClientSettings → List Op → CClientSettings
  | s, [] => s
  | s, op :: l => runOps (s.applyOp op) l

end CClientSettings

/-! ## String settings of the server settings (settings.h) -/

/-- A command line option holding a string (the members of the global
`CommandlineOptions`, whose class is not among the sources): whether it is set
and its value; `Unset()` clears the flag. -/
structure CCmdlnOption where
  bSet : Bool
  strValue : String
  deriving DecidableEq, Repr

namespace CCmdlnOption

/-- The call `IsSet()`. -/
def IsSet (o : CCmdlnOption) : Bool := o.bSet

/-- The call `Value()`. -/
def Value (o : CCmdlnOption) : String := o.strValue

/-- The call `Unset()`. -/
def Unset (o : CCmdlnOption) : CCmdlnOption := { o with bSet := false }

end CCmdlnOption

/-- The string members of `CServerSettings` with the command line options that
override them. -/
structure CServerSettings where
  strWelcomeMessage : String
  strRecordingDir : String
  strDirectoryAddress : String
  welcomemessage : CCmdlnOption
  recording : CCmdlnOption
  directoryserver : CCmdlnOption
  deriving DecidableEq, Repr

namespace CServerSettings

/-- The function `CServerSettings::GetWelcomeMessage`. -/
def GetWelcomeMessage (s : CServerSettings) : String :=
  if s.welcomemessage.IsSet = true then s.welcomemessage.Value else s.strWelcomeMessage

/-- The function `CServerSettings::SetWelcomeMessage`. -/
def SetWelcomeMessage (s : CServerSettings) (newWelcomeMessage : String) : CServerSettings :=
  let s1 : CServerSettings := { s with welcomemessage := s.welcomemessage.Unset }
  if s1.strWelcomeMessage ≠ newWelcomeMessage then
    { s1 with strWelcomeMessage := newWelcomeMessage }
  else s1

/-- The function `CServerSettings::GetRecordingDir`. -/
def GetRecordingDir (s : CServerSettings) : String :=
  if s.recording.IsSet = true then s.recording.Value else s.strRecordingDir

/-- The function `CServerSettings::SetRecordingDir`. The statement in its `if`
is `strRecordingDir != newRecordingDir;`, a comparison whose value is
discarded, so that no member is assigned there. -/
def SetRecordingDir (s : CServerSettings) (newRecordingDir : String) : CServerSettings :=
  let s1 : CServerSettings := { s with recording := s.recording.Unset }
  if s1.strRecordingDir ≠ newRecordingDir then
    s1
  else s1

/-- The function `CServerSettings::GetDirectoryAddress`. -/
def GetDirectoryAddress (s : CServerSettings) : String :=
  if s.directoryserver.IsSet = true then s.directoryserver.Value else s.strDirectoryAddress

/-- The function `CServerSettings::SetDirectoryAddress`. -/
def SetDirectoryAddress (s : CServerSettings) (strNewAddress : String) : CServerSettings :=
  let s1 : CServerSettings := { s with directoryserver := s.directoryserver.Unset }
  if s1.strDirectoryAddress ≠ strNewAddress then
    { s1 with strDirectoryAddress := strNewAddress }
  else s1

/-- The string settings after the member initialisers of the constructor, with
no command line option set. -/
def ctor : CServerSettings where
  strWelcomeMessage := ""
  strRecordingDir := ""
  strDirectoryAddress := ""
  welcomemessage := { bSet := false, strValue := "" }
  recording := { bSet := false, strValue := "" }
  directoryserver := { bSet := false, strValue := "" }

end CServerSettings

/-! ## Properties of Init -/

namespace CClient

variable {F : Type}

theorem streamPropsCalls_append (l₁ l₂ : List (Call F)) :
    streamPropsCalls (l₁ ++ l₂) = streamPropsCalls l₁ ++ streamPropsCalls l₂ := by
  induction l₁ with
  | nil => rfl
  | cons a l ih => cases a <;> simp [streamPropsCalls, ih]

/-! ### The first part: buffer negotiation -/

theorem InitBufferSize_conv_iff (K : Consts) (c : CClient F) :
    (InitBufferSize K c).bSndCrdConversionBufferRequired = false ↔
      ((grantedSize K c = K.SYSTEM_FRAME_SIZE_SAMPLES * K.FRAME_SIZE_FACTOR_PREFERRED
          ∧ c.bEnableOPUS64 = true)
        ∨ grantedSize K c = K.SYSTEM_FRAME_SIZE_SAMPLES * K.FRAME_SIZE_FACTOR_DEFAULT
        ∨ grantedSize K c = K.SYSTEM_FRAME_SIZE_SAMPLES * K.FRAME_SIZE_FACTOR_SAFE) := by
  unfold InitBufferSize grantedSize
  dsimp only
  split
  · rename_i h
    exact ⟨fun _ => h, fun _ => rfl⟩
  · rename_i h
    exact ⟨fun h1 => by simp at h1, fun h1 => absurd h1 h⟩

@[simp] theorem InitBufferSize_mono_of_not_conv (K : Consts) (c : CClient F)
    (h : (InitBufferSize K c).bSndCrdConversionBufferRequired = false) :
    (InitBufferSize K c).iMonoBlockSizeSam = grantedSize K c := by
  revert h
  unfold InitBufferSize grantedSize
  dsimp only
  split <;> simp

theorem InitBufferSize_factor_of_not_conv (K : Consts) (c : CClient F)
    (h : (InitBufferSize K c).bSndCrdConversionBufferRequired = false) :
    (InitBufferSize K c).iSndCrdFrameSizeFactor
      = Int.tdiv (grantedSize K c) K.SYSTEM_FRAME_SIZE_SAMPLES := by
  revert h
  unfold InitBufferSize grantedSize
  dsimp only
  split <;> simp

theorem InitBufferSize_of_conv (K : Consts) (c : CClient F)
    (h : (InitBufferSize K c).bSndCrdConversionBufferRequired = true) :
    (InitBufferSize K c).iSndCrdFrameSizeFactor = 1
      ∧ (InitBufferSize K c).iSndCardMonoBlockSizeSamConvBuff = grantedSize K c := by
  revert h
  unfold InitBufferSize grantedSize
  dsimp only
  split <;> simp

@[simp] theorem InitBufferSize_bEnableOPUS64 (K : Consts) (c : CClient F) :
    (InitBufferSize K c).bEnableOPUS64 = c.bEnableOPUS64 := by
  unfold InitBufferSize
  dsimp only
  split <;> rfl

@[simp] theorem InitBufferSize_streamPropsCalls (K : Consts) (c : CClient F) :
    streamPropsCalls (InitBufferSize K c).log = streamPropsCalls c.log := by
  unfold InitBufferSize
  dsimp only
  split <;> simp [streamPropsCalls_append, streamPropsCalls]

/-! ### The second part: frame size mode -/

@[simp] theorem InitCompressionType_conv (K : Consts) (c : CClient F) :
    (InitCompressionType K c).bSndCrdConversionBufferRequired
      = c.bSndCrdConversionBufferRequired := by
  unfold InitCompressionType
  split <;> split <;> rfl

@[simp] theorem InitCompressionType_convBuff (K : Consts) (c : CClient F) :
    (InitCompressionType K c).iSndCardMonoBlockSizeSamConvBuff
      = c.iSndCardMonoBlockSizeSamConvBuff := by
  unfold InitCompressionType
  split <;> split <;> rfl

@[simp] theorem InitCompressionType_log (K : Consts) (c : CClient F) :
    (InitCompressionType K c).log = c.log := by
  unfold InitCompressionType
  split <;> split <;> rfl

theorem InitCompressionType_factor_of_not_conv (K : Consts) (c : CClient F)
    (h : c.bSndCrdConversionBufferRequired = false) :
    (InitCompressionType K c).iSndCrdFrameSizeFactor =
      if c.iMonoBlockSizeSam < K.DOUBLE_SYSTEM_FRAME_SIZE_SAMPLES then c.iSndCrdFrameSizeFactor
      else Int.tdiv c.iSndCrdFrameSizeFactor 2 := by
  unfold InitCompressionType
  simp only [h, Bool.false_eq_true, if_false]
  split <;> rfl

theorem InitCompressionType_of_conv (K : Consts) (c : CClient F)
    (h : c.bSndCrdConversionBufferRequired = true) :
    (InitCompressionType K c).iSndCrdFrameSizeFactor = c.iSndCrdFrameSizeFactor
      ∧ ((InitCompressionType K c).iMonoBlockSizeSam = K.SYSTEM_FRAME_SIZE_SAMPLES
        ∨ (InitCompressionType K c).iMonoBlockSizeSam = K.DOUBLE_SYSTEM_FRAME_SIZE_SAMPLES) := by
  unfold InitCompressionType
  simp only [h, if_true]
  split <;> simp

/-! ### The third part: audio coding -/

@[simp] theorem InitAudioCoding_conv (K : Consts) (c : CClient F) :
    (InitAudioCoding K c).bSndCrdConversionBufferRequired
      = c.bSndCrdConversionBufferRequired := by
  unfold InitAudioCoding
  split <;> split <;> rfl

@[simp] theorem InitAudioCoding_convBuff (K : Consts) (c : CClient F) :
    (InitAudioCoding K c).iSndCardMonoBlockSizeSamConvBuff
      = c.iSndCardMonoBlockSizeSamConvBuff := by
  unfold InitAudioCoding
  split <;> split <;> rfl

@[simp] theorem InitAudioCoding_factor (K : Consts) (c : CClient F) :
    (InitAudioCoding K c).iSndCrdFrameSizeFactor = c.iSndCrdFrameSizeFactor := by
  unfold InitAudioCoding
  split <;> split <;> rfl

@[simp] theorem InitAudioCoding_mono (K : Consts) (c : CClient F) :
    (InitAudioCoding K c).iMonoBlockSizeSam = c.iMonoBlockSizeSam := by
  unfold InitAudioCoding
  split <;> split <;> rfl

@[simp] theorem InitAudioCoding_log (K : Consts) (c : CClient F) :
    (InitAudioCoding K c).log = c.log := by
  unfold InitAudioCoding
  split <;> split <;> rfl

/-! ### The fourth and last parts -/

@[simp] theorem InitVectors_conv (K : Consts) (c : CClient F) :
    (InitVectors K c).bSndCrdConversionBufferRequired = c.bSndCrdConversionBufferRequired :=
  rfl

@[simp] theorem InitVectors_convBuff (K : Consts) (c : CClient F) :
    (InitVectors K c).iSndCardMonoBlockSizeSamConvBuff = c.iSndCardMonoBlockSizeSamConvBuff :=
  rfl

@[simp] theorem InitVectors_factor (K : Consts) (c : CClient F) :
    (InitVectors K c).iSndCrdFrameSizeFactor = c.iSndCrdFrameSizeFactor :=
  rfl

@[simp] theorem InitVectors_stereo (K : Consts) (c : CClient F) :
    (InitVectors K c).iStereoBlockSizeSam = 2 * c.iMonoBlockSizeSam :=
  rfl

@[simp] theorem InitVectors_vecZeros (K : Consts) (c : CClient F) :
    (InitVectors K c).vecZeros = vecInit (2 * c.iMonoBlockSizeSam) :=
  rfl

theorem InitVectors_streamPropsCalls (K : Consts) (c : CClient F) :
    streamPropsCalls (InitVectors K c).log = streamPropsCalls c.log ++
      [(c.eAudioCompressionType, c.iCeltNumCodedBytes, c.iSndCrdFrameSizeFactor,
        c.iNumAudioChannels)] := by
  simp [InitVectors, streamPropsCalls_append, streamPropsCalls]

@[simp] theorem InitVectors_type (K : Consts) (c : CClient F) :
    (InitVectors K c).eAudioCompressionType = c.eAudioCompressionType :=
  rfl

@[simp] theorem InitVectors_bytes (K : Consts) (c : CClient F) :
    (InitVectors K c).iCeltNumCodedBytes = c.iCeltNumCodedBytes :=
  rfl

@[simp] theorem InitVectors_channels (K : Consts) (c : CClient F) :
    (InitVectors K c).iNumAudioChannels = c.iNumAudioChannels :=
  rfl

@[simp] theorem InitConversionBuffers_conv (c : CClient F) :
    (InitConversionBuffers c).bSndCrdConversionBufferRequired
      = c.bSndCrdConversionBufferRequired := by
  unfold InitConversionBuffers
  dsimp only
  split <;> rfl

@[simp] theorem InitConversionBuffers_factor (c : CClient F) :
    (InitConversionBuffers c).iSndCrdFrameSizeFactor = c.iSndCrdFrameSizeFactor := by
  unfold InitConversionBuffers
  dsimp only
  split <;> rfl

@[simp] theorem InitConversionBuffers_log (c : CClient F) :
    (InitConversionBuffers c).log = c.log := by
  unfold InitConversionBuffers
  dsimp only
  split <;> rfl

@[simp] theorem InitConversionBuffers_type (c : CClient F) :
    (InitConversionBuffers c).eAudioCompressionType = c.eAudioCompressionType := by
  unfold InitConversionBuffers
  dsimp only
  split <;> rfl

@[simp] theorem InitConversionBuffers_bytes (c : CClient F) :
    (InitConversionBuffers c).iCeltNumCodedBytes = c.iCeltNumCodedBytes := by
  unfold InitConversionBuffers
  dsimp only
  split <;> rfl

@[simp] theorem InitConversionBuffers_channels (c : CClient F) :
    (InitConversionBuffers c).iNumAudioChannels = c.iNumAudioChannels := by
  unfold InitConversionBuffers
  dsimp only
  split <;> rfl

@[simp] theorem InitConversionBuffers_stereo (c : CClient F) :
    (InitConversionBuffers c).iStereoBlockSizeSam = c.iStereoBlockSizeSam := by
  unfold InitConversionBuffers
  dsimp only
  split <;> rfl

@[simp] theorem InitConversionBuffers_phase (c : CClient F) :
    (InitConversionBuffers c).bIsInitializationPhase = true := by
  unfold InitConversionBuffers
  dsimp only

/-! ### The whole of Init -/

theorem Init_conv (K : Consts) (c : CClient F) :
    (Init K c).bSndCrdConversionBufferRequired
      = (InitBufferSize K c).bSndCrdConversionBufferRequired := by
  simp [Init]

theorem Init_conv_iff (K : Consts) (c : CClient F) :
    (Init K c).bSndCrdConversionBufferRequired = false ↔
      ((grantedSize K c = K.SYSTEM_FRAME_SIZE_SAMPLES * K.FRAME_SIZE_FACTOR_PREFERRED
          ∧ c.bEnableOPUS64 = true)
        ∨ grantedSize K c = K.SYSTEM_FRAME_SIZE_SAMPLES * K.FRAME_SIZE_FACTOR_DEFAULT
        ∨ grantedSize K c = K.SYSTEM_FRAME_SIZE_SAMPLES * K.FRAME_SIZE_FACTOR_SAFE) := by
  rw [Init_conv]
  exact InitBufferSize_conv_iff K c

theorem Init_streamPropsCalls (K : Consts) (c : CClient F) :
    streamPropsCalls (Init K c).log = streamPropsCalls c.log ++
      [((Init K c).eAudioCompressionType, (Init K c).iCeltNumCodedBytes,
        (Init K c).iSndCrdFrameSizeFactor, (Init K c).iNumAudioChannels)] := by
  simp [Init, InitVectors_streamPropsCalls]

theorem Init_factor_of_not_conv (K : Consts) (c : CClient F)
    (h : (Init K c).bSndCrdConversionBufferRequired = false) :
    (Init K c).iSndCrdFrameSizeFactor =
      if grantedSize K c < K.DOUBLE_SYSTEM_FRAME_SIZE_SAMPLES then
        Int.tdiv (grantedSize K c) K.SYSTEM_FRAME_SIZE_SAMPLES
      else Int.tdiv (Int.tdiv (grantedSize K c) K.SYSTEM_FRAME_SIZE_SAMPLES) 2 := by
  rw [Init_conv] at h
  simp [Init, InitCompressionType_factor_of_not_conv K _ h,
    InitBufferSize_factor_of_not_conv K c h, InitBufferSize_mono_of_not_conv K c h]

/-! ### The conversion buffers set up by Init -/

theorem InitConversionBuffers_of_conv (c : CClient F)
    (h : c.bSndCrdConversionBufferRequired = true) :
    (InitConversionBuffers c).SndCrdConversionBufferIn
        = CBuffer.Init (c.iStereoBlockSizeSam + 2 * c.iSndCardMonoBlockSizeSamConvBuff)
      ∧ (InitConversionBuffers c).SndCrdConversionBufferOut
        = ((CBuffer.Init (c.iStereoBlockSizeSam + 2 * c.iSndCardMonoBlockSizeSamConvBuff)).Put
            c.vecZeros c.iStereoBlockSizeSam).1 := by
  unfold InitConversionBuffers
  simp [h]

theorem CBuffer_Init_Put_zeros (iCap n : Int) (h0 : 0 ≤ n) (h : n ≤ iCap) :
    ((CBuffer.Init iCap).Put (vecInit n) n).1
      = { iMemSize := iCap, data := List.replicate n.toNat 0 } := by
  unfold CBuffer.Put CBuffer.Init CBuffer.GetAvailData vecInit
  simp [h0, h]

theorem Init_rings_of_conv (K : Consts) (c : CClient F)
    (h : (Init K c).bSndCrdConversionBufferRequired = true) :
    ((Init K c).iStereoBlockSizeSam = 2 * K.SYSTEM_FRAME_SIZE_SAMPLES
        ∨ (Init K c).iStereoBlockSizeSam = 2 * K.DOUBLE_SYSTEM_FRAME_SIZE_SAMPLES)
      ∧ (Init K c).SndCrdConversionBufferIn
        = CBuffer.Init ((Init K c).iStereoBlockSizeSam + 2 * grantedSize K c)
      ∧ (Init K c).SndCrdConversionBufferOut
        = ((CBuffer.Init ((Init K c).iStereoBlockSizeSam + 2 * grantedSize K c)).Put
            (vecInit (Init K c).iStereoBlockSizeSam) (Init K c).iStereoBlockSizeSam).1 := by
  rw [Init_conv] at h
  have h1 := InitBufferSize_of_conv K c h
  have h2 := InitCompressionType_of_conv K (InitBufferSize K c) h
  have h3 := InitConversionBuffers_of_conv
    (InitVectors K (InitAudioCoding K (InitCompressionType K (InitBufferSize K c))))
    (by simpa using h)
  refine ⟨?_, ?_, ?_⟩
  · rcases h2.2 with h4 | h4 <;> simp [Init, h4]
  · simpa [Init, h1.2] using h3.1
  · simpa [Init, h1.2] using h3.2

/-! ## Claims about Init -/

/-- C1 (as stated, refuted): with the preferred size of one base frame granted
while short-frame mode is disabled, `Init` requires the conversion buffer; and
with the default size of two base frames granted, no conversion is required but
the frame-size factor left in `iSndCrdFrameSizeFactor` and handed to the channel
is 1, not granted / base = 2. -/
theorem Init_candidate_granted_counterexample :
    (grantedSize stdConsts (exampleClient stdConsts (exampleSound 64) false)
        = stdConsts.SYSTEM_FRAME_SIZE_SAMPLES * stdConsts.FRAME_SIZE_FACTOR_PREFERRED
      ∧ (Init stdConsts (exampleClient stdConsts (exampleSound 64)
          false)).bSndCrdConversionBufferRequired = true)
    ∧ (grantedSize stdConsts (exampleClient stdConsts (exampleSound 128) false)
        = stdConsts.SYSTEM_FRAME_SIZE_SAMPLES * stdConsts.FRAME_SIZE_FACTOR_DEFAULT
      ∧ (Init stdConsts (exampleClient stdConsts (exampleSound 128)
          false)).bSndCrdConversionBufferRequired = false
      ∧ (Init stdConsts (exampleClient stdConsts (exampleSound 128)
          false)).iSndCrdFrameSizeFactor = 1
      ∧ streamPropsCalls (Init stdConsts (exampleClient stdConsts (exampleSound 128)
          false)).log = [(EAudComprType.CT_OPUS, 45, 1, 1)]
      ∧ Int.tdiv (grantedSize stdConsts (exampleClient stdConsts (exampleSound 128) false))
          stdConsts.SYSTEM_FRAME_SIZE_SAMPLES = 2) := by
  decide

/-- C1 (amended): when the granted size is the default or the safe candidate,
or the preferred candidate while short-frame mode is enabled, `Init` uses no
conversion buffer, and the frame-size factor left in `iSndCrdFrameSizeFactor`,
which is the one handed to `Channel.SetAudioStreamProperties`, is granted /
base when the granted size is below the double frame size and half of that
otherwise. -/
theorem Init_accepted_candidate (K : Consts) (c : CClient F)
    (h : grantedSize K c = K.SYSTEM_FRAME_SIZE_SAMPLES * K.FRAME_SIZE_FACTOR_DEFAULT
      ∨ grantedSize K c = K.SYSTEM_FRAME_SIZE_SAMPLES * K.FRAME_SIZE_FACTOR_SAFE
      ∨ (grantedSize K c = K.SYSTEM_FRAME_SIZE_SAMPLES * K.FRAME_SIZE_FACTOR_PREFERRED
        ∧ c.bEnableOPUS64 = true)) :
    (Init K c).bSndCrdConversionBufferRequired = false
      ∧ (Init K c).iSndCrdFrameSizeFactor =
        (if grantedSize K c < K.DOUBLE_SYSTEM_FRAME_SIZE_SAMPLES then
          Int.tdiv (grantedSize K c) K.SYSTEM_FRAME_SIZE_SAMPLES
        else Int.tdiv (Int.tdiv (grantedSize K c) K.SYSTEM_FRAME_SIZE_SAMPLES) 2)
      ∧ streamPropsCalls (Init K c).log = streamPropsCalls c.log ++
        [((Init K c).eAudioCompressionType, (Init K c).iCeltNumCodedBytes,
          (Init K c).iSndCrdFrameSizeFactor, (Init K c).iNumAudioChannels)] := by
  have hc : (Init K c).bSndCrdConversionBufferRequired = false := by
    rw [Init_conv_iff]
    tauto
  exact ⟨hc, Init_factor_of_not_conv K c hc, Init_streamPropsCalls K c⟩

/-- Instance of `Init_accepted_candidate`: the safe size of 256 samples is
granted; no conversion, factor (256 / 64) / 2 = 2. -/
theorem Init_accepted_candidate_witness :
    grantedSize stdConsts (exampleClient stdConsts (exampleSound 256) false)
        = stdConsts.SYSTEM_FRAME_SIZE_SAMPLES * stdConsts.FRAME_SIZE_FACTOR_SAFE
      ∧ (Init stdConsts (exampleClient stdConsts (exampleSound 256)
          false)).bSndCrdConversionBufferRequired = false
      ∧ (Init stdConsts (exampleClient stdConsts (exampleSound 256)
          false)).iSndCrdFrameSizeFactor = 2 :=
  ⟨by decide,
    (Init_accepted_candidate stdConsts (exampleClient stdConsts (exampleSound 256) false)
      (Or.inr (Or.inl (by decide)))).1,
    by
      rw [(Init_accepted_candidate stdConsts (exampleClient stdConsts (exampleSound 256) false)
        (Or.inr (Or.inl (by decide)))).2.1]
      decide⟩

/-- C2: when the granted size (not negative) matches none of the accepted
candidates, `Init` sets up both conversion buffers with capacity
`iStereoBlockSizeSam + 2 * granted`, at least one stereo engine frame plus one
stereo device frame; afterwards the input buffer is empty and the output
buffer holds exactly `iStereoBlockSizeSam` samples, all zero. -/
theorem Init_conversion_buffers (K : Consts) (c : CClient F)
    (hS : 0 ≤ K.SYSTEM_FRAME_SIZE_SAMPLES) (hD : 0 ≤ K.DOUBLE_SYSTEM_FRAME_SIZE_SAMPLES)
    (hg : 0 ≤ grantedSize K c)
    (h : ¬ ((grantedSize K c = K.SYSTEM_FRAME_SIZE_SAMPLES * K.FRAME_SIZE_FACTOR_PREFERRED
          ∧ c.bEnableOPUS64 = true)
        ∨ grantedSize K c = K.SYSTEM_FRAME_SIZE_SAMPLES * K.FRAME_SIZE_FACTOR_DEFAULT
        ∨ grantedSize K c = K.SYSTEM_FRAME_SIZE_SAMPLES * K.FRAME_SIZE_FACTOR_SAFE)) :
    (Init K c).bSndCrdConversionBufferRequired = true
      ∧ (Init K c).SndCrdConversionBufferIn.iMemSize
        = (Init K c).iStereoBlockSizeSam + 2 * grantedSize K c
      ∧ (Init K c).SndCrdConversionBufferOut.iMemSize
        = (Init K c).iStereoBlockSizeSam + 2 * grantedSize K c
      ∧ (Init K c).SndCrdConversionBufferIn.iMemSize
        ≥ (Init K c).iStereoBlockSizeSam + 2 * grantedSize K c
      ∧ (Init K c).SndCrdConversionBufferOut.iMemSize
        ≥ (Init K c).iStereoBlockSizeSam + 2 * grantedSize K c
      ∧ (Init K c).SndCrdConversionBufferIn.GetAvailData = 0
      ∧ (Init K c).SndCrdConversionBufferIn.data = []
      ∧ (Init K c).SndCrdConversionBufferOut.GetAvailData = (Init K c).iStereoBlockSizeSam
      ∧ ∀ x ∈ (Init K c).SndCrdConversionBufferOut.data, x = 0 := by
  have hc : (Init K c).bSndCrdConversionBufferRequired = true := by
    have := (Init_conv_iff K c).not.mpr h
    simpa using this
  obtain ⟨hE, hIn, hOut⟩ := Init_rings_of_conv K c hc
  have hE0 : 0 ≤ (Init K c).iStereoBlockSizeSam := by
    rcases hE with hE | hE <;> omega
  rw [CBuffer_Init_Put_zeros _ _ hE0 (by omega)] at hOut
  rw [hIn, hOut]
  refine ⟨hc, rfl, rfl, le_refl _, le_refl _, rfl, rfl, ?_, ?_⟩
  · simp [CBuffer.GetAvailData, Int.toNat_of_nonneg hE0]
  · intro x hx
    exact List.eq_of_mem_replicate hx

/-- Instance of `Init_conversion_buffers`: 48 samples are granted. -/
theorem Init_conversion_buffers_witness :
    (Init stdConsts (exampleClient stdConsts (exampleSound 48)
        false)).SndCrdConversionBufferOut.GetAvailData
      = (Init stdConsts (exampleClient stdConsts (exampleSound 48) false)).iStereoBlockSizeSam :=
  (Init_conversion_buffers stdConsts (exampleClient stdConsts (exampleSound 48) false)
    (by decide) (by decide) (by decide) (by decide)).2.2.2.2.2.2.2.1

/-- C8: `Init` decides that no conversion is required exactly when the granted
size is the default candidate, or the safe candidate, or the preferred
candidate while short-frame mode is enabled; so a granted preferred size that
is neither the default nor the safe size requires conversion when short-frame
mode is disabled. -/
theorem Init_no_conversion_iff (K : Consts) (c : CClient F) :
    ((Init K c).bSndCrdConversionBufferRequired = false ↔
      (grantedSize K c = K.SYSTEM_FRAME_SIZE_SAMPLES * K.FRAME_SIZE_FACTOR_DEFAULT
        ∨ grantedSize K c = K.SYSTEM_FRAME_SIZE_SAMPLES * K.FRAME_SIZE_FACTOR_SAFE
        ∨ (grantedSize K c = K.SYSTEM_FRAME_SIZE_SAMPLES * K.FRAME_SIZE_FACTOR_PREFERRED
          ∧ c.bEnableOPUS64 = true)))
    ∧ (grantedSize K c = K.SYSTEM_FRAME_SIZE_SAMPLES * K.FRAME_SIZE_FACTOR_PREFERRED →
        c.bEnableOPUS64 = false →
        grantedSize K c ≠ K.SYSTEM_FRAME_SIZE_SAMPLES * K.FRAME_SIZE_FACTOR_DEFAULT →
        grantedSize K c ≠ K.SYSTEM_FRAME_SIZE_SAMPLES * K.FRAME_SIZE_FACTOR_SAFE →
        (Init K c).bSndCrdConversionBufferRequired = true) := by
  constructor
  · rw [Init_conv_iff]
    tauto
  · intro _ hb hd hs
    have : ¬ (Init K c).bSndCrdConversionBufferRequired = false := by
      rw [Init_conv_iff]
      simp [hb, hd, hs]
    simpa using this

/-! ## The gain rate limiter -/

theorem gainsSent_append (l₁ l₂ : List (Call F)) :
    gainsSent (l₁ ++ l₂) = gainsSent l₁ ++ gainsSent l₂ := by
  induction l₁ with
  | nil => rfl
  | cons a l ih => cases a <;> simp [gainsSent, ih]

theorem wrapInt32_of_range (x : Int) (h1 : -2147483648 ≤ x) (h2 : x ≤ 2147483647) :
    wrapInt32 x = x := by
  unfold wrapInt32
  omega

@[simp] theorem StartDelayTimer_log (K : Consts) (c : CClient F) :
    (StartDelayTimer K c).log = c.log := by
  unfold StartDelayTimer
  dsimp only
  split <;> rfl

@[simp] theorem StartDelayTimer_oldGain (K : Consts) (c : CClient F) :
    (StartDelayTimer K c).oldGain = c.oldGain := by
  unfold StartDelayTimer
  dsimp only
  split <;> rfl

@[simp] theorem StartDelayTimer_newGain (K : Consts) (c : CClient F) :
    (StartDelayTimer K c).newGain = c.newGain := by
  unfold StartDelayTimer
  dsimp only
  split <;> rfl

@[simp] theorem StartDelayTimer_active (K : Consts) (c : CClient F) :
    (StartDelayTimer K c).TimerGain.bActive = true := by
  unfold StartDelayTimer
  dsimp only
  split <;> rfl

@[simp] theorem StartDelayTimer_min (K : Consts) (c : CClient F) :
    (StartDelayTimer K c).minGainId = K.MAX_NUM_CHANNELS := by
  unfold StartDelayTimer
  dsimp only
  split <;> rfl

@[simp] theorem StartDelayTimer_max (K : Consts) (c : CClient F) :
    (StartDelayTimer K c).maxGainId = 0 := by
  unfold StartDelayTimer
  dsimp only
  split <;> rfl

/-- C4 (as stated, refuted): a ping reply whose stamp lies `2 ^ 30` ms before
the elapsed time is accepted by `OnCLPingReceived` and leaves
`iCurPingTime = 1073741824`, which is not below half of the default period;
`StartDelayTimer` then starts the timer with the `int` product
`iCurPingTime * 2`, which wraps to -2147483648 and is not `2 * p`. -/
theorem StartDelayTimer_overflow_counterexample :
    (OnCLPingReceived 0
        (exampleClient stdConsts { exampleSound 128 with bStarted := true } false) ""
        (-1073741824)).iCurPingTime = 1073741824
      ∧ ¬ ((1073741824 : Int) < Int.tdiv stdConsts.DEFAULT_GAIN_DELAY_PERIOD_MS 2)
      ∧ (StartDelayTimer stdConsts
          (OnCLPingReceived 0
            (exampleClient stdConsts { exampleSound 128 with bStarted := true } false) ""
            (-1073741824))).TimerGain.iInterval = -2147483648
      ∧ (StartDelayTimer stdConsts
          (OnCLPingReceived 0
            (exampleClient stdConsts { exampleSound 128 with bStarted := true } false) ""
            (-1073741824))).TimerGain.iInterval ≠ 2 * 1073741824 := by
  decide

/-- C4 (amended): `StartDelayTimer` arms the timer with the default period when
the last measured ping time `p` is below half of the default, and with `2 * p`
otherwise, for every `p` such that `2 * p` is representable as an `int`; in
particular 40 ms gives the default period when 40 is below half of it, and
300 ms gives 600 ms when half of the default period is at most 300. -/
theorem StartDelayTimer_duration (K : Consts) (c : CClient F)
    (hlo : -2147483648 ≤ c.iCurPingTime * 2) (hhi : c.iCurPingTime * 2 ≤ 2147483647) :
    (StartDelayTimer K c).TimerGain.bActive = true
      ∧ (StartDelayTimer K c).TimerGain.iInterval =
        (if c.iCurPingTime < Int.tdiv K.DEFAULT_GAIN_DELAY_PERIOD_MS 2 then
          K.DEFAULT_GAIN_DELAY_PERIOD_MS
        else 2 * c.iCurPingTime)
      ∧ (c.iCurPingTime = 40 → 40 < Int.tdiv K.DEFAULT_GAIN_DELAY_PERIOD_MS 2 →
          (StartDelayTimer K c).TimerGain.iInterval = K.DEFAULT_GAIN_DELAY_PERIOD_MS)
      ∧ (c.iCurPingTime = 300 → Int.tdiv K.DEFAULT_GAIN_DELAY_PERIOD_MS 2 ≤ 300 →
          (StartDelayTimer K c).TimerGain.iInterval = 600) := by
  have key : (StartDelayTimer K c).TimerGain.iInterval =
      (if c.iCurPingTime < Int.tdiv K.DEFAULT_GAIN_DELAY_PERIOD_MS 2 then
        K.DEFAULT_GAIN_DELAY_PERIOD_MS
      else 2 * c.iCurPingTime) := by
    unfold StartDelayTimer
    dsimp only
    split
    · rfl
    · simp only [QTimerStart]
      rw [wrapInt32_of_range _ hlo hhi]
      ring
  refine ⟨StartDelayTimer_active K c, key, ?_, ?_⟩
  · intro hp hd
    rw [key, if_pos (by omega)]
  · intro hp hd
    rw [key, if_neg (by omega)]
    omega

/-- Instance of `StartDelayTimer_duration`: a ping time of 300 ms with the
default period of 300 ms arms the timer with 600 ms. -/
theorem StartDelayTimer_duration_witness :
    (StartDelayTimer stdConsts
      { exampleClient stdConsts (exampleSound 128) false with
        iCurPingTime := 300 }).TimerGain.iInterval = 600 :=
  (StartDelayTimer_duration stdConsts
    { exampleClient stdConsts (exampleSound 128) false with iCurPingTime := 300 }
    (by decide) (by decide)).2.2.2 rfl (by decide)

/-! ### One call of SetRemoteChanGain -/

theorem SetRemoteChanGain_idle (K : Consts) (c : CClient F) (iId : Int) (g : F) (b : Bool)
    (h : c.TimerGain.bActive = false) :
    (SetRemoteChanGain K c iId g b).TimerGain.bActive = true
      ∧ (SetRemoteChanGain K c iId g b).minGainId = K.MAX_NUM_CHANNELS
      ∧ (SetRemoteChanGain K c iId g b).maxGainId = 0
      ∧ (SetRemoteChanGain K c iId g b).oldGain = Function.update c.oldGain iId g
      ∧ (SetRemoteChanGain K c iId g b).newGain = Function.update c.newGain iId g
      ∧ (SetRemoteChanGain K c iId g b).log = c.log ++ [Call.ChannelSetRemoteChanGain iId g] := by
  unfold SetRemoteChanGain
  cases b <;> simp [h]

theorem SetRemoteChanGain_armed (K : Consts) (c : CClient F) (iId : Int) (g : F) (b : Bool)
    (h : c.TimerGain.bActive = true) :
    (SetRemoteChanGain K c iId g b).TimerGain.bActive = true
      ∧ (SetRemoteChanGain K c iId g b).minGainId
        = (if iId < c.minGainId then iId else c.minGainId)
      ∧ (SetRemoteChanGain K c iId g b).maxGainId
        = (if iId ≥ c.maxGainId then iId + 1 else c.maxGainId)
      ∧ (SetRemoteChanGain K c iId g b).oldGain = c.oldGain
      ∧ (SetRemoteChanGain K c iId g b).newGain = Function.update c.newGain iId g
      ∧ (SetRemoteChanGain K c iId g b).log = c.log := by
  unfold SetRemoteChanGain
  cases b <;> simp only [h, if_true, Bool.false_eq_true, if_false] <;>
    (split <;> split <;> simp_all)

/-- Calls for one channel while the timer is armed and the range is that
single channel: nothing is sent, and the pending gain is the last one. -/
theorem SetRemoteChanGainSeq_armed (K : Consts) (iId : Int) (l : List (F × Bool)) :
    ∀ c : CClient F, c.TimerGain.bActive = true → c.minGainId = iId →
      c.maxGainId = iId + 1 →
      (SetRemoteChanGainSeq K c iId l).TimerGain.bActive = true
        ∧ (SetRemoteChanGainSeq K c iId l).minGainId = iId
        ∧ (SetRemoteChanGainSeq K c iId l).maxGainId = iId + 1
        ∧ (SetRemoteChanGainSeq K c iId l).oldGain = c.oldGain
        ∧ (SetRemoteChanGainSeq K c iId l).log = c.log
        ∧ (SetRemoteChanGainSeq K c iId l).newGain iId = lastGain (c.newGain iId) l := by
  induction l with
  | nil => intro c h1 h2 h3; exact ⟨h1, h2, h3, rfl, rfl, rfl⟩
  | cons a l ih =>
    intro c h1 h2 h3
    obtain ⟨g, b⟩ := a
    obtain ⟨e1, e2, e3, e4, e5, e6⟩ := SetRemoteChanGain_armed K c iId g b h1
    have e2' : (SetRemoteChanGain K c iId g b).minGainId = iId := by
      rw [e2, h2]; simp
    have e3' : (SetRemoteChanGain K c iId g b).maxGainId = iId + 1 := by
      rw [e3, h3]; simp
    obtain ⟨f1, f2, f3, f4, f5, f6⟩ := ih (SetRemoteChanGain K c iId g b) e1 e2' e3'
    simp only [SetRemoteChanGainSeq]
    refine ⟨f1, f2, f3, by rw [f4, e4], by rw [f5, e6], ?_⟩
    rw [f6, e5]
    simp [lastGain]

/-- The timer loop over a single channel. -/
theorem OnTimerLoop_one (fne : F → F → Bool) (c : CClient F) (iId : Int) :
    (OnTimerLoop fne 1 iId (c, false)).2 = fne (c.newGain iId) (c.oldGain iId)
      ∧ (OnTimerLoop fne 1 iId (c, false)).1.log
        = c.log ++ (if fne (c.newGain iId) (c.oldGain iId) = true then
            [Call.ChannelSetRemoteChanGain iId (c.newGain iId)] else []) := by
  simp only [OnTimerLoop]
  split <;> simp_all

/-- Timer expiry with an empty range sends nothing. -/
theorem OnTimerRemoteChanGain_empty (K : Consts) (fne : F → F → Bool) (c : CClient F)
    (h : c.maxGainId ≤ c.minGainId) :
    (OnTimerRemoteChanGain K fne c).log = c.log := by
  have hn : (c.maxGainId - c.minGainId).toNat = 0 := by omega
  unfold OnTimerRemoteChanGain
  rw [hn]
  simp [OnTimerLoop]

/-- Timer expiry with a range of one channel sends its pending gain when it
differs from the last one sent. -/
theorem OnTimerRemoteChanGain_single (K : Consts) (fne : F → F → Bool) (c : CClient F)
    (h : c.maxGainId = c.minGainId + 1) :
    (OnTimerRemoteChanGain K fne c).log = c.log ++
      (if fne (c.newGain c.minGainId) (c.oldGain c.minGainId) = true then
        [Call.ChannelSetRemoteChanGain c.minGainId (c.newGain c.minGainId)] else []) := by
  have hn : (c.maxGainId - c.minGainId).toNat = 1 := by omega
  obtain ⟨h1, h2⟩ := OnTimerLoop_one fne c c.minGainId
  unfold OnTimerRemoteChanGain
  rw [hn]
  dsimp only
  rw [h1]
  by_cases hf : fne (c.newGain c.minGainId) (c.oldGain c.minGainId) = true
  · rw [if_pos hf, StartDelayTimer_log, h2]
  · rw [if_neg hf, h2]

theorem TimerGainTimeout_empty (K : Consts) (fne : F → F → Bool) (c : CClient F)
    (h : c.maxGainId ≤ c.minGainId) :
    (TimerGainTimeout K fne c).log = c.log :=
  OnTimerRemoteChanGain_empty K fne
    { c with TimerGain := { c.TimerGain with bActive := false } } h

theorem TimerGainTimeout_single (K : Consts) (fne : F → F → Bool) (c : CClient F)
    (h : c.maxGainId = c.minGainId + 1) :
    (TimerGainTimeout K fne c).log = c.log ++
      (if fne (c.newGain c.minGainId) (c.oldGain c.minGainId) = true then
        [Call.ChannelSetRemoteChanGain c.minGainId (c.newGain c.minGainId)] else []) :=
  OnTimerRemoteChanGain_single K fne
    { c with TimerGain := { c.TimerGain with bActive := false } } h

/-- C3: a burst of calls `SetRemoteChanGain` for one channel `iId` (in range),
with gains `g1` and then those of `rest`, starting with the timer idle and
without timer expiry in between, sends exactly one message, carrying `g1`; the
following timer expiry sends one further message, carrying the last gain of
the burst, when the burst has more than one call and that last gain differs
from `g1`, and nothing otherwise; so at most two messages are sent in total. -/
theorem SetRemoteChanGain_burst (K : Consts) (fne : F → F → Bool) (c : CClient F)
    (iId : Int) (g1 : F) (b1 : Bool) (rest : List (F × Bool))
    (hidle : c.TimerGain.bActive = false) (h0 : 0 ≤ iId) (h1 : iId < K.MAX_NUM_CHANNELS) :
    gainsSent (SetRemoteChanGainSeq K c iId ((g1, b1) :: rest)).log
        = gainsSent c.log ++ [(iId, g1)]
      ∧ gainsSent (TimerGainTimeout K fne
          (SetRemoteChanGainSeq K c iId ((g1, b1) :: rest))).log
        = gainsSent c.log ++ [(iId, g1)] ++
          (if rest.isEmpty = false ∧ fne (lastGain g1 rest) g1 = true then
            [(iId, lastGain g1 rest)] else [])
      ∧ (gainsSent (TimerGainTimeout K fne
          (SetRemoteChanGainSeq K c iId ((g1, b1) :: rest))).log).length
        ≤ (gainsSent c.log).length + 2 := by
  obtain ⟨a1, a2, a3, a4, a5, a6⟩ := SetRemoteChanGain_idle K c iId g1 b1 hidle
  have key :
      gainsSent (SetRemoteChanGainSeq K c iId ((g1, b1) :: rest)).log
          = gainsSent c.log ++ [(iId, g1)]
        ∧ gainsSent (TimerGainTimeout K fne
            (SetRemoteChanGainSeq K c iId ((g1, b1) :: rest))).log
          = gainsSent c.log ++ [(iId, g1)] ++
            (if rest.isEmpty = false ∧ fne (lastGain g1 rest) g1 = true then
              [(iId, lastGain g1 rest)] else []) := by
    cases rest with
    | nil =>
      simp only [SetRemoteChanGainSeq]
      have hl : gainsSent (SetRemoteChanGain K c iId g1 b1).log
          = gainsSent c.log ++ [(iId, g1)] := by
        rw [a6, gainsSent_append]; rfl
      refine ⟨hl, ?_⟩
      have ht : (TimerGainTimeout K fne (SetRemoteChanGain K c iId g1 b1)).log
          = (SetRemoteChanGain K c iId g1 b1).log :=
        TimerGainTimeout_empty K fne _ (by rw [a2, a3]; omega)
      rw [ht, hl]
      simp
    | cons a l =>
      obtain ⟨g2, b2⟩ := a
      obtain ⟨e1, e2, e3, e4, e5, e6⟩ :=
        SetRemoteChanGain_armed K (SetRemoteChanGain K c iId g1 b1) iId g2 b2 a1
      have e2' : (SetRemoteChanGain K (SetRemoteChanGain K c iId g1 b1) iId g2 b2).minGainId
          = iId := by
        rw [e2, a2]; simp [h1]
      have e3' : (SetRemoteChanGain K (SetRemoteChanGain K c iId g1 b1) iId g2 b2).maxGainId
          = iId + 1 := by
        rw [e3, a3]; simp [h0]
      obtain ⟨f1, f2, f3, f4, f5, f6⟩ := SetRemoteChanGainSeq_armed K iId l
        (SetRemoteChanGain K (SetRemoteChanGain K c iId g1 b1) iId g2 b2) e1 e2' e3'
      have hseq : SetRemoteChanGainSeq K c iId ((g1, b1) :: (g2, b2) :: l)
          = SetRemoteChanGainSeq K
            (SetRemoteChanGain K (SetRemoteChanGain K c iId g1 b1) iId g2 b2) iId l := rfl
      rw [hseq]
      have hold : (SetRemoteChanGainSeq K
          (SetRemoteChanGain K (SetRemoteChanGain K c iId g1 b1) iId g2 b2) iId l).oldGain iId
          = g1 := by
        rw [f4, e4, a4]; simp
      have hnew : (SetRemoteChanGainSeq K
          (SetRemoteChanGain K (SetRemoteChanGain K c iId g1 b1) iId g2 b2) iId l).newGain iId
          = lastGain g1 ((g2, b2) :: l) := by
        rw [f6, e5]; simp [lastGain]
      have hlog : gainsSent (SetRemoteChanGainSeq K
          (SetRemoteChanGain K (SetRemoteChanGain K c iId g1 b1) iId g2 b2) iId l).log
          = gainsSent c.log ++ [(iId, g1)] := by
        rw [f5, e6, a6, gainsSent_append]; rfl
      refine ⟨hlog, ?_⟩
      have ht' := TimerGainTimeout_single K fne (SetRemoteChanGainSeq K
        (SetRemoteChanGain K (SetRemoteChanGain K c iId g1 b1) iId g2 b2) iId l)
        (by rw [f2, f3])
      rw [f2, hnew, hold] at ht'
      rw [ht', gainsSent_append, hlog]
      by_cases hf : fne (lastGain g1 ((g2, b2) :: l)) g1 = true
      · simp [hf, gainsSent]
      · simp [hf, gainsSent]
  refine ⟨key.1, key.2, ?_⟩
  rw [key.2]
  split <;> simp

/-- Instance of `SetRemoteChanGain_burst`: the gains 0.1, 0.3, 0.5, 0.2, 0.9 for
channel 3 give one immediate message carrying 0.1 and one delayed message
carrying 0.9. -/
theorem SetRemoteChanGain_burst_witness :
    gainsSent (SetRemoteChanGainSeq stdConsts (exampleClient stdConsts (exampleSound 128) false)
        3 [(0.1, false), (0.3, false), (0.5, false), (0.2, false), (0.9, false)]).log
        = [(3, 0.1)]
      ∧ gainsSent (TimerGainTimeout stdConsts (fun a b => decide (a ≠ b))
          (SetRemoteChanGainSeq stdConsts (exampleClient stdConsts (exampleSound 128) false)
            3 [(0.1, false), (0.3, false), (0.5, false), (0.2, false), (0.9, false)])).log
        = [(3, 0.1), (3, 0.9)] := by
  have h := SetRemoteChanGain_burst stdConsts (fun a b => decide (a ≠ b))
    (exampleClient stdConsts (exampleSound 128) false) 3 (0.1 : Rat) false
    [(0.3, false), (0.5, false), (0.2, false), (0.9, false)] rfl (by decide) (by decide)
  refine ⟨h.1, ?_⟩
  rw [h.2.1]
  have hne : ((0.9 : Rat) ≠ 0.1) := by norm_num
  simp [lastGain, exampleClient, gainsSent, hne]

/-! ## Connection life cycle -/

@[simp] theorem InitBufferSize_Sound (K : Consts) (c : CClient F) :
    (InitBufferSize K c).Sound = c.Sound := by
  unfold InitBufferSize
  dsimp only
  split <;> rfl

@[simp] theorem InitBufferSize_Channel (K : Consts) (c : CClient F) :
    (InitBufferSize K c).Channel = c.Channel := by
  unfold InitBufferSize
  dsimp only
  split <;> rfl

@[simp] theorem InitCompressionType_Sound (K : Consts) (c : CClient F) :
    (InitCompressionType K c).Sound = c.Sound := by
  unfold InitCompressionType
  split <;> split <;> rfl

@[simp] theorem InitCompressionType_Channel (K : Consts) (c : CClient F) :
    (InitCompressionType K c).Channel = c.Channel := by
  unfold InitCompressionType
  split <;> split <;> rfl

@[simp] theorem InitAudioCoding_Sound (K : Consts) (c : CClient F) :
    (InitAudioCoding K c).Sound = c.Sound := by
  unfold InitAudioCoding
  split <;> split <;> rfl

@[simp] theorem InitAudioCoding_Channel (K : Consts) (c : CClient F) :
    (InitAudioCoding K c).Channel = c.Channel := by
  unfold InitAudioCoding
  split <;> split <;> rfl

@[simp] theorem InitConversionBuffers_Sound (c : CClient F) :
    (InitConversionBuffers c).Sound = c.Sound := by
  unfold InitConversionBuffers
  dsimp only
  split <;> rfl

@[simp] theorem InitConversionBuffers_Channel (c : CClient F) :
    (InitConversionBuffers c).Channel = c.Channel := by
  unfold InitConversionBuffers
  dsimp only
  split <;> rfl

@[simp] theorem Init_Sound (K : Consts) (c : CClient F) : (Init K c).Sound = c.Sound := by
  simp [Init, InitVectors]

@[simp] theorem Init_Channel (K : Consts) (c : CClient F) : (Init K c).Channel = c.Channel := by
  simp [Init, InitVectors]

/-- The channel is enabled and the device started after the `try` block of
`Connect` exactly when `Init` did not raise and the device is started after
`Start()`. -/
theorem ConnectTry_running (K : Consts) (c : CClient F) :
    ((ConnectTry K c).Channel.bIsEnabled = true ∧ (ConnectTry K c).Sound.bStarted = true)
      ↔ (c.Channel.bIsEnabled = true ∧ c.Sound.bThrowsInInit = true ∧ c.Sound.bStarted = true)
        ∨ (c.Sound.bThrowsInInit = false ∧ c.Sound.bStartedAfterStart = true) := by
  cases hT : c.Sound.bThrowsInInit <;> cases hS : c.Sound.bStartThrows <;>
    simp [ConnectTry, hT, hS, emit, SoundStart, ChannelSetEnable]

/-- The abort branch of `Connect`. -/
theorem Connect_abort (K : Consts) (P : String → Bool → Option CHostAddress)
    (c : CClient F) (sAddr sName : String) (a : CHostAddress)
    (hdis : c.Channel.bIsEnabled = false) (hp : P sAddr c.bEnableIPv6 = some a)
    (hfail : ¬ ((ConnectTry K (SetServerAddr P c sAddr).1).Channel.bIsEnabled = true
      ∧ (ConnectTry K (SetServerAddr P c sAddr).1).Sound.bStarted = true)) :
    Connect K P c sAddr sName =
      (emit (ChannelSetEnable (SoundStop (ConnectTry K (SetServerAddr P c sAddr).1)) false)
        Call.EmitDisconnected, false) := by
  have h2 : (SetServerAddr P c sAddr).2 = true := by
    simp [SetServerAddr, hp]
  unfold Connect
  simp only [hdis, if_true, h2]
  rw [if_neg hfail]

/-- C9: a call of `Connect` for which `Init` or `Sound.Start` fails (one of
them raises `CGenErr`, or the device is not started afterwards; a `Start()`
that raises leaves the device not started), made with the channel disabled and
a parsable address, returns false, its last three actions are `Sound.Stop`,
`Channel.SetEnable ( false )` and the signal `Disconnected` in this order, and
it leaves the channel disabled and the device stopped; with an unparsable
address it returns false and changes nothing (no `Init`, no enabling, no device
start); and in every case the returned value is `Channel.IsEnabled()` on
return. -/
theorem Connect_failure_restores_disabled (K : Consts)
    (P : String → Bool → Option CHostAddress) (c : CClient F) (sAddr sName : String) :
    (c.Channel.bIsEnabled = false →
      (c.Sound.bStartThrows = true → c.Sound.bStartedAfterStart = false) →
      (∃ a, P sAddr c.bEnableIPv6 = some a) →
      (c.Sound.bThrowsInInit = true ∨ c.Sound.bStartThrows = true
        ∨ c.Sound.bStartedAfterStart = false) →
      (Connect K P c sAddr sName).2 = false
        ∧ (∃ pre, (Connect K P c sAddr sName).1.log
            = pre ++ [Call.SoundStop, Call.ChannelSetEnable false, Call.EmitDisconnected])
        ∧ (Connect K P c sAddr sName).1.Channel.bIsEnabled = false
        ∧ (Connect K P c sAddr sName).1.Sound.bStarted = false)
    ∧ (c.Channel.bIsEnabled = false → P sAddr c.bEnableIPv6 = none →
        Connect K P c sAddr sName = (c, false))
    ∧ (Connect K P c sAddr sName).2 = (Connect K P c sAddr sName).1.Channel.bIsEnabled := by
  refine ⟨?_, ?_, ?_⟩
  · intro hdis hcontract ⟨a, hp⟩ hfail
    have hch : (SetServerAddr P c sAddr).1.Channel.bIsEnabled = false := by
      simp [SetServerAddr, hp, hdis]
    have hsnd : (SetServerAddr P c sAddr).1.Sound = c.Sound := by
      simp [SetServerAddr, hp]
    have hnot : ¬ ((ConnectTry K (SetServerAddr P c sAddr).1).Channel.bIsEnabled = true
        ∧ (ConnectTry K (SetServerAddr P c sAddr).1).Sound.bStarted = true) := by
      rw [ConnectTry_running, hch, hsnd]
      rcases hfail with h | h | h
      · simp [h]
      · simp [hcontract h]
      · simp [h]
    rw [Connect_abort K P c sAddr sName a hdis hp hnot]
    refine ⟨rfl, ⟨(ConnectTry K (SetServerAddr P c sAddr).1).log, ?_⟩, rfl, rfl⟩
    simp [emit, ChannelSetEnable, SoundStop]
  · intro hdis hp
    unfold Connect
    simp [hdis, SetServerAddr, hp]
  · unfold Connect
    by_cases hdis : c.Channel.bIsEnabled = false
    · simp only [hdis, if_true]
      split
      · split
        · rename_i h
          simp [emit, h.1]
        · simp [emit, ChannelSetEnable]
      · rfl
    · have hen : c.Channel.bIsEnabled = true := by simpa using hdis
      simp [hen]

/-- Instance of `Connect_failure_restores_disabled`: the device does not start. -/
theorem Connect_failure_restores_disabled_witness :
    (Connect stdConsts (fun s _ => some s)
      (exampleClient stdConsts { exampleSound 128 with bStartedAfterStart := false } false)
      "server" "name").2 = false :=
  ((Connect_failure_restores_disabled stdConsts (fun s _ => some s)
    (exampleClient stdConsts { exampleSound 128 with bStartedAfterStart := false } false)
    "server" "name").1 rfl (fun _ => rfl) ⟨"server", rfl⟩ (Or.inr (Or.inr rfl))).1

/-- C10: with the channel enabled, `Disconnect` performs, in this order,
`Channel.Disconnect`, the wait, the creation of the connection-less disconnect
message for the channel address, `Channel.SetEnable ( false )`, `Sound.Stop`
and `SignalLevelMeter.Reset`, then emits `Disconnected` and returns true with
the channel disabled; with the channel disabled it does nothing, emits nothing
and returns true. -/
theorem Disconnect_sequence (c : CClient F) :
    (c.Channel.bIsEnabled = true →
      (Disconnect c).1.log = c.log ++
          [Call.ChannelDisconnect, Call.ProcessEventsWait,
            Call.CreateCLDisconnection c.Channel.Address, Call.ChannelSetEnable false,
            Call.SoundStop, Call.SignalLevelMeterReset, Call.EmitDisconnected]
        ∧ (Disconnect c).2 = true
        ∧ (Disconnect c).1.Channel.bIsEnabled = false
        ∧ (Disconnect c).1.Sound.bStarted = false)
    ∧ (c.Channel.bIsEnabled = false → Disconnect c = (c, true)) := by
  constructor
  · intro h
    unfold Disconnect
    simp [h, emit, ChannelSetEnable, SoundStop]
  · intro h
    unfold Disconnect
    simp [h]

/-- Instance of `Disconnect_sequence`: a client connected to the address
"server" with the device running performs the seven actions in order, returns
true and ends with the channel disabled and the device stopped; a client whose
channel is disabled is left unchanged. -/
theorem Disconnect_sequence_witness :
    ((Disconnect
          { exampleClient stdConsts { exampleSound 128 with bStarted := true } false with
            Channel := { bIsEnabled := true, Address := "server" } }).1.log
        = ({ exampleClient stdConsts { exampleSound 128 with bStarted := true } false with
            Channel := { bIsEnabled := true, Address := "server" } } : CClient Rat).log ++
          [Call.ChannelDisconnect, Call.ProcessEventsWait,
            Call.CreateCLDisconnection
              ({ exampleClient stdConsts { exampleSound 128 with bStarted := true } false with
                Channel := { bIsEnabled := true, Address := "server" } }
                  : CClient Rat).Channel.Address,
            Call.ChannelSetEnable false, Call.SoundStop, Call.SignalLevelMeterReset,
            Call.EmitDisconnected]
      ∧ (Disconnect
          { exampleClient stdConsts { exampleSound 128 with bStarted := true } false with
            Channel := { bIsEnabled := true, Address := "server" } }).2 = true
      ∧ (Disconnect
          { exampleClient stdConsts { exampleSound 128 with bStarted := true } false with
            Channel := { bIsEnabled := true, Address := "server" } }).1.Channel.bIsEnabled = false
      ∧ (Disconnect
          { exampleClient stdConsts { exampleSound 128 with bStarted := true } false with
            Channel := { bIsEnabled := true, Address := "server" } }).1.Sound.bStarted = false)
      ∧ Disconnect (exampleClient stdConsts (exampleSound 128) false)
        = (exampleClient stdConsts (exampleSound 128) false, true) :=
  ⟨(Disconnect_sequence
      { exampleClient stdConsts { exampleSound 128 with bStarted := true } false with
        Channel := { bIsEnabled := true, Address := "server" } }).1 rfl,
    (Disconnect_sequence (exampleClient stdConsts (exampleSound 128) false)).2 rfl⟩

/-! ## Frame pipeline -/

/-! ### Vectors keep their size -/

@[simp] theorem vecInPlace_length (v w : List Int) : (vecInPlace v w).length = v.length := by
  simp only [vecInPlace, List.length_take, List.length_append, List.length_drop]
  omega

@[simp] theorem vecSet_length (v : List Int) (i x : Int) : (vecSet v i x).length = v.length := by
  unfold vecSet
  split <;> simp

@[simp] theorem vecWriteAt_length (pcm : List Int) :
    ∀ (v : List Int) (off : Nat), (vecWriteAt v off pcm).length = v.length := by
  induction pcm with
  | nil => intro v off; rfl
  | cons x xs ih => intro v off; simp [vecWriteAt, ih]

@[simp] theorem vecWrite_length (v : List Int) (iOff : Int) (pcm : List Int) :
    (vecWrite v iOff pcm).length = v.length := by
  unfold vecWrite
  split <;> simp

@[simp] theorem vecReset_length (v : List Int) : (vecReset v).length = v.length := by
  simp [vecReset]

@[simp] theorem MonoToStereoLoop_length (n : Nat) :
    ∀ (i j : Int) (v : List Int), (MonoToStereoLoop n i j v).length = v.length := by
  induction n with
  | zero => intro i j v; rfl
  | succ n ih => intro i j v; simp [MonoToStereoLoop, ih]

@[simp] theorem MonoToStereo_length (c : CClient F) (v : List Int) :
    (MonoToStereo c v).length = v.length := by
  simp [MonoToStereo]

@[simp] theorem MuteMixLoop_length (env : CFrameEnv F) (c : CClient F) (n : Nat) :
    ∀ (i : Int) (v : List Int), (MuteMixLoop env c n i v).length = v.length := by
  induction n with
  | zero => intro i v; rfl
  | succ n ih => intro i v; simp [MuteMixLoop, ih]

@[simp] theorem TransmitPrepare_length (env : CFrameEnv F) (c : CClient F) (v : List Int) :
    (TransmitPrepare env c v).length = v.length := by
  unfold TransmitPrepare
  dsimp only
  repeat' split
  all_goals simp

@[simp] theorem DecodeLoop_length (env : CFrameEnv F) (n : Nat) :
    ∀ (i : Nat) (c : CClient F) (v : List Int),
      (DecodeLoop env n i (c, v)).2.length = v.length := by
  induction n with
  | zero => intro i c v; rfl
  | succ n ih =>
    intro i c v
    simp only [DecodeLoop]
    rw [ih]
    repeat' split
    all_goals simp

/-! ### What the loops leave unchanged -/

/-- The encode loop changes `vecCeltData` and the log only. -/
theorem EncodeLoop_inv {α : Type} (f : CClient F → α)
    (hv : ∀ (c : CClient F) v, f { c with vecCeltData := v } = f c)
    (hl : ∀ (c : CClient F) l, f { c with log := l } = f c)
    (env : CFrameEnv F) (vec : List Int) (n : Nat) :
    ∀ (i : Nat) (c : CClient F), f (EncodeLoop env vec n i c) = f c := by
  induction n with
  | zero => intro i c; rfl
  | succ n ih =>
    intro i c
    simp only [EncodeLoop]
    rw [ih, hl]
    split
    · rw [hv]
    · rfl

/-- The decode loop changes `vecbyNetwData`, the log and the initialization
phase flag only. -/
theorem DecodeLoop_inv {α : Type} (f : CClient F → α)
    (hv : ∀ (c : CClient F) v, f { c with vecbyNetwData := v } = f c)
    (hl : ∀ (c : CClient F) l, f { c with log := l } = f c)
    (hp : ∀ (c : CClient F) b, f { c with bIsInitializationPhase := b } = f c)
    (env : CFrameEnv F) (n : Nat) :
    ∀ (i : Nat) (c : CClient F) (v : List Int), f (DecodeLoop env n i (c, v)).1 = f c := by
  induction n with
  | zero => intro i c v; rfl
  | succ n ih =>
    intro i c v
    simp only [DecodeLoop]
    rw [ih]
    have h1 : f { c with
        vecbyNetwData := (env.GetData i c.iCeltNumCodedBytes).2
        log := c.log ++ [Call.ChannelGetData c.iCeltNumCodedBytes] } = f c :=
      (hl { c with vecbyNetwData := (env.GetData i c.iCeltNumCodedBytes).2 } _).trans (hv c _)
    split
    · exact (hp _ _).trans h1
    · exact h1

/-- Without a delivered packet the decode loop leaves the initialization phase
flag as it is. -/
theorem DecodeLoop_phase (env : CFrameEnv F)
    (hno : ∀ i n, (env.GetData i n).1 ≠ EGetDataStat.GS_BUFFER_OK) (n : Nat) :
    ∀ (i : Nat) (c : CClient F) (v : List Int),
      (DecodeLoop env n i (c, v)).1.bIsInitializationPhase = c.bIsInitializationPhase := by
  induction n with
  | zero => intro i c v; rfl
  | succ n ih =>
    intro i c v
    simp only [DecodeLoop]
    rw [ih, if_neg (hno _ _)]

/-- The middle part changes `vecCeltData`, `vecbyNetwData`, the stored local
data, the log and the initialization phase flag only. -/
theorem EncodeDecode_inv {α : Type} (f : CClient F → α)
    (hc : ∀ (c : CClient F) v, f { c with vecCeltData := v } = f c)
    (hv : ∀ (c : CClient F) v, f { c with vecbyNetwData := v } = f c)
    (hm : ∀ (c : CClient F) v, f { c with vecsStereoSndCrdMuteStream := v } = f c)
    (hl : ∀ (c : CClient F) l, f { c with log := l } = f c)
    (hp : ∀ (c : CClient F) b, f { c with bIsInitializationPhase := b } = f c)
    (env : CFrameEnv F) (c : CClient F) (v : List Int) :
    f (EncodeDecode env c v).1 = f c := by
  have h1 : ∀ n i, f (EncodeLoop env v n i c) = f c :=
    fun n i => EncodeLoop_inv f hc hl env v n i c
  unfold EncodeDecode
  dsimp only
  rw [DecodeLoop_inv f hv hl hp]
  split
  · rw [hm, h1]
  · rw [h1]

theorem EncodeDecode_phase (env : CFrameEnv F)
    (hno : ∀ i n, (env.GetData i n).1 ≠ EGetDataStat.GS_BUFFER_OK) (c : CClient F)
    (v : List Int) :
    (EncodeDecode env c v).1.bIsInitializationPhase = c.bIsInitializationPhase := by
  have h1 : ∀ n i, (EncodeLoop env v n i c).bIsInitializationPhase = c.bIsInitializationPhase :=
    fun n i => EncodeLoop_inv (fun c => c.bIsInitializationPhase) (fun _ _ => rfl)
      (fun _ _ => rfl) env v n i c
  unfold EncodeDecode
  dsimp only
  rw [DecodeLoop_phase env hno]
  split
  · exact h1 _ _
  · exact h1 _ _

@[simp] theorem EncodeDecode_length (env : CFrameEnv F) (c : CClient F) (v : List Int) :
    (EncodeDecode env c v).2.length = v.length := by
  unfold EncodeDecode
  dsimp only
  rw [apply_ite List.length]
  simp only [MuteMixLoop_length, DecodeLoop_length, ite_self]

/-- `ProcessAudioDataIntern` changes `vecCeltData`, `vecbyNetwData`, the stored
local data, the log and the initialization phase flag only. -/
theorem ProcessAudioDataIntern_inv {α : Type} (f : CClient F → α)
    (hc : ∀ (c : CClient F) v, f { c with vecCeltData := v } = f c)
    (hv : ∀ (c : CClient F) v, f { c with vecbyNetwData := v } = f c)
    (hm : ∀ (c : CClient F) v, f { c with vecsStereoSndCrdMuteStream := v } = f c)
    (hl : ∀ (c : CClient F) l, f { c with log := l } = f c)
    (hp : ∀ (c : CClient F) b, f { c with bIsInitializationPhase := b } = f c)
    (env : CFrameEnv F) (c : CClient F) (v : List Int) :
    f (ProcessAudioDataIntern env c v).1 = f c := by
  unfold ProcessAudioDataIntern
  dsimp only
  rw [hl, EncodeDecode_inv f hc hv hm hl hp]

theorem ProcessAudioDataIntern_phase (env : CFrameEnv F)
    (hno : ∀ i n, (env.GetData i n).1 ≠ EGetDataStat.GS_BUFFER_OK) (c : CClient F)
    (v : List Int) :
    (ProcessAudioDataIntern env c v).1.bIsInitializationPhase = c.bIsInitializationPhase := by
  unfold ProcessAudioDataIntern
  dsimp only
  exact EncodeDecode_phase env hno c _

@[simp] theorem ProcessAudioDataIntern_length (env : CFrameEnv F) (c : CClient F)
    (v : List Int) : (ProcessAudioDataIntern env c v).2.length = v.length := by
  unfold ProcessAudioDataIntern
  dsimp only
  repeat' split
  all_goals simp

/-- The gate at the end of `ProcessAudioDataIntern`: when the channel is not
connected, or the initialization phase has not ended, the block is cleared. -/
theorem ProcessAudioDataIntern_silent (env : CFrameEnv F) (c : CClient F) (v : List Int)
    (h : env.IsConnected = false
      ∨ (ProcessAudioDataIntern env c v).1.bIsInitializationPhase = true) :
    (ProcessAudioDataIntern env c v).2 = List.replicate v.length 0 := by
  have hcond : ¬ (env.IsConnected = true
      ∧ (EncodeDecode env c (TransmitPrepare env c v)).1.bIsInitializationPhase = false) := by
    rintro ⟨h1, h2⟩
    rcases h with h | h
    · rw [h] at h1; exact Bool.noConfusion h1
    · have h3 : (EncodeDecode env c (TransmitPrepare env c v)).1.bIsInitializationPhase
          = true := h
      rw [h3] at h2; exact Bool.noConfusion h2
  unfold ProcessAudioDataIntern
  dsimp only
  rw [if_neg hcond]
  simp [vecReset]

/-- Frames that are silenced leave a cleared block. -/
theorem ProcessAudioDataIntern_of_silent (envs : Nat → CFrameEnv F) (k : Nat) (c : CClient F)
    (v : List Int) (h : SilentFrames envs c) :
    (ProcessAudioDataIntern (envs k) c v).2 = List.replicate v.length 0
      ∧ SilentFrames envs (ProcessAudioDataIntern (envs k) c v).1 := by
  rcases h with h | ⟨h1, h2⟩
  · exact ⟨ProcessAudioDataIntern_silent _ c v (Or.inl (h k)), Or.inl h⟩
  · have hp := ProcessAudioDataIntern_phase (envs k) (h2 k) c v
    exact ⟨ProcessAudioDataIntern_silent _ c v (Or.inr (hp.trans h1)),
      Or.inr ⟨hp.trans h1, h2⟩⟩

/-! ### The conversion buffers -/

theorem CBuffer_Put_ok (b : CBuffer) (v : List Int) (n : Int) (h0 : 0 ≤ n)
    (h : b.GetAvailData + n ≤ b.iMemSize) :
    (b.Put v n).1 = { b with data := b.data ++ v.take n.toNat } := by
  unfold CBuffer.Put
  rw [if_pos ⟨h0, h⟩]

theorem CBuffer_Get_ok (b : CBuffer) (v : List Int) (n : Int) (h0 : 0 ≤ n)
    (h : n ≤ b.GetAvailData) :
    (b.Get v n).1 = { b with data := b.data.drop n.toNat }
      ∧ (b.Get v n).2.1 = b.data.take n.toNat ++ v.drop n.toNat := by
  unfold CBuffer.Get
  rw [if_pos ⟨h0, h⟩]
  exact ⟨rfl, rfl⟩

theorem SilentFrames_congr (envs : Nat → CFrameEnv F) (c c' : CClient F)
    (h : c'.bIsInitializationPhase = c.bIsInitializationPhase) (hs : SilentFrames envs c) :
    SilentFrames envs c' := by
  unfold SilentFrames at hs ⊢
  rw [h]
  exact hs

/-- One pass of the conversion loop over silenced frames: an engine frame
leaves the input buffer and a frame of zeros enters the output buffer. -/
theorem ConvLoopBody_spec (envs : Nat → CFrameEnv F) (k : Nat) (c : CClient F) (E : Nat)
    (hE : c.iStereoBlockSizeSam = (E : Int))
    (hin : E ≤ c.SndCrdConversionBufferIn.data.length)
    (hcap : (c.SndCrdConversionBufferOut.data.length : Int) + E
      ≤ c.SndCrdConversionBufferOut.iMemSize)
    (hs : SilentFrames envs c) :
    (ConvLoopBody (envs k) c).iStereoBlockSizeSam = (E : Int)
      ∧ (ConvLoopBody (envs k) c).bSndCrdConversionBufferRequired
        = c.bSndCrdConversionBufferRequired
      ∧ (ConvLoopBody (envs k) c).SndCrdConversionBufferIn
        = { c.SndCrdConversionBufferIn with data := c.SndCrdConversionBufferIn.data.drop E }
      ∧ (ConvLoopBody (envs k) c).SndCrdConversionBufferOut
        = { c.SndCrdConversionBufferOut with
            data := c.SndCrdConversionBufferOut.data ++ List.replicate E 0 }
      ∧ SilentFrames envs (ConvLoopBody (envs k) c)
      ∧ ((∀ i n, ((envs k).GetData i n).1 ≠ EGetDataStat.GS_BUFFER_OK) →
          (ConvLoopBody (envs k) c).bIsInitializationPhase = c.bIsInitializationPhase) := by
  have hget := CBuffer_Get_ok c.SndCrdConversionBufferIn c.vecDataConvBuf c.iStereoBlockSizeSam
    (by rw [hE]; exact Int.ofNat_nonneg E)
    (by rw [hE]; simp only [CBuffer.GetAvailData]; exact_mod_cast hin)
  rw [hE, Int.toNat_ofNat] at hget
  -- the state handed to the pipeline and its result
  let c1 : CClient F :=
    { c with
      SndCrdConversionBufferIn :=
        (c.SndCrdConversionBufferIn.Get c.vecDataConvBuf c.iStereoBlockSizeSam).1
      vecDataConvBuf :=
        (c.SndCrdConversionBufferIn.Get c.vecDataConvBuf c.iStereoBlockSizeSam).2.1 }
  have hs1 : SilentFrames envs c1 := SilentFrames_congr envs c c1 rfl hs
  obtain ⟨hz, hs2⟩ := ProcessAudioDataIntern_of_silent envs k c1 c1.vecDataConvBuf hs1
  have hlen : E ≤ c1.vecDataConvBuf.length := by
    show E ≤ (c.SndCrdConversionBufferIn.Get c.vecDataConvBuf c.iStereoBlockSizeSam).2.1.length
    rw [hE, hget.2]
    simp only [List.length_append, List.length_take, List.length_drop]
    omega
  have hinv : ∀ {α : Type} (f : CClient F → α),
      (∀ (c : CClient F) v, f { c with vecCeltData := v } = f c) →
      (∀ (c : CClient F) v, f { c with vecbyNetwData := v } = f c) →
      (∀ (c : CClient F) v, f { c with vecsStereoSndCrdMuteStream := v } = f c) →
      (∀ (c : CClient F) l, f { c with log := l } = f c) →
      (∀ (c : CClient F) b, f { c with bIsInitializationPhase := b } = f c) →
      f (ProcessAudioDataIntern (envs k) c1 c1.vecDataConvBuf).1 = f c1 :=
    fun f h1 h2 h3 h4 h5 => ProcessAudioDataIntern_inv f h1 h2 h3 h4 h5 (envs k) c1 _
  have hSt : (ProcessAudioDataIntern (envs k) c1 c1.vecDataConvBuf).1.iStereoBlockSizeSam
      = c.iStereoBlockSizeSam :=
    hinv (fun c => c.iStereoBlockSizeSam) (fun _ _ => rfl) (fun _ _ => rfl) (fun _ _ => rfl)
      (fun _ _ => rfl) (fun _ _ => rfl)
  have hOut : (ProcessAudioDataIntern (envs k) c1 c1.vecDataConvBuf).1.SndCrdConversionBufferOut
      = c.SndCrdConversionBufferOut :=
    hinv (fun c => c.SndCrdConversionBufferOut) (fun _ _ => rfl) (fun _ _ => rfl)
      (fun _ _ => rfl) (fun _ _ => rfl) (fun _ _ => rfl)
  have hIn : (ProcessAudioDataIntern (envs k) c1 c1.vecDataConvBuf).1.SndCrdConversionBufferIn
      = (c.SndCrdConversionBufferIn.Get c.vecDataConvBuf c.iStereoBlockSizeSam).1 :=
    hinv (fun c => c.SndCrdConversionBufferIn) (fun _ _ => rfl) (fun _ _ => rfl)
      (fun _ _ => rfl) (fun _ _ => rfl) (fun _ _ => rfl)
  have hCv : (ProcessAudioDataIntern (envs k) c1
      c1.vecDataConvBuf).1.bSndCrdConversionBufferRequired
      = c.bSndCrdConversionBufferRequired :=
    hinv (fun c => c.bSndCrdConversionBufferRequired) (fun _ _ => rfl) (fun _ _ => rfl)
      (fun _ _ => rfl) (fun _ _ => rfl) (fun _ _ => rfl)
  have hph : (ConvLoopBody (envs k) c).bIsInitializationPhase
      = (ProcessAudioDataIntern (envs k) c1 c1.vecDataConvBuf).1.bIsInitializationPhase := by
    unfold ConvLoopBody
    rfl
  refine ⟨?_, ?_, ?_, ?_, ?_, ?_⟩
  · show (ProcessAudioDataIntern (envs k) c1 c1.vecDataConvBuf).1.iStereoBlockSizeSam = _
    rw [hSt, hE]
  · exact hCv
  · show (ProcessAudioDataIntern (envs k) c1 c1.vecDataConvBuf).1.SndCrdConversionBufferIn = _
    rw [hIn, hE, hget.1]
  · show ((ProcessAudioDataIntern (envs k) c1 c1.vecDataConvBuf).1.SndCrdConversionBufferOut.Put
        (ProcessAudioDataIntern (envs k) c1 c1.vecDataConvBuf).2
        (ProcessAudioDataIntern (envs k) c1 c1.vecDataConvBuf).1.iStereoBlockSizeSam).1 = _
    rw [hOut, hSt, hE, hz, CBuffer_Put_ok _ _ _ (Int.ofNat_nonneg E) hcap, Int.toNat_ofNat,
      List.take_replicate, Nat.min_eq_left hlen]
  · exact SilentFrames_congr envs _ _ hph hs2
  · intro hno
    rw [hph]
    exact ProcessAudioDataIntern_phase (envs k) hno c1 c1.vecDataConvBuf

/-- The conversion loop over silenced frames ends (given enough fuel) with less
than one engine frame in the input buffer; the fill levels keep their sum and
only zeros have entered the output buffer. -/
theorem ConvLoop_spec (envs : Nat → CFrameEnv F) (E : Nat) (hEpos : 0 < E) :
    ∀ (fuel k : Nat) (c : CClient F),
      c.iStereoBlockSizeSam = (E : Int) →
      c.SndCrdConversionBufferIn.data.length < fuel →
      (c.SndCrdConversionBufferIn.data.length : Int) + c.SndCrdConversionBufferOut.data.length
        ≤ c.SndCrdConversionBufferOut.iMemSize →
      SilentFrames envs c →
      ∃ c', ConvLoop envs fuel k c = some c'
        ∧ c'.iStereoBlockSizeSam = (E : Int)
        ∧ c'.bSndCrdConversionBufferRequired = c.bSndCrdConversionBufferRequired
        ∧ c'.SndCrdConversionBufferIn.iMemSize = c.SndCrdConversionBufferIn.iMemSize
        ∧ c'.SndCrdConversionBufferOut.iMemSize = c.SndCrdConversionBufferOut.iMemSize
        ∧ c'.SndCrdConversionBufferIn.data.length < E
        ∧ c'.SndCrdConversionBufferIn.data.length + c'.SndCrdConversionBufferOut.data.length
          = c.SndCrdConversionBufferIn.data.length + c.SndCrdConversionBufferOut.data.length
        ∧ (∃ m, c'.SndCrdConversionBufferOut.data
            = c.SndCrdConversionBufferOut.data ++ List.replicate m 0)
        ∧ SilentFrames envs c'
        ∧ ((∀ j i n, ((envs j).GetData i n).1 ≠ EGetDataStat.GS_BUFFER_OK) →
            c'.bIsInitializationPhase = c.bIsInitializationPhase) := by
  intro fuel
  induction fuel with
  | zero => intro k c _ h; exact absurd h (Nat.not_lt_zero _)
  | succ fuel ih =>
    intro k c hE hfuel hcap hs
    simp only [ConvLoop]
    by_cases hge : c.SndCrdConversionBufferIn.GetAvailData ≥ c.iStereoBlockSizeSam
    · rw [if_pos hge]
      have hin : E ≤ c.SndCrdConversionBufferIn.data.length := by
        rw [hE] at hge
        simp only [CBuffer.GetAvailData] at hge
        exact_mod_cast hge
      obtain ⟨b1, b2, b3, b4, b5, b6⟩ :=
        ConvLoopBody_spec envs k c E hE hin (by omega) hs
      obtain ⟨c', r1, r2, r3, r4, r5, r6, r7, ⟨m, r8⟩, r9, r10⟩ :=
        ih (k + 1) (ConvLoopBody (envs k) c) b1
          (by rw [b3]; simp only [List.length_drop]; omega)
          (by rw [b3, b4]; simp only [List.length_drop, List.length_append,
                List.length_replicate]; push_cast; omega)
          b5
      refine ⟨c', r1, r2, r3.trans b2, ?_, ?_, r6, ?_, ⟨E + m, ?_⟩, r9, ?_⟩
      · rw [r4, b3]
      · rw [r5, b4]
      · rw [r7, b3, b4]
        simp only [List.length_drop, List.length_append, List.length_replicate]
        omega
      · rw [r8, b4]
        simp only [List.append_assoc, List.append_replicate_replicate]
      · intro hno
        rw [r10 hno, b6 (hno k)]
    · rw [if_neg hge]
      refine ⟨c, rfl, hE, rfl, rfl, rfl, ?_, rfl, ⟨0, by simp⟩, hs, fun _ => rfl⟩
      rw [hE] at hge
      simp only [CBuffer.GetAvailData, ge_iff_le, not_le] at hge
      exact_mod_cast hge

/-- A device callback without conversion buffer is one run of the pipeline. -/
theorem ProcessSndCrdAudioData_direct (fuel : Nat) (envs : Nat → CFrameEnv F) (c : CClient F)
    (vec : List Int) (h : c.bSndCrdConversionBufferRequired = false) :
    ProcessSndCrdAudioData fuel envs c vec = some (ProcessAudioDataIntern (envs 0) c vec) := by
  unfold ProcessSndCrdAudioData
  simp [h]

/-- A device callback with conversion buffer over silenced frames: it ends, the
state of the rings is kept, and the block returned consists of the oldest
samples of the output buffer followed by zeros. -/
theorem ProcessSndCrdAudioData_conv (fuel : Nat) (envs : Nat → CFrameEnv F) (c : CClient F)
    (vec : List Int) (E D : Nat) (hr : RingInv (E : Int) (D : Int) c) (hvec : vec.length = D)
    (hfuel : E + D ≤ fuel) (hs : SilentFrames envs c) :
    ∃ c' out, ProcessSndCrdAudioData fuel envs c vec = some (c', out)
      ∧ RingInv (E : Int) (D : Int) c'
      ∧ (∃ m, out = (c.SndCrdConversionBufferOut.data ++ List.replicate m 0).take D
          ∧ c'.SndCrdConversionBufferOut.data
            = (c.SndCrdConversionBufferOut.data ++ List.replicate m 0).drop D
          ∧ D ≤ c.SndCrdConversionBufferOut.data.length + m)
      ∧ SilentFrames envs c'
      ∧ ((∀ j i n, ((envs j).GetData i n).1 ≠ EGetDataStat.GS_BUFFER_OK) →
          c'.bIsInitializationPhase = c.bIsInitializationPhase) := by
  obtain ⟨h1, h2, h3, h4, h5, h6, h7⟩ := hr
  simp only [CBuffer.GetAvailData] at h6 h7
  have hEpos : 0 < E := by exact_mod_cast h3
  have hput := CBuffer_Put_ok c.SndCrdConversionBufferIn vec (vec.length : Int)
    (Int.ofNat_nonneg _) (by simp only [CBuffer.GetAvailData]; rw [h4, hvec]; omega)
  rw [Int.toNat_ofNat, List.take_length] at hput
  let c1 : CClient F :=
    { c with SndCrdConversionBufferIn :=
        (c.SndCrdConversionBufferIn.Put vec (vec.length : Int)).1 }
  have hc1In : c1.SndCrdConversionBufferIn
      = { c.SndCrdConversionBufferIn with data := c.SndCrdConversionBufferIn.data ++ vec } :=
    hput
  obtain ⟨c2, r1, r2, r3, r4, r5, r6, r7, ⟨m, r8⟩, r9, r10⟩ :=
    ConvLoop_spec envs E hEpos fuel 0 c1 h2
      (by rw [hc1In]; simp only [List.length_append]; omega)
      (by rw [hc1In]; simp only [List.length_append]
          show _ ≤ c.SndCrdConversionBufferOut.iMemSize
          rw [h5]; push_cast; omega)
      (SilentFrames_congr envs c c1 rfl hs)
  rw [hc1In] at r4 r7
  simp only [List.length_append] at r7
  have r5' : c2.SndCrdConversionBufferOut.iMemSize = c.SndCrdConversionBufferOut.iMemSize := r5
  have r8' : c2.SndCrdConversionBufferOut.data
      = c.SndCrdConversionBufferOut.data ++ List.replicate m 0 := r8
  have hlen2 : c2.SndCrdConversionBufferOut.data.length
      = c.SndCrdConversionBufferOut.data.length + m := by
    rw [r8']; simp
  have hget := CBuffer_Get_ok c2.SndCrdConversionBufferOut vec (vec.length : Int)
    (Int.ofNat_nonneg _) (by simp only [CBuffer.GetAvailData]; omega)
  rw [Int.toNat_ofNat, List.drop_length, List.append_nil] at hget
  refine ⟨{ c2 with SndCrdConversionBufferOut :=
      (c2.SndCrdConversionBufferOut.Get vec (vec.length : Int)).1 },
    (c2.SndCrdConversionBufferOut.Get vec (vec.length : Int)).2.1, ?_, ?_, ⟨m, ?_, ?_, ?_⟩, ?_, ?_⟩
  · unfold ProcessSndCrdAudioData
    rw [if_pos h1]
    show (match ConvLoop envs fuel 0 c1 with
      | none => none
      | some c2 => _) = _
    rw [r1]
  · refine ⟨r3.trans h1, r2, h3, ?_, ?_, ?_, ?_⟩
    · show c2.SndCrdConversionBufferIn.iMemSize = _
      rw [r4]; exact h4
    · show (c2.SndCrdConversionBufferOut.Get vec (vec.length : Int)).1.iMemSize = _
      rw [hget.1]; show c2.SndCrdConversionBufferOut.iMemSize = _
      rw [r5']; exact h5
    · show (c2.SndCrdConversionBufferIn.data.length : Int)
        + ((c2.SndCrdConversionBufferOut.Get vec (vec.length : Int)).1.data.length : Int) = _
      rw [hget.1]
      simp only [List.length_drop]
      omega
    · show (c2.SndCrdConversionBufferIn.data.length : Int) < _
      exact_mod_cast r6
  · rw [hget.2, r8', hvec]
  · show (c2.SndCrdConversionBufferOut.Get vec (vec.length : Int)).1.data = _
    rw [hget.1, r8', hvec]
  · omega
  · exact SilentFrames_congr envs c2 _ rfl r9
  · intro hno
    exact r10 hno

/-! ### Sequences of device callbacks -/

theorem RingInv_congr (E D : Int) (c c' : CClient F)
    (h1 : c'.bSndCrdConversionBufferRequired = c.bSndCrdConversionBufferRequired)
    (h2 : c'.iStereoBlockSizeSam = c.iStereoBlockSizeSam)
    (h3 : c'.SndCrdConversionBufferIn = c.SndCrdConversionBufferIn)
    (h4 : c'.SndCrdConversionBufferOut = c.SndCrdConversionBufferOut)
    (h : RingInv E D c) : RingInv E D c' := by
  unfold RingInv at h ⊢
  rw [h1, h2, h3, h4]
  exact h

theorem mem_take_append_replicate (l : List Int) (m D : Nat) (hl : ∀ x ∈ l, x = 0) :
    ∀ x ∈ (l ++ List.replicate m 0).take D, x = 0 := by
  intro x hx
  have hx' := List.mem_of_mem_take hx
  rcases List.mem_append.mp hx' with h | h
  · exact hl x h
  · exact List.eq_of_mem_replicate h

/-- C7 (as stated, refuted): the device grants 96 samples, so the conversion
buffer is used with engine frames of 256 stereo samples. The first two
callbacks run while the channel is connected and packets arrive (decoded
samples of value 7); during the third callback the channel is not connected,
yet the block it returns starts with 128 samples of value 7, which the output
conversion buffer still held. -/
theorem Disconnected_conversion_counterexample :
    exampleEnvDisconnected.IsConnected = false
      ∧ (runPipeline 500 (Init stdConsts (exampleClient stdConsts (exampleSound 96) false))
          [exampleInvocation exampleEnvConnected 192, exampleInvocation exampleEnvConnected 192,
            exampleInvocation exampleEnvDisconnected 192]).map Prod.snd
        = some [List.replicate 192 0, List.replicate 64 0 ++ List.replicate 128 7,
            List.replicate 128 7 ++ List.replicate 64 0] := by
  decide

/-- C7 (amended): when `Channel.IsConnected()` is false during a device
callback, then without conversion buffer the block returned by that callback
is all zero; with the conversion buffer (rings in a state kept by the
callbacks, block of the device size) the callback ends, every engine frame it
processes enters the output buffer as zeros, and the block returned consists
of the oldest samples of the output buffer, those held before the callback
followed by such zeros; so it is all zero when the output buffer held zeros
only. -/
theorem Disconnected_silence (fuel : Nat) (envs : Nat → CFrameEnv F) (c : CClient F)
    (vec : List Int) :
    (c.bSndCrdConversionBufferRequired = false → (envs 0).IsConnected = false →
      ∃ c', ProcessSndCrdAudioData fuel envs c vec = some (c', List.replicate vec.length 0))
    ∧ (∀ E D : Nat, RingInv (E : Int) (D : Int) c → vec.length = D → E + D ≤ fuel →
        (∀ j, (envs j).IsConnected = false) →
        ∃ c' out m, ProcessSndCrdAudioData fuel envs c vec = some (c', out)
          ∧ out.length = D
          ∧ out = (c.SndCrdConversionBufferOut.data ++ List.replicate m 0).take D
          ∧ c'.SndCrdConversionBufferOut.data
            = (c.SndCrdConversionBufferOut.data ++ List.replicate m 0).drop D
          ∧ RingInv (E : Int) (D : Int) c'
          ∧ ((∀ x ∈ c.SndCrdConversionBufferOut.data, x = 0) → ∀ x ∈ out, x = 0)) := by
  constructor
  · intro hc hd
    refine ⟨(ProcessAudioDataIntern (envs 0) c vec).1, ?_⟩
    rw [ProcessSndCrdAudioData_direct fuel envs c vec hc,
      ← ProcessAudioDataIntern_silent (envs 0) c vec (Or.inl hd)]
  · intro E D hr hvec hfuel hd
    obtain ⟨c', out, f1, f2, ⟨m, f3, f4, f5⟩, _, _⟩ :=
      ProcessSndCrdAudioData_conv fuel envs c vec E D hr hvec hfuel (Or.inl hd)
    refine ⟨c', out, m, f1, ?_, f3, f4, f2, ?_⟩
    · rw [f3, List.length_take, List.length_append, List.length_replicate]
      omega
    · intro hz x hx
      rw [f3] at hx
      exact mem_take_append_replicate _ m D hz x hx

/-- Instance of `Disconnected_silence`: no conversion buffer (128 samples are
granted), the channel is not connected. -/
theorem Disconnected_silence_witness :
    ∃ c', ProcessSndCrdAudioData 1 (fun _ => exampleEnvDisconnected)
        (Init stdConsts (exampleClient stdConsts (exampleSound 128) false))
        (List.replicate 256 1) = some (c', List.replicate 256 0) :=
  (Disconnected_silence 1 (fun _ => exampleEnvDisconnected)
    (Init stdConsts (exampleClient stdConsts (exampleSound 128) false))
    (List.replicate 256 1)).1 (by decide) rfl

/-! ## The gain rate limiter: single operations -/

theorem mem_idsFrom (n : Nat) : ∀ (iId j : Int), j ∈ idsFrom iId n ↔ iId ≤ j ∧ j < iId + n := by
  induction n with
  | zero => intro iId j; simp [idsFrom]
  | succ n ih =>
    intro iId j
    simp only [idsFrom, List.mem_cons, ih]
    push_cast
    omega

theorem idsFrom_pairwise (n : Nat) : ∀ (iId : Int), (idsFrom iId n).Pairwise (· < ·) := by
  induction n with
  | zero => intro iId; simp [idsFrom]
  | succ n ih =>
    intro iId
    simp only [idsFrom, List.pairwise_cons]
    refine ⟨?_, ih _⟩
    intro j hj
    rw [mem_idsFrom] at hj
    omega

/-- The timer loop changes `oldGain` and the log only. -/
theorem OnTimerLoop_inv {α : Type} (f : CClient F → α)
    (ho : ∀ (c : CClient F) g l, f { c with oldGain := g, log := l } = f c)
    (fne : F → F → Bool) (n : Nat) :
    ∀ (iId : Int) (c : CClient F) (b : Bool), f (OnTimerLoop fne n iId (c, b)).1 = f c := by
  induction n with
  | zero => intro iId c b; rfl
  | succ n ih =>
    intro iId c b
    simp only [OnTimerLoop]
    split
    · rw [ih, ho]
    · rw [ih]

/-- The timer loop over `n` channels from `iId` on: the flag, the messages
sent and the gains recorded as sent. -/
theorem OnTimerLoop_spec (fne : F → F → Bool) (n : Nat) :
    ∀ (iId : Int) (c : CClient F) (b : Bool),
      (OnTimerLoop fne n iId (c, b)).2
          = (b || (idsFrom iId n).any (fun i => fne (c.newGain i) (c.oldGain i)))
        ∧ gainsSent (OnTimerLoop fne n iId (c, b)).1.log = gainsSent c.log ++
            ((idsFrom iId n).filter (fun i => fne (c.newGain i) (c.oldGain i))).map
              (fun i => (i, c.newGain i))
        ∧ ∀ j, (OnTimerLoop fne n iId (c, b)).1.oldGain j =
            if (iId ≤ j ∧ j < iId + n) ∧ fne (c.newGain j) (c.oldGain j) = true then c.newGain j
            else c.oldGain j := by
  induction n with
  | zero =>
    intro iId c b
    refine ⟨by simp [OnTimerLoop, idsFrom], by simp [OnTimerLoop, idsFrom], ?_⟩
    intro j
    have : ¬ ((iId ≤ j ∧ j < iId + ((0 : Nat) : Int)) ∧ fne (c.newGain j) (c.oldGain j) = true) := by
      rintro ⟨⟨h1, h2⟩, _⟩
      simp at h2
      omega
    rw [if_neg this]
    rfl
  | succ n ih =>
    intro iId c b
    have hagree : ∀ (g : Int → F), (∀ i, i ≠ iId → g i = c.oldGain i) →
        ∀ i ∈ idsFrom (iId + 1) n,
          (fne (c.newGain i) (g i)) = (fne (c.newGain i) (c.oldGain i)) := by
      intro g hg i hi
      rw [mem_idsFrom] at hi
      rw [hg i (by omega)]
    simp only [OnTimerLoop]
    by_cases hf : fne (c.newGain iId) (c.oldGain iId) = true
    · rw [if_pos hf]
      obtain ⟨h1, h2, h3⟩ := ih (iId + 1)
        { c with
          oldGain := Function.update c.oldGain iId (c.newGain iId)
          log := c.log ++ [Call.ChannelSetRemoteChanGain iId (c.newGain iId)] } true
      dsimp only at h1 h2 h3
      have hg : ∀ i, i ≠ iId → Function.update c.oldGain iId (c.newGain iId) i = c.oldGain i :=
        fun i hi => Function.update_noteq hi _ _
      refine ⟨?_, ?_, ?_⟩
      · rw [h1]
        simp [idsFrom, hf]
      · rw [h2, gainsSent_append]
        simp only [idsFrom, List.filter_cons, hf, if_true, List.map_cons, gainsSent,
          List.append_assoc, List.singleton_append]
        congr 2
        exact congrArg _ (List.filter_congr (fun i hi => hagree _ hg i hi))
      · intro j
        rw [h3]
        by_cases hj : j = iId
        · subst hj
          have : ¬ ((j + 1 ≤ j ∧ j < j + 1 + (n : Int)) ∧
              fne (c.newGain j) (Function.update c.oldGain j (c.newGain j) j) = true) := by
            rintro ⟨⟨h, _⟩, _⟩; omega
          rw [if_neg this, Function.update_same]
          have : ((j ≤ j ∧ j < j + ((n + 1 : Nat) : Int)) ∧
              fne (c.newGain j) (c.oldGain j) = true) := ⟨⟨le_refl _, by push_cast; omega⟩, hf⟩
          rw [if_pos this]
        · rw [hg j hj]
          have : ((iId + 1 ≤ j ∧ j < iId + 1 + (n : Int)) ↔
              (iId ≤ j ∧ j < iId + ((n + 1 : Nat) : Int))) := by
            push_cast; omega
          simp only [this]
    · rw [if_neg hf]
      obtain ⟨h1, h2, h3⟩ := ih (iId + 1) c b
      have hf' : fne (c.newGain iId) (c.oldGain iId) = false := by simpa using hf
      refine ⟨?_, ?_, ?_⟩
      · rw [h1]
        simp [idsFrom, hf']
      · rw [h2]
        simp [idsFrom, hf']
      · intro j
        rw [h3]
        by_cases hj : j = iId
        · subst hj
          have h1 : ¬ ((j + 1 ≤ j ∧ j < j + 1 + (n : Int)) ∧
              fne (c.newGain j) (c.oldGain j) = true) := by
            rintro ⟨⟨h, _⟩, _⟩; omega
          have h2 : ¬ ((j ≤ j ∧ j < j + ((n + 1 : Nat) : Int)) ∧
              fne (c.newGain j) (c.oldGain j) = true) := fun h => hf h.2
          rw [if_neg h1, if_neg h2]
        · have : ((iId + 1 ≤ j ∧ j < iId + 1 + (n : Int)) ↔
              (iId ≤ j ∧ j < iId + ((n + 1 : Nat) : Int))) := by
            push_cast; omega
          simp only [this]

theorem filter_map_eq_nil_iff {α β : Type} (l : List α) (p : α → Bool) (f : α → β) :
    (l.filter p).map f = [] ↔ l.any p = false := by
  induction l with
  | nil => simp
  | cons a l ih =>
    by_cases h : p a = true
    · simp [List.filter_cons, h]
    · have h' : p a = false := by simpa using h
      simp [List.filter_cons, h', ih]

theorem dirtyIds_mem (c : CClient F) (j : Int) :
    j ∈ dirtyIds c ↔ c.minGainId ≤ j ∧ j < c.maxGainId := by
  unfold dirtyIds
  rw [mem_idsFrom]
  omega

/-- The function `OnTimerRemoteChanGain` in terms of its loop. -/
theorem OnTimerRemoteChanGain_eq (K : Consts) (fne : F → F → Bool) (c : CClient F) :
    OnTimerRemoteChanGain K fne c =
      if (OnTimerLoop fne (c.maxGainId - c.minGainId).toNat c.minGainId (c, false)).2 = true then
        StartDelayTimer K
          (OnTimerLoop fne (c.maxGainId - c.minGainId).toNat c.minGainId (c, false)).1
      else (OnTimerLoop fne (c.maxGainId - c.minGainId).toNat c.minGainId (c, false)).1 := rfl

/-- C20: at a timer expiry `OnTimerRemoteChanGain` sends exactly the messages
`(id, newGain[id])` for the ids of the range `minGainId <= id < maxGainId` with
`newGain[id] != oldGain[id]`, each once and in increasing id order; afterwards
`oldGain[id]` is `newGain[id]` where a message was sent and is unchanged
elsewhere, also outside the range, so that the two compare equal on the whole
range; `newGain` is unchanged; when at least one message was sent the range is
reset and the timer armed again, and otherwise the range and the timer are
left as they were. -/
theorem OnTimerRemoteChanGain_expiry (K : Consts) (fne : F → F → Bool) (c : CClient F) :
    gainsSent (OnTimerRemoteChanGain K fne c).log = gainsSent c.log ++ pendingSends fne c
      ∧ (dirtyIds c).Pairwise (· < ·)
      ∧ (∀ j, j ∈ dirtyIds c ↔ c.minGainId ≤ j ∧ j < c.maxGainId)
      ∧ (∀ j, (OnTimerRemoteChanGain K fne c).oldGain j =
          if (c.minGainId ≤ j ∧ j < c.maxGainId) ∧ fne (c.newGain j) (c.oldGain j) = true then
            c.newGain j
          else c.oldGain j)
      ∧ (OnTimerRemoteChanGain K fne c).newGain = c.newGain
      ∧ ((∀ a, fne a a = false) → ∀ j, c.minGainId ≤ j → j < c.maxGainId →
          fne ((OnTimerRemoteChanGain K fne c).newGain j)
            ((OnTimerRemoteChanGain K fne c).oldGain j) = false)
      ∧ ((∀ a b, fne a b = false → a = b) → ∀ j, c.minGainId ≤ j → j < c.maxGainId →
          (OnTimerRemoteChanGain K fne c).oldGain j = (OnTimerRemoteChanGain K fne c).newGain j)
      ∧ (∀ j, ¬ (c.minGainId ≤ j ∧ j < c.maxGainId) →
          (OnTimerRemoteChanGain K fne c).oldGain j = c.oldGain j)
      ∧ (pendingSends fne c ≠ [] →
          (OnTimerRemoteChanGain K fne c).minGainId = K.MAX_NUM_CHANNELS
            ∧ (OnTimerRemoteChanGain K fne c).maxGainId = 0
            ∧ (OnTimerRemoteChanGain K fne c).TimerGain.bActive = true)
      ∧ (pendingSends fne c = [] →
          (OnTimerRemoteChanGain K fne c).minGainId = c.minGainId
            ∧ (OnTimerRemoteChanGain K fne c).maxGainId = c.maxGainId
            ∧ (OnTimerRemoteChanGain K fne c).TimerGain = c.TimerGain) := by
  obtain ⟨h1, h2, h3⟩ :=
    OnTimerLoop_spec fne (c.maxGainId - c.minGainId).toNat c.minGainId c false
  have hrange : ∀ j : Int, (c.minGainId ≤ j ∧ j < c.minGainId +
      (((c.maxGainId - c.minGainId).toNat : Nat) : Int)) ↔ (c.minGainId ≤ j ∧ j < c.maxGainId) := by
    intro j; omega
  simp only [hrange] at h3
  have hflag : (OnTimerLoop fne (c.maxGainId - c.minGainId).toNat c.minGainId (c, false)).2
      = true ↔ pendingSends fne c ≠ [] := by
    rw [h1, Bool.false_or]
    unfold pendingSends dirtyIds
    rw [Ne, filter_map_eq_nil_iff]
    simp
  have hlog : gainsSent (OnTimerRemoteChanGain K fne c).log
      = gainsSent c.log ++ pendingSends fne c := by
    rw [OnTimerRemoteChanGain_eq]
    split
    · rw [StartDelayTimer_log, h2]; rfl
    · rw [h2]; rfl
  have hold : ∀ j, (OnTimerRemoteChanGain K fne c).oldGain j =
      if (c.minGainId ≤ j ∧ j < c.maxGainId) ∧ fne (c.newGain j) (c.oldGain j) = true then
        c.newGain j
      else c.oldGain j := by
    intro j
    rw [OnTimerRemoteChanGain_eq]
    split
    · rw [StartDelayTimer_oldGain, h3]
    · rw [h3]
  have hnew : (OnTimerRemoteChanGain K fne c).newGain = c.newGain := by
    rw [OnTimerRemoteChanGain_eq]
    split
    · rw [StartDelayTimer_newGain]
      exact OnTimerLoop_inv (fun c => c.newGain) (fun _ _ _ => rfl) fne _ _ _ _
    · exact OnTimerLoop_inv (fun c => c.newGain) (fun _ _ _ => rfl) fne _ _ _ _
  refine ⟨hlog, idsFrom_pairwise _ _, dirtyIds_mem c, hold, hnew, ?_, ?_, ?_, ?_, ?_⟩
  · intro hrefl j hj1 hj2
    rw [hnew, hold]
    by_cases hf : fne (c.newGain j) (c.oldGain j) = true
    · rw [if_pos ⟨⟨hj1, hj2⟩, hf⟩]; exact hrefl _
    · rw [if_neg (fun h => hf h.2)]; simpa using hf
  · intro heq j hj1 hj2
    rw [hnew, hold]
    by_cases hf : fne (c.newGain j) (c.oldGain j) = true
    · rw [if_pos ⟨⟨hj1, hj2⟩, hf⟩]
    · rw [if_neg (fun h => hf h.2)]
      exact (heq _ _ (by simpa using hf)).symm
  · intro j hj
    rw [hold, if_neg (fun h => hj h.1)]
  · intro hs
    rw [OnTimerRemoteChanGain_eq, if_pos (hflag.mpr hs)]
    exact ⟨StartDelayTimer_min K _, StartDelayTimer_max K _, StartDelayTimer_active K _⟩
  · intro hs
    have hnf : ¬ (OnTimerLoop fne (c.maxGainId - c.minGainId).toNat c.minGainId (c, false)).2
        = true := fun h => hflag.mp h hs
    rw [OnTimerRemoteChanGain_eq, if_neg hnf]
    exact ⟨OnTimerLoop_inv (fun c => c.minGainId) (fun _ _ _ => rfl) fne _ _ _ _,
      OnTimerLoop_inv (fun c => c.maxGainId) (fun _ _ _ => rfl) fne _ _ _ _,
      OnTimerLoop_inv (fun c => c.TimerGain) (fun _ _ _ => rfl) fne _ _ _ _⟩

theorem SetRemoteChanGain_armed_timer (K : Consts) (c : CClient F) (iId : Int) (g : F)
    (b : Bool) (h : c.TimerGain.bActive = true) :
    (SetRemoteChanGain K c iId g b).TimerGain = c.TimerGain := by
  unfold SetRemoteChanGain
  cases b <;> simp only [h, if_true, Bool.false_eq_true, if_false] <;>
    (split <;> split <;> rfl)

theorem SetRemoteChanGain_fMuteOutStreamGain (K : Consts) (c : CClient F) (iId : Int) (g : F)
    (b : Bool) :
    (SetRemoteChanGain K c iId g b).fMuteOutStreamGain
      = if b = true then g else c.fMuteOutStreamGain := by
  have hS : ∀ c : CClient F, (StartDelayTimer K c).fMuteOutStreamGain = c.fMuteOutStreamGain := by
    intro c
    unfold StartDelayTimer
    dsimp only
    split <;> rfl
  unfold SetRemoteChanGain
  cases b
  · simp only [Bool.false_eq_true, if_false]
    split
    · split <;> split <;> rfl
    · rw [hS]
  · simp only [if_true]
    split
    · split <;> split <;> rfl
    · rw [hS]

/-- C18: while the timer is armed, `SetRemoteChanGain ( iId, g, b )` sends
nothing, leaves `oldGain`, the pending gains of the other channels and the
timer as they are, sets `newGain[iId] = g`, and widens the range to
`min (minGainId, iId)` and `max (maxGainId, iId + 1)`, so that afterwards
`minGainId <= iId < maxGainId`. -/
theorem SetRemoteChanGain_while_armed (K : Consts) (c : CClient F) (iId : Int) (g : F)
    (b : Bool) (h : c.TimerGain.bActive = true) :
    (SetRemoteChanGain K c iId g b).log = c.log
      ∧ (SetRemoteChanGain K c iId g b).oldGain = c.oldGain
      ∧ (∀ j, j ≠ iId → (SetRemoteChanGain K c iId g b).newGain j = c.newGain j)
      ∧ (SetRemoteChanGain K c iId g b).TimerGain = c.TimerGain
      ∧ (SetRemoteChanGain K c iId g b).TimerGain.bActive = true
      ∧ (SetRemoteChanGain K c iId g b).newGain iId = g
      ∧ (SetRemoteChanGain K c iId g b).minGainId = min c.minGainId iId
      ∧ (SetRemoteChanGain K c iId g b).maxGainId = max c.maxGainId (iId + 1)
      ∧ (SetRemoteChanGain K c iId g b).minGainId ≤ iId
      ∧ iId < (SetRemoteChanGain K c iId g b).maxGainId := by
  obtain ⟨e1, e2, e3, e4, e5, e6⟩ := SetRemoteChanGain_armed K c iId g b h
  have hmin : (SetRemoteChanGain K c iId g b).minGainId = min c.minGainId iId := by
    rw [e2]; split <;> omega
  have hmax : (SetRemoteChanGain K c iId g b).maxGainId = max c.maxGainId (iId + 1) := by
    rw [e3]; split <;> omega
  refine ⟨e6, e4, ?_, SetRemoteChanGain_armed_timer K c iId g b h, e1, ?_, hmin, hmax, ?_, ?_⟩
  · intro j hj
    rw [e5, Function.update_noteq hj]
  · rw [e5, Function.update_same]
  · rw [hmin]; exact min_le_right _ _
  · rw [hmax]
    have := le_max_right c.maxGainId (iId + 1)
    omega

/-- Instance of `SetRemoteChanGain_while_armed`: a second call, for channel 5,
after a first call has armed the timer. -/
theorem SetRemoteChanGain_while_armed_witness :
    (SetRemoteChanGain stdConsts
      (SetRemoteChanGain stdConsts (exampleClient stdConsts (exampleSound 128) false) 3 0.5 false)
      5 0.25 false).minGainId = min stdConsts.MAX_NUM_CHANNELS 5 :=
  (SetRemoteChanGain_while_armed stdConsts
    (SetRemoteChanGain stdConsts (exampleClient stdConsts (exampleSound 128) false) 3 0.5 false)
    5 0.25 false (by decide)).2.2.2.2.2.2.1

/-- C19: while the timer is idle, `SetRemoteChanGain ( iId, g, b )` sends
exactly the message `(iId, g)`, sets `oldGain[iId] = newGain[iId] = g`, leaves
the entries of the other channels as they are and arms the timer; and whether
the timer is idle or armed, `fMuteOutStreamGain` becomes `g` when
`bIsMyOwnFader` is true and is unchanged otherwise. -/
theorem SetRemoteChanGain_while_idle (K : Consts) (c : CClient F) (iId : Int) (g : F)
    (b : Bool) :
    (c.TimerGain.bActive = false →
      (SetRemoteChanGain K c iId g b).log = c.log ++ [Call.ChannelSetRemoteChanGain iId g]
        ∧ gainsSent (SetRemoteChanGain K c iId g b).log = gainsSent c.log ++ [(iId, g)]
        ∧ (SetRemoteChanGain K c iId g b).oldGain iId = g
        ∧ (SetRemoteChanGain K c iId g b).newGain iId = g
        ∧ (∀ j, j ≠ iId → (SetRemoteChanGain K c iId g b).oldGain j = c.oldGain j
            ∧ (SetRemoteChanGain K c iId g b).newGain j = c.newGain j)
        ∧ (SetRemoteChanGain K c iId g b).TimerGain.bActive = true)
    ∧ (SetRemoteChanGain K c iId g b).fMuteOutStreamGain
        = (if b = true then g else c.fMuteOutStreamGain) := by
  refine ⟨?_, SetRemoteChanGain_fMuteOutStreamGain K c iId g b⟩
  intro h
  obtain ⟨a1, a2, a3, a4, a5, a6⟩ := SetRemoteChanGain_idle K c iId g b h
  refine ⟨a6, ?_, ?_, ?_, ?_, a1⟩
  · rw [a6, gainsSent_append]; rfl
  · rw [a4, Function.update_same]
  · rw [a5, Function.update_same]
  · intro j hj
    rw [a4, a5, Function.update_noteq hj, Function.update_noteq hj]
    exact ⟨rfl, rfl⟩

/-- Instance of `SetRemoteChanGain_while_idle`: the first call for channel 3. -/
theorem SetRemoteChanGain_while_idle_witness :
    gainsSent (SetRemoteChanGain stdConsts (exampleClient stdConsts (exampleSound 128) false)
      3 0.5 true).log = [(3, 0.5)] :=
  ((SetRemoteChanGain_while_idle stdConsts (exampleClient stdConsts (exampleSound 128) false)
    3 0.5 true).1 rfl).2.1

/-! ## The range of channel ids to check -/

theorem OnTimerRemoteChanGain_range (K : Consts) (fne : F → F → Bool) (c : CClient F) :
    ((OnTimerRemoteChanGain K fne c).minGainId = K.MAX_NUM_CHANNELS
        ∧ (OnTimerRemoteChanGain K fne c).maxGainId = 0)
      ∨ ((OnTimerRemoteChanGain K fne c).minGainId = c.minGainId
        ∧ (OnTimerRemoteChanGain K fne c).maxGainId = c.maxGainId) := by
  rw [OnTimerRemoteChanGain_eq]
  split
  · exact Or.inl ⟨StartDelayTimer_min K _, StartDelayTimer_max K _⟩
  · exact Or.inr ⟨OnTimerLoop_inv (fun c => c.minGainId) (fun _ _ _ => rfl) fne _ _ _ _,
      OnTimerLoop_inv (fun c => c.maxGainId) (fun _ _ _ => rfl) fne _ _ _ _⟩

theorem DirtyRangeInv_of_eq (K : Consts) (c c' : CClient F)
    (h1 : c'.minGainId = c.minGainId) (h2 : c'.maxGainId = c.maxGainId)
    (h : DirtyRangeInv K c) : DirtyRangeInv K c' := by
  unfold DirtyRangeInv at h ⊢
  rw [h1, h2]
  exact h

theorem applyGainOp_DirtyRangeInv (K : Consts) (fne : F → F → Bool) (c : CClient F)
    (op : GainOp F) (hop : op.idInRange K) (h : DirtyRangeInv K c) :
    DirtyRangeInv K (applyGainOp K fne c op) := by
  cases op with
  | SetRemoteChanGain iId g b =>
    obtain ⟨h0, h1⟩ : 0 ≤ iId ∧ iId < K.MAX_NUM_CHANNELS := hop
    show DirtyRangeInv K (SetRemoteChanGain K c iId g b)
    by_cases ha : c.TimerGain.bActive = true
    · obtain ⟨_, e2, e3, _⟩ := SetRemoteChanGain_armed K c iId g b ha
      unfold DirtyRangeInv at h ⊢
      rw [e2, e3]
      right
      rcases h with ⟨h2, h3⟩ | ⟨h2, h3, h4⟩
      · rw [h2, h3]
        rw [if_pos h1, if_pos (by omega)]
        omega
      · split <;> split <;> omega
    · obtain ⟨_, a2, a3, _⟩ := SetRemoteChanGain_idle K c iId g b (by simpa using ha)
      exact Or.inl ⟨a2, a3⟩
  | OnTimerRemoteChanGain =>
    show DirtyRangeInv K (OnTimerRemoteChanGain K fne c)
    rcases OnTimerRemoteChanGain_range K fne c with h1 | ⟨h1, h2⟩
    · exact Or.inl h1
    · exact DirtyRangeInv_of_eq K c _ h1 h2 h
  | TimerGainTimeout =>
    show DirtyRangeInv K (TimerGainTimeout K fne c)
    rcases OnTimerRemoteChanGain_range K fne
      { c with TimerGain := { c.TimerGain with bActive := false } } with h1 | ⟨h1, h2⟩
    · exact Or.inl h1
    · exact DirtyRangeInv_of_eq K c _ h1 h2 h
  | StartDelayTimer =>
    exact Or.inl ⟨StartDelayTimer_min K c, StartDelayTimer_max K c⟩

theorem runGainOps_DirtyRangeInv (K : Consts) (fne : F → F → Bool) (ops : List (GainOp F)) :
    ∀ c : CClient F, (∀ op ∈ ops, op.idInRange K) → DirtyRangeInv K c →
      DirtyRangeInv K (runGainOps K fne c ops) := by
  induction ops with
  | nil => intro c _ h; exact h
  | cons op ops ih =>
    intro c hops h
    exact ih _ (fun o ho => hops o (List.mem_cons_of_mem _ ho))
      (applyGainOp_DirtyRangeInv K fne c op (hops op (List.mem_cons_self _ _)) h)

/-- C11 (as stated, refuted): after one call of `SetRemoteChanGain` for channel
3 with the timer idle, `minGainId` is `MAX_NUM_CHANNELS = 150` and `maxGainId`
is 0, so `minGainId <= maxGainId` does not hold, and the reset value of the
range is not `minGainId == maxGainId == MAX_NUM_CHANNELS`. -/
theorem DirtyRange_counterexample :
    (SetRemoteChanGain stdConsts (exampleClient stdConsts (exampleSound 128) false)
        3 0.5 false).minGainId = stdConsts.MAX_NUM_CHANNELS
      ∧ (SetRemoteChanGain stdConsts (exampleClient stdConsts (exampleSound 128) false)
        3 0.5 false).maxGainId = 0
      ∧ ¬ ((SetRemoteChanGain stdConsts (exampleClient stdConsts (exampleSound 128) false)
          3 0.5 false).minGainId
        ≤ (SetRemoteChanGain stdConsts (exampleClient stdConsts (exampleSound 128) false)
          3 0.5 false).maxGainId) := by
  decide

/-- C11 (amended): starting from a state whose range is the reset value or a
non-empty interval of valid ids, in every state reached through
`SetRemoteChanGain` (ids in `[0, MAX_NUM_CHANNELS)`), `OnTimerRemoteChanGain`,
the timer expiry and `StartDelayTimer`, the range is either the reset value
`minGainId == MAX_NUM_CHANNELS`, `maxGainId == 0`, or satisfies
`0 <= minGainId < maxGainId <= MAX_NUM_CHANNELS`; and whenever the range is
reset, by `StartDelayTimer`, it is set to that reset value, for which the loop
`minGainId <= id < maxGainId` is empty when `MAX_NUM_CHANNELS` is not
negative. -/
theorem DirtyRange_invariant (K : Consts) (fne : F → F → Bool) (c0 : CClient F)
    (ops : List (GainOp F)) (hops : ∀ op ∈ ops, op.idInRange K) (h0 : DirtyRangeInv K c0) :
    DirtyRangeInv K (runGainOps K fne c0 ops)
      ∧ (∀ c : CClient F, (StartDelayTimer K c).minGainId = K.MAX_NUM_CHANNELS
          ∧ (StartDelayTimer K c).maxGainId = 0
          ∧ (0 ≤ K.MAX_NUM_CHANNELS → dirtyIds (StartDelayTimer K c) = [])) := by
  refine ⟨runGainOps_DirtyRangeInv K fne ops c0 hops h0, fun c => ⟨StartDelayTimer_min K c,
    StartDelayTimer_max K c, ?_⟩⟩
  intro hK
  unfold dirtyIds
  rw [StartDelayTimer_min, StartDelayTimer_max]
  have : ((0 : Int) - K.MAX_NUM_CHANNELS).toNat = 0 := by omega
  rw [this]
  rfl

/-- Instance of `DirtyRange_invariant`: two calls for the channels 3 and 5 and
a timer expiry, from the example state. -/
theorem DirtyRange_invariant_witness :
    DirtyRangeInv stdConsts (runGainOps stdConsts (fun a b => decide (a ≠ b))
      (exampleClient stdConsts (exampleSound 128) false)
      [GainOp.SetRemoteChanGain 3 0.5 false, GainOp.SetRemoteChanGain 5 0.25 false,
        GainOp.TimerGainTimeout]) :=
  (DirtyRange_invariant stdConsts (fun a b => decide (a ≠ b))
    (exampleClient stdConsts (exampleSound 128) false)
    [GainOp.SetRemoteChanGain 3 0.5 false, GainOp.SetRemoteChanGain 5 0.25 false,
      GainOp.TimerGainTimeout]
    (by
      intro op hop
      simp only [List.mem_cons, List.mem_singleton, List.not_mem_nil, or_false] at hop
      rcases hop with h | h | h <;> subst h
      · exact ⟨by decide, by decide⟩
      · exact ⟨by decide, by decide⟩
      · trivial)
    (Or.inl ⟨rfl, rfl⟩)).1

/-! ## The codec mode set up by Init -/

/-- The third part of `Init` selects the codec instance and the number of coded
bytes of the codec mode table, for the compression type chosen before. -/
theorem InitAudioCoding_spec (K : Consts) (d : CClient F) :
    (InitAudioCoding K d).eAudioCompressionType = d.eAudioCompressionType
      ∧ (InitAudioCoding K d).eAudioChannelConf = d.eAudioChannelConf
      ∧ (InitAudioCoding K d).eAudioQuality = d.eAudioQuality
      ∧ (InitAudioCoding K d).CurOpusEncoder = some (codecInstFor d.eAudioCompressionType
          (decide (d.eAudioChannelConf = EAudChanConf.CC_MONO)))
      ∧ (InitAudioCoding K d).CurOpusDecoder = some (codecInstFor d.eAudioCompressionType
          (decide (d.eAudioChannelConf = EAudChanConf.CC_MONO)))
      ∧ (InitAudioCoding K d).iCeltNumCodedBytes = codedBytesFor K d.eAudioCompressionType
          (decide (d.eAudioChannelConf = EAudChanConf.CC_MONO)) d.eAudioQuality
      ∧ (InitAudioCoding K d).iNumAudioChannels
          = (if d.eAudioChannelConf = EAudChanConf.CC_MONO then 1 else 2)
      ∧ (InitAudioCoding K d).iOPUSFrameSizeSamples
          = (if d.eAudioCompressionType = EAudComprType.CT_OPUS then
              K.DOUBLE_SYSTEM_FRAME_SIZE_SAMPLES
            else K.SYSTEM_FRAME_SIZE_SAMPLES) := by
  cases ht : d.eAudioCompressionType <;> cases hc : d.eAudioChannelConf <;>
    cases hq : d.eAudioQuality <;>
    simp [InitAudioCoding, ht, hc, hq, codecInstFor, codedBytesFor]

theorem InitCompressionType_type (K : Consts) (c : CClient F) :
    (InitCompressionType K c).eAudioCompressionType = EAudComprType.CT_OPUS
      ∨ (InitCompressionType K c).eAudioCompressionType = EAudComprType.CT_OPUS64 := by
  unfold InitCompressionType
  split <;> split <;> simp

/-- The first two parts of `Init` leave the channel configuration and the
quality as they are. -/
theorem InitCompressionType_InitBufferSize_conf (K : Consts) (c : CClient F) :
    (InitCompressionType K (InitBufferSize K c)).eAudioChannelConf = c.eAudioChannelConf
      ∧ (InitCompressionType K (InitBufferSize K c)).eAudioQuality = c.eAudioQuality := by
  have h1 : ∀ d : CClient F, (InitCompressionType K d).eAudioChannelConf = d.eAudioChannelConf
      ∧ (InitCompressionType K d).eAudioQuality = d.eAudioQuality := by
    intro d
    unfold InitCompressionType
    split <;> split <;> exact ⟨rfl, rfl⟩
  have h2 : (InitBufferSize K c).eAudioChannelConf = c.eAudioChannelConf
      ∧ (InitBufferSize K c).eAudioQuality = c.eAudioQuality := by
    unfold InitBufferSize
    dsimp only
    split <;> exact ⟨rfl, rfl⟩
  exact ⟨(h1 _).1.trans h2.1, (h1 _).2.trans h2.2⟩

/-- The last part of `Init` changes the conversion buffers, their work vector
and the initialization phase flag only. -/
theorem InitConversionBuffers_inv {α : Type} (f : CClient F → α)
    (h1 : ∀ (c : CClient F) a b v,
      f { c with SndCrdConversionBufferIn := a, SndCrdConversionBufferOut := b,
                 vecDataConvBuf := v } = f c)
    (h2 : ∀ (c : CClient F) b, f { c with bIsInitializationPhase := b } = f c)
    (c : CClient F) : f (InitConversionBuffers c) = f c := by
  unfold InitConversionBuffers
  dsimp only
  rw [h2]
  split
  · rw [h1]
  · rfl

/-- What `Init` leaves of the codec selection of its third part. -/
theorem Init_eq_InitAudioCoding {α : Type} (f : CClient F → α)
    (h1 : ∀ (c : CClient F) a b v,
      f { c with SndCrdConversionBufferIn := a, SndCrdConversionBufferOut := b,
                 vecDataConvBuf := v } = f c)
    (h2 : ∀ (c : CClient F) b, f { c with bIsInitializationPhase := b } = f c)
    (h3 : ∀ (K : Consts) (c : CClient F), f (InitVectors K c) = f c)
    (K : Consts) (c : CClient F) :
    f (Init K c) = f (InitAudioCoding K (InitCompressionType K (InitBufferSize K c))) := by
  unfold Init
  rw [InitConversionBuffers_inv f h1 h2, h3]

/-- C12: after every `Init` the compression type is `CT_OPUS` or `CT_OPUS64`;
the active encoder and the active decoder are both the codec instance of that
compression type (frame size class) and of the channel count, mono exactly for
`CC_MONO`; the number of coded bytes is the entry of the codec mode table for
that compression type, mono or stereo, and the quality; the number of channels
is 1 for `CC_MONO` and 2 otherwise; and these values, with the frame-size
factor, are the ones handed to `Channel.SetAudioStreamProperties`, the bit
rate being set on the active encoder for the number of coded bytes and the
frame size of the compression type. -/
theorem Init_stream_properties_match (K : Consts) (c : CClient F) :
    ((Init K c).eAudioCompressionType = EAudComprType.CT_OPUS
        ∨ (Init K c).eAudioCompressionType = EAudComprType.CT_OPUS64)
      ∧ (Init K c).eAudioChannelConf = c.eAudioChannelConf
      ∧ (Init K c).eAudioQuality = c.eAudioQuality
      ∧ (Init K c).CurOpusEncoder = some (codecInstFor (Init K c).eAudioCompressionType
          (decide (c.eAudioChannelConf = EAudChanConf.CC_MONO)))
      ∧ (Init K c).CurOpusDecoder = (Init K c).CurOpusEncoder
      ∧ (Init K c).iCeltNumCodedBytes = codedBytesFor K (Init K c).eAudioCompressionType
          (decide (c.eAudioChannelConf = EAudChanConf.CC_MONO)) c.eAudioQuality
      ∧ (Init K c).iNumAudioChannels
          = (if c.eAudioChannelConf = EAudChanConf.CC_MONO then 1 else 2)
      ∧ (Init K c).iOPUSFrameSizeSamples
          = (if (Init K c).eAudioCompressionType = EAudComprType.CT_OPUS then
              K.DOUBLE_SYSTEM_FRAME_SIZE_SAMPLES
            else K.SYSTEM_FRAME_SIZE_SAMPLES)
      ∧ streamPropsCalls (Init K c).log = streamPropsCalls c.log ++
          [((Init K c).eAudioCompressionType,
            codedBytesFor K (Init K c).eAudioCompressionType
              (decide (c.eAudioChannelConf = EAudChanConf.CC_MONO)) c.eAudioQuality,
            (Init K c).iSndCrdFrameSizeFactor,
            (if c.eAudioChannelConf = EAudChanConf.CC_MONO then 1 else 2))]
      ∧ bitrateCalls (Init K c).log = bitrateCalls c.log ++
          [((Init K c).CurOpusEncoder, (Init K c).iCeltNumCodedBytes,
            (Init K c).iOPUSFrameSizeSamples)] := by
  obtain ⟨a1, a2, a3, a4, a5, a6, a7, a8⟩ :=
    InitAudioCoding_spec K (InitCompressionType K (InitBufferSize K c))
  obtain ⟨b1, b2⟩ := InitCompressionType_InitBufferSize_conf K c
  rw [b1] at a4 a5 a6 a7
  rw [b2] at a6
  have ht : (Init K c).eAudioCompressionType
      = (InitCompressionType K (InitBufferSize K c)).eAudioCompressionType :=
    (Init_eq_InitAudioCoding (fun c => c.eAudioCompressionType) (fun _ _ _ _ => rfl)
      (fun _ _ => rfl) (fun _ _ => rfl) K c).trans a1
  have hconf : (Init K c).eAudioChannelConf = c.eAudioChannelConf :=
    (Init_eq_InitAudioCoding (fun c => c.eAudioChannelConf) (fun _ _ _ _ => rfl)
      (fun _ _ => rfl) (fun _ _ => rfl) K c).trans (a2.trans b1)
  have hq : (Init K c).eAudioQuality = c.eAudioQuality :=
    (Init_eq_InitAudioCoding (fun c => c.eAudioQuality) (fun _ _ _ _ => rfl)
      (fun _ _ => rfl) (fun _ _ => rfl) K c).trans (a3.trans b2)
  have henc := (Init_eq_InitAudioCoding (fun c => c.CurOpusEncoder) (fun _ _ _ _ => rfl)
      (fun _ _ => rfl) (fun _ _ => rfl) K c).trans a4
  have hdec := (Init_eq_InitAudioCoding (fun c => c.CurOpusDecoder) (fun _ _ _ _ => rfl)
      (fun _ _ => rfl) (fun _ _ => rfl) K c).trans a5
  have hbytes := (Init_eq_InitAudioCoding (fun c => c.iCeltNumCodedBytes) (fun _ _ _ _ => rfl)
      (fun _ _ => rfl) (fun _ _ => rfl) K c).trans a6
  have hch := (Init_eq_InitAudioCoding (fun c => c.iNumAudioChannels) (fun _ _ _ _ => rfl)
      (fun _ _ => rfl) (fun _ _ => rfl) K c).trans a7
  have hfs := (Init_eq_InitAudioCoding (fun c => c.iOPUSFrameSizeSamples) (fun _ _ _ _ => rfl)
      (fun _ _ => rfl) (fun _ _ => rfl) K c).trans a8
  rw [← ht] at henc hdec hbytes hfs
  refine ⟨?_, hconf, hq, henc, hdec.trans henc.symm, hbytes, hch, hfs, ?_, ?_⟩
  · rw [ht]; exact InitCompressionType_type K _
  · rw [Init_streamPropsCalls, hbytes, hch]
  · have hlog : (Init K c).log = (InitVectors K (InitAudioCoding K (InitCompressionType K
        (InitBufferSize K c)))).log := by
      simp [Init]
    have hb : ∀ l₁ l₂ : List (Call F), bitrateCalls (l₁ ++ l₂)
        = bitrateCalls l₁ ++ bitrateCalls l₂ := by
      intro l₁ l₂
      induction l₁ with
      | nil => rfl
      | cons a l ih => cases a <;> simp [bitrateCalls, ih]
    have hpre : bitrateCalls (InitCompressionType K (InitBufferSize K c)).log
        = bitrateCalls c.log := by
      rw [InitCompressionType_log]
      unfold InitBufferSize
      dsimp only
      split <;> simp [hb, bitrateCalls]
    rw [hlog]
    simp only [InitVectors, hb, bitrateCalls, InitAudioCoding_log, hpre, List.append_nil]
    rw [henc, hbytes, hfs, a4, a6, a8, ht]

/-! ## Init when conversion is required -/

theorem InitCompressionType_mode_of_conv (K : Consts) (c : CClient F)
    (h : c.bSndCrdConversionBufferRequired = true) :
    (c.iSndCardMonoBlockSizeSamConvBuff < K.DOUBLE_SYSTEM_FRAME_SIZE_SAMPLES
        ∧ c.bEnableOPUS64 = true →
      (InitCompressionType K c).eAudioCompressionType = EAudComprType.CT_OPUS64
        ∧ (InitCompressionType K c).iMonoBlockSizeSam = K.SYSTEM_FRAME_SIZE_SAMPLES)
    ∧ (¬ (c.iSndCardMonoBlockSizeSamConvBuff < K.DOUBLE_SYSTEM_FRAME_SIZE_SAMPLES
        ∧ c.bEnableOPUS64 = true) →
      (InitCompressionType K c).eAudioCompressionType = EAudComprType.CT_OPUS
        ∧ (InitCompressionType K c).iMonoBlockSizeSam = K.DOUBLE_SYSTEM_FRAME_SIZE_SAMPLES) := by
  unfold InitCompressionType
  simp only [h, if_true]
  constructor
  · intro hc
    rw [if_pos hc]
    exact ⟨rfl, rfl⟩
  · intro hc
    rw [if_neg hc]
    exact ⟨rfl, rfl⟩

/-- The values that `Init` takes over from its first two parts. -/
theorem Init_eq_InitCompressionType (K : Consts) (c : CClient F) :
    (Init K c).iSndCrdFrameSizeFactor
        = (InitCompressionType K (InitBufferSize K c)).iSndCrdFrameSizeFactor
      ∧ (Init K c).iSndCardMonoBlockSizeSamConvBuff
        = (InitBufferSize K c).iSndCardMonoBlockSizeSamConvBuff
      ∧ (Init K c).eAudioCompressionType
        = (InitCompressionType K (InitBufferSize K c)).eAudioCompressionType
      ∧ (Init K c).iMonoBlockSizeSam
        = (InitCompressionType K (InitBufferSize K c)).iMonoBlockSizeSam := by
  refine ⟨?_, ?_, ?_, ?_⟩
  · simp [Init]
  · exact (Init_eq_InitAudioCoding (fun c => c.iSndCardMonoBlockSizeSamConvBuff)
      (fun _ _ _ _ => rfl) (fun _ _ => rfl) (fun _ _ => rfl) K c).trans (by simp)
  · exact (Init_eq_InitAudioCoding (fun c => c.eAudioCompressionType)
      (fun _ _ _ _ => rfl) (fun _ _ => rfl) (fun _ _ => rfl) K c).trans
        (InitAudioCoding_spec K _).1
  · exact (Init_eq_InitAudioCoding (fun c => c.iMonoBlockSizeSam)
      (fun _ _ _ _ => rfl) (fun _ _ => rfl) (fun _ _ => rfl) K c).trans (by simp)

/-- C16: when `Init` requires conversion, the frame-size factor is one, in
`iSndCrdFrameSizeFactor` and in the value handed to the channel, and
`iSndCardMonoBlockSizeSamConvBuff` is the size returned by
`Sound.SetBufferSize`. -/
theorem Init_conversion_factor (K : Consts) (c : CClient F)
    (h : (Init K c).bSndCrdConversionBufferRequired = true) :
    (Init K c).iSndCrdFrameSizeFactor = 1
      ∧ streamPropsCalls (Init K c).log = streamPropsCalls c.log ++
          [((Init K c).eAudioCompressionType, (Init K c).iCeltNumCodedBytes, 1,
            (Init K c).iNumAudioChannels)]
      ∧ (Init K c).iSndCardMonoBlockSizeSamConvBuff = grantedSize K c := by
  have h' : (InitBufferSize K c).bSndCrdConversionBufferRequired = true := by
    rw [← Init_conv]; exact h
  obtain ⟨e1, e2, _, _⟩ := Init_eq_InitCompressionType K c
  have hf : (Init K c).iSndCrdFrameSizeFactor = 1 := by
    rw [e1, (InitCompressionType_of_conv K _ h').1, (InitBufferSize_of_conv K c h').1]
  refine ⟨hf, ?_, ?_⟩
  · rw [Init_streamPropsCalls, hf]
  · rw [e2, (InitBufferSize_of_conv K c h').2]

/-- Instance of `Init_conversion_factor`: 96 samples are granted. -/
theorem Init_conversion_factor_witness :
    (Init stdConsts (exampleClient stdConsts (exampleSound 96) false)).iSndCrdFrameSizeFactor = 1
      ∧ (Init stdConsts (exampleClient stdConsts (exampleSound 96)
          false)).iSndCardMonoBlockSizeSamConvBuff = 96 :=
  ⟨(Init_conversion_factor stdConsts (exampleClient stdConsts (exampleSound 96) false)
      (by decide)).1,
    (Init_conversion_factor stdConsts (exampleClient stdConsts (exampleSound 96) false)
      (by decide)).2.2⟩

/-- C17: when `Init` requires conversion, a granted size below the double frame
size with short-frame mode enabled gives compression type `CT_OPUS64` and the
internal mono block size `SYSTEM_FRAME_SIZE_SAMPLES`; in every other case
(granted size not below the double frame size, or short-frame mode disabled)
it gives `CT_OPUS` and `DOUBLE_SYSTEM_FRAME_SIZE_SAMPLES`; and the frame-size
factor is one, so not below 1. -/
theorem Init_conversion_codec_mode (K : Consts) (c : CClient F)
    (h : (Init K c).bSndCrdConversionBufferRequired = true) :
    (grantedSize K c < K.DOUBLE_SYSTEM_FRAME_SIZE_SAMPLES ∧ c.bEnableOPUS64 = true →
      (Init K c).eAudioCompressionType = EAudComprType.CT_OPUS64
        ∧ (Init K c).iMonoBlockSizeSam = K.SYSTEM_FRAME_SIZE_SAMPLES)
    ∧ (K.DOUBLE_SYSTEM_FRAME_SIZE_SAMPLES ≤ grantedSize K c ∨ c.bEnableOPUS64 = false →
      (Init K c).eAudioCompressionType = EAudComprType.CT_OPUS
        ∧ (Init K c).iMonoBlockSizeSam = K.DOUBLE_SYSTEM_FRAME_SIZE_SAMPLES)
    ∧ (Init K c).iSndCrdFrameSizeFactor = 1
    ∧ 1 ≤ (Init K c).iSndCrdFrameSizeFactor := by
  have h' : (InitBufferSize K c).bSndCrdConversionBufferRequired = true := by
    rw [← Init_conv]; exact h
  obtain ⟨e1, _, e3, e4⟩ := Init_eq_InitCompressionType K c
  obtain ⟨m1, m2⟩ := InitCompressionType_mode_of_conv K (InitBufferSize K c) h'
  rw [(InitBufferSize_of_conv K c h').2, InitBufferSize_bEnableOPUS64] at m1 m2
  have hf : (Init K c).iSndCrdFrameSizeFactor = 1 := by
    rw [e1, (InitCompressionType_of_conv K _ h').1, (InitBufferSize_of_conv K c h').1]
  refine ⟨?_, ?_, hf, by rw [hf]⟩
  · intro hc
    rw [e3, e4]
    exact m1 hc
  · intro hc
    rw [e3, e4]
    refine m2 ?_
    rintro ⟨h1, h2⟩
    rcases hc with hc | hc
    · omega
    · rw [h2] at hc; exact Bool.noConfusion hc

/-- Instance of `Init_conversion_codec_mode`: 96 samples are granted and
short-frame mode is enabled. -/
theorem Init_conversion_codec_mode_witness :
    (Init stdConsts (exampleClient stdConsts (exampleSound 96) true)).eAudioCompressionType
        = EAudComprType.CT_OPUS64
      ∧ (Init stdConsts (exampleClient stdConsts (exampleSound 96) true)).iMonoBlockSizeSam
        = stdConsts.SYSTEM_FRAME_SIZE_SAMPLES :=
  (Init_conversion_codec_mode stdConsts (exampleClient stdConsts (exampleSound 96) true)
    (by decide)).1 ⟨by decide, rfl⟩

/-! ## Ping handling -/

/-- C13: `OnCLPingReceived` stores the round-trip value `EvaluatePingMessage
( iMs )` in `iCurPingTime` and emits `PingTimeReceived` with it when the
sound device is started, the sender is the channel address and that value is
not negative; in every other case it changes nothing. So a ping time that is
not negative stays so, and every round-trip value emitted by
`OnCLPingReceived` or `OnCLPingWithNumClientsReceived` is not negative; the
latter leaves `iCurPingTime` as it is. -/
theorem Ping_wraparound_discarded (iElapsed : Int) (c : CClient F) (InetAddr : CHostAddress)
    (iMs iNumClients : Int) :
    (c.Sound.bStarted = true ∧ InetAddr = c.Channel.Address
        ∧ 0 ≤ EvaluatePingMessage iElapsed iMs →
      (OnCLPingReceived iElapsed c InetAddr iMs).iCurPingTime = EvaluatePingMessage iElapsed iMs
        ∧ (OnCLPingReceived iElapsed c InetAddr iMs).log
          = c.log ++ [Call.EmitPingTimeReceived (EvaluatePingMessage iElapsed iMs)])
    ∧ (¬ (c.Sound.bStarted = true ∧ InetAddr = c.Channel.Address
        ∧ 0 ≤ EvaluatePingMessage iElapsed iMs) →
      OnCLPingReceived iElapsed c InetAddr iMs = c)
    ∧ (0 ≤ c.iCurPingTime → 0 ≤ (OnCLPingReceived iElapsed c InetAddr iMs).iCurPingTime)
    ∧ (∃ l, pingTimesEmitted (OnCLPingReceived iElapsed c InetAddr iMs).log
          = pingTimesEmitted c.log ++ l ∧ ∀ x ∈ l, 0 ≤ x)
    ∧ (OnCLPingWithNumClientsReceived iElapsed c InetAddr iMs iNumClients).iCurPingTime
        = c.iCurPingTime
    ∧ (∃ l, pingTimesEmitted (OnCLPingWithNumClientsReceived iElapsed c InetAddr iMs
            iNumClients).log
          = pingTimesEmitted c.log ++ l ∧ ∀ x ∈ l, 0 ≤ x) := by
  have hp : ∀ l₁ l₂ : List (Call F), pingTimesEmitted (l₁ ++ l₂)
      = pingTimesEmitted l₁ ++ pingTimesEmitted l₂ := by
    intro l₁ l₂
    induction l₁ with
    | nil => rfl
    | cons a l ih => cases a <;> simp [pingTimesEmitted, ih]
  have hyes : c.Sound.bStarted = true ∧ InetAddr = c.Channel.Address
      ∧ 0 ≤ EvaluatePingMessage iElapsed iMs →
      OnCLPingReceived iElapsed c InetAddr iMs =
        { c with
          iCurPingTime := EvaluatePingMessage iElapsed iMs
          log := c.log ++ [Call.EmitPingTimeReceived (EvaluatePingMessage iElapsed iMs)] } := by
    rintro ⟨h1, h2, h3⟩
    unfold OnCLPingReceived
    rw [if_pos ⟨h1, h2⟩]
    dsimp only
    rw [if_pos h3]
  have hno : ¬ (c.Sound.bStarted = true ∧ InetAddr = c.Channel.Address
      ∧ 0 ≤ EvaluatePingMessage iElapsed iMs) →
      OnCLPingReceived iElapsed c InetAddr iMs = c := by
    intro hc
    unfold OnCLPingReceived
    by_cases h12 : c.Sound.bStarted = true ∧ InetAddr = c.Channel.Address
    · rw [if_pos h12]
      dsimp only
      rw [if_neg (fun h3 => hc ⟨h12.1, h12.2, h3⟩)]
    · rw [if_neg h12]
  refine ⟨?_, hno, ?_, ?_, ?_, ?_⟩
  · intro hc
    rw [hyes hc]
    exact ⟨rfl, rfl⟩
  · intro h0
    by_cases hc : c.Sound.bStarted = true ∧ InetAddr = c.Channel.Address
        ∧ 0 ≤ EvaluatePingMessage iElapsed iMs
    · rw [hyes hc]; exact hc.2.2
    · rw [hno hc]; exact h0
  · by_cases hc : c.Sound.bStarted = true ∧ InetAddr = c.Channel.Address
        ∧ 0 ≤ EvaluatePingMessage iElapsed iMs
    · refine ⟨[EvaluatePingMessage iElapsed iMs], ?_, ?_⟩
      · rw [hyes hc]
        show pingTimesEmitted (c.log ++ _) = _
        rw [hp]; rfl
      · intro x hx
        rw [List.mem_singleton.mp hx]; exact hc.2.2
    · exact ⟨[], by rw [hno hc, List.append_nil], by simp⟩
  · unfold OnCLPingWithNumClientsReceived
    dsimp only
    split <;> rfl
  · unfold OnCLPingWithNumClientsReceived
    dsimp only
    by_cases h3 : EvaluatePingMessage iElapsed iMs ≥ 0
    · rw [if_pos h3]
      refine ⟨[EvaluatePingMessage iElapsed iMs], ?_, ?_⟩
      · show pingTimesEmitted (c.log ++ _) = _
        rw [hp]; rfl
      · intro x hx
        rw [List.mem_singleton.mp hx]; exact h3
    · rw [if_neg h3]
      exact ⟨[], by rw [List.append_nil], by simp⟩

/-- Instance of `Ping_wraparound_discarded`: a ping stamp from the future
(elapsed 100 ms, stamp 250 ms) is discarded. -/
theorem Ping_wraparound_discarded_witness :
    OnCLPingReceived 100
      { exampleClient stdConsts { exampleSound 128 with bStarted := true } false with
        iCurPingTime := 7 } "" 250
    = { exampleClient stdConsts { exampleSound 128 with bStarted := true } false with
        iCurPingTime := 7 } :=
  (Ping_wraparound_discarded 100
    { exampleClient stdConsts { exampleSound 128 with bStarted := true } false with
      iCurPingTime := 7 } "" 250 0).2.1 (by decide)

/-! ## Channel calls of the frame pipeline -/

theorem sendPacketCalls_append (l₁ l₂ : List (Call F)) :
    sendPacketCalls (l₁ ++ l₂) = sendPacketCalls l₁ ++ sendPacketCalls l₂ := by
  induction l₁ with
  | nil => rfl
  | cons a l ih => cases a <;> simp [sendPacketCalls, ih]

theorem getDataCalls_append (l₁ l₂ : List (Call F)) :
    getDataCalls (l₁ ++ l₂) = getDataCalls l₁ ++ getDataCalls l₂ := by
  induction l₁ with
  | nil => rfl
  | cons a l ih => cases a <;> simp [getDataCalls, ih]

/-- The encode loop hands one packet per iteration to the channel. -/
theorem EncodeLoop_sendPacketCalls (env : CFrameEnv F) (vec : List Int) (n : Nat) :
    ∀ (i : Nat) (c : CClient F),
      sendPacketCalls (EncodeLoop env vec n i c).log
        = sendPacketCalls c.log ++ List.replicate n c.iCeltNumCodedBytes := by
  induction n with
  | zero => intro i c; simp [EncodeLoop]
  | succ n ih =>
    intro i c
    simp only [EncodeLoop]
    rw [ih]
    split <;> simp [sendPacketCalls_append, sendPacketCalls, List.replicate_succ]

/-- The encode loop makes no `GetData` request. -/
theorem EncodeLoop_getDataCalls (env : CFrameEnv F) (vec : List Int) (n : Nat) :
    ∀ (i : Nat) (c : CClient F),
      getDataCalls (EncodeLoop env vec n i c).log = getDataCalls c.log := by
  induction n with
  | zero => intro i c; simp [EncodeLoop]
  | succ n ih =>
    intro i c
    simp only [EncodeLoop]
    rw [ih]
    split <;> simp [getDataCalls_append, getDataCalls]

/-- The decode loop makes one `GetData` request per iteration. -/
theorem DecodeLoop_getDataCalls (env : CFrameEnv F) (n : Nat) :
    ∀ (i : Nat) (c : CClient F) (v : List Int),
      getDataCalls (DecodeLoop env n i (c, v)).1.log
        = getDataCalls c.log ++ List.replicate n c.iCeltNumCodedBytes := by
  induction n with
  | zero => intro i c v; simp [DecodeLoop]
  | succ n ih =>
    intro i c v
    simp only [DecodeLoop]
    rw [ih]
    split <;> simp [getDataCalls_append, getDataCalls, List.replicate_succ]

/-- The decode loop sends no packet. -/
theorem DecodeLoop_sendPacketCalls (env : CFrameEnv F) (n : Nat) :
    ∀ (i : Nat) (c : CClient F) (v : List Int),
      sendPacketCalls (DecodeLoop env n i (c, v)).1.log = sendPacketCalls c.log := by
  induction n with
  | zero => intro i c v; simp [DecodeLoop]
  | succ n ih =>
    intro i c v
    simp only [DecodeLoop]
    rw [ih]
    split <;> simp [sendPacketCalls_append, sendPacketCalls]

/-- C14. Every run of `ProcessAudioDataIntern` hands exactly
`iSndCrdFrameSizeFactor` packets of `iCeltNumCodedBytes` bytes to
`Channel.PrepAndSendPacket` and makes exactly `iSndCrdFrameSizeFactor` requests
`Channel.GetData` for `iCeltNumCodedBytes` bytes, whatever the mute state, the
connection state, the initialization phase flag and the answers of `GetData`
are. -/
theorem ProcessAudioDataIntern_packet_count (env : CFrameEnv F) (c : CClient F)
    (vec : List Int) :
    sendPacketCalls (ProcessAudioDataIntern env c vec).1.log
        = sendPacketCalls c.log
          ++ List.replicate c.iSndCrdFrameSizeFactor.toNat c.iCeltNumCodedBytes
      ∧ getDataCalls (ProcessAudioDataIntern env c vec).1.log
        = getDataCalls c.log
          ++ List.replicate c.iSndCrdFrameSizeFactor.toNat c.iCeltNumCodedBytes := by
  have hf : ∀ v n i, (EncodeLoop env v n i c).iSndCrdFrameSizeFactor
      = c.iSndCrdFrameSizeFactor :=
    fun v n i => EncodeLoop_inv (fun c => c.iSndCrdFrameSizeFactor) (fun _ _ => rfl)
      (fun _ _ => rfl) env v n i c
  have hb : ∀ v n i, (EncodeLoop env v n i c).iCeltNumCodedBytes = c.iCeltNumCodedBytes :=
    fun v n i => EncodeLoop_inv (fun c => c.iCeltNumCodedBytes) (fun _ _ => rfl)
      (fun _ _ => rfl) env v n i c
  unfold ProcessAudioDataIntern EncodeDecode
  dsimp only
  constructor
  · rw [sendPacketCalls_append, DecodeLoop_sendPacketCalls]
    split
    · show sendPacketCalls (EncodeLoop env _ _ 0 c).log ++ sendPacketCalls _ = _
      rw [EncodeLoop_sendPacketCalls]
      simp [sendPacketCalls]
    · rw [EncodeLoop_sendPacketCalls]
      simp [sendPacketCalls]
  · rw [getDataCalls_append, DecodeLoop_getDataCalls]
    split
    · show getDataCalls (EncodeLoop env _ _ 0 c).log ++ List.replicate
        (EncodeLoop env _ _ 0 c).iSndCrdFrameSizeFactor.toNat
        (EncodeLoop env _ _ 0 c).iCeltNumCodedBytes ++ getDataCalls _ = _
      rw [EncodeLoop_getDataCalls, hf, hb]
      simp [getDataCalls]
    · rw [EncodeLoop_getDataCalls, hf, hb]
      simp [getDataCalls]

/-! ## The conversion buffers never underrun or overflow -/

theorem CBuffer_Put_flag (b : CBuffer) (v : List Int) (n : Int) (h0 : 0 ≤ n)
    (h : b.GetAvailData + n ≤ b.iMemSize) : (b.Put v n).2 = true := by
  unfold CBuffer.Put
  rw [if_pos ⟨h0, h⟩]

theorem CBuffer_Get_flag (b : CBuffer) (v : List Int) (n : Int) (h0 : 0 ≤ n)
    (h : n ≤ b.GetAvailData) : (b.Get v n).2.2 = true := by
  unfold CBuffer.Get
  rw [if_pos ⟨h0, h⟩]

/-- One pass of the conversion loop, for arbitrary frames: an engine frame
leaves the input buffer, a block of the same size enters the output buffer, and
both buffer operations are accepted. -/
theorem ConvLoopBody_ring (env : CFrameEnv F) (c : CClient F) (E : Nat)
    (hE : c.iStereoBlockSizeSam = (E : Int))
    (hin : E ≤ c.SndCrdConversionBufferIn.data.length)
    (hcap : (c.SndCrdConversionBufferOut.data.length : Int) + E
      ≤ c.SndCrdConversionBufferOut.iMemSize) :
    (ConvLoopBody env c).iStereoBlockSizeSam = (E : Int)
      ∧ (ConvLoopBody env c).bSndCrdConversionBufferRequired
        = c.bSndCrdConversionBufferRequired
      ∧ (ConvLoopBody env c).SndCrdConversionBufferIn
        = { c.SndCrdConversionBufferIn with data := c.SndCrdConversionBufferIn.data.drop E }
      ∧ (∃ z : List Int, z.length = E ∧ (ConvLoopBody env c).SndCrdConversionBufferOut
        = { c.SndCrdConversionBufferOut with
            data := c.SndCrdConversionBufferOut.data ++ z })
      ∧ ConvLoopBodyFlags env c = [true, true] := by
  have hge : c.iStereoBlockSizeSam ≤ c.SndCrdConversionBufferIn.GetAvailData := by
    rw [hE]; simp only [CBuffer.GetAvailData]; exact_mod_cast hin
  have h0 : 0 ≤ c.iStereoBlockSizeSam := by rw [hE]; exact Int.ofNat_nonneg E
  have hget := CBuffer_Get_ok c.SndCrdConversionBufferIn c.vecDataConvBuf c.iStereoBlockSizeSam
    h0 hge
  have hgetf := CBuffer_Get_flag c.SndCrdConversionBufferIn c.vecDataConvBuf
    c.iStereoBlockSizeSam h0 hge
  rw [hE, Int.toNat_ofNat] at hget
  let c1 : CClient F :=
    { c with
      SndCrdConversionBufferIn :=
        (c.SndCrdConversionBufferIn.Get c.vecDataConvBuf c.iStereoBlockSizeSam).1
      vecDataConvBuf :=
        (c.SndCrdConversionBufferIn.Get c.vecDataConvBuf c.iStereoBlockSizeSam).2.1 }
  have hlen : E ≤ (ProcessAudioDataIntern env c1 c1.vecDataConvBuf).2.length := by
    rw [ProcessAudioDataIntern_length]
    show E ≤ (c.SndCrdConversionBufferIn.Get c.vecDataConvBuf c.iStereoBlockSizeSam).2.1.length
    rw [hE, hget.2]
    simp only [List.length_append, List.length_take, List.length_drop]
    omega
  have hinv : ∀ {α : Type} (f : CClient F → α),
      (∀ (c : CClient F) v, f { c with vecCeltData := v } = f c) →
      (∀ (c : CClient F) v, f { c with vecbyNetwData := v } = f c) →
      (∀ (c : CClient F) v, f { c with vecsStereoSndCrdMuteStream := v } = f c) →
      (∀ (c : CClient F) l, f { c with log := l } = f c) →
      (∀ (c : CClient F) b, f { c with bIsInitializationPhase := b } = f c) →
      f (ProcessAudioDataIntern env c1 c1.vecDataConvBuf).1 = f c1 :=
    fun f h1 h2 h3 h4 h5 => ProcessAudioDataIntern_inv f h1 h2 h3 h4 h5 env c1 _
  have hSt : (ProcessAudioDataIntern env c1 c1.vecDataConvBuf).1.iStereoBlockSizeSam
      = c.iStereoBlockSizeSam :=
    hinv (fun c => c.iStereoBlockSizeSam) (fun _ _ => rfl) (fun _ _ => rfl) (fun _ _ => rfl)
      (fun _ _ => rfl) (fun _ _ => rfl)
  have hOut : (ProcessAudioDataIntern env c1 c1.vecDataConvBuf).1.SndCrdConversionBufferOut
      = c.SndCrdConversionBufferOut :=
    hinv (fun c => c.SndCrdConversionBufferOut) (fun _ _ => rfl) (fun _ _ => rfl)
      (fun _ _ => rfl) (fun _ _ => rfl) (fun _ _ => rfl)
  have hIn : (ProcessAudioDataIntern env c1 c1.vecDataConvBuf).1.SndCrdConversionBufferIn
      = (c.SndCrdConversionBufferIn.Get c.vecDataConvBuf c.iStereoBlockSizeSam).1 :=
    hinv (fun c => c.SndCrdConversionBufferIn) (fun _ _ => rfl) (fun _ _ => rfl)
      (fun _ _ => rfl) (fun _ _ => rfl) (fun _ _ => rfl)
  have hCv : (ProcessAudioDataIntern env c1
      c1.vecDataConvBuf).1.bSndCrdConversionBufferRequired
      = c.bSndCrdConversionBufferRequired :=
    hinv (fun c => c.bSndCrdConversionBufferRequired) (fun _ _ => rfl) (fun _ _ => rfl)
      (fun _ _ => rfl) (fun _ _ => rfl) (fun _ _ => rfl)
  have hcap' : c.SndCrdConversionBufferOut.GetAvailData + (E : Int)
      ≤ c.SndCrdConversionBufferOut.iMemSize := hcap
  refine ⟨?_, ?_, ?_, ⟨(ProcessAudioDataIntern env c1 c1.vecDataConvBuf).2.take E, ?_, ?_⟩, ?_⟩
  · show (ProcessAudioDataIntern env c1 c1.vecDataConvBuf).1.iStereoBlockSizeSam = _
    rw [hSt, hE]
  · exact hCv
  · show (ProcessAudioDataIntern env c1 c1.vecDataConvBuf).1.SndCrdConversionBufferIn = _
    rw [hIn, hE, hget.1]
  · rw [List.length_take, Nat.min_eq_left hlen]
  · show ((ProcessAudioDataIntern env c1 c1.vecDataConvBuf).1.SndCrdConversionBufferOut.Put
        (ProcessAudioDataIntern env c1 c1.vecDataConvBuf).2
        (ProcessAudioDataIntern env c1 c1.vecDataConvBuf).1.iStereoBlockSizeSam).1 = _
    rw [hOut, hSt, hE, CBuffer_Put_ok _ _ _ (Int.ofNat_nonneg E) hcap', Int.toNat_ofNat]
  · show [(c.SndCrdConversionBufferIn.Get c.vecDataConvBuf c.iStereoBlockSizeSam).2.2,
      ((ProcessAudioDataIntern env c1 c1.vecDataConvBuf).1.SndCrdConversionBufferOut.Put
        (ProcessAudioDataIntern env c1 c1.vecDataConvBuf).2
        (ProcessAudioDataIntern env c1 c1.vecDataConvBuf).1.iStereoBlockSizeSam).2] = _
    rw [hgetf, hOut, hSt, hE, CBuffer_Put_flag _ _ _ (Int.ofNat_nonneg E) hcap']

/-- The conversion loop, for arbitrary frames: it ends (given enough fuel) with
less than one engine frame in the input buffer, the fill levels keep their sum,
and every buffer operation of the loop is accepted. -/
theorem ConvLoop_ring (envs : Nat → CFrameEnv F) (E : Nat) (hEpos : 0 < E) :
    ∀ (fuel k : Nat) (c : CClient F),
      c.iStereoBlockSizeSam = (E : Int) →
      c.SndCrdConversionBufferIn.data.length < fuel →
      (c.SndCrdConversionBufferIn.data.length : Int) + c.SndCrdConversionBufferOut.data.length
        ≤ c.SndCrdConversionBufferOut.iMemSize →
      ∃ c', ConvLoop envs fuel k c = some c'
        ∧ c'.iStereoBlockSizeSam = (E : Int)
        ∧ c'.bSndCrdConversionBufferRequired = c.bSndCrdConversionBufferRequired
        ∧ c'.SndCrdConversionBufferIn.iMemSize = c.SndCrdConversionBufferIn.iMemSize
        ∧ c'.SndCrdConversionBufferOut.iMemSize = c.SndCrdConversionBufferOut.iMemSize
        ∧ c'.SndCrdConversionBufferIn.data.length < E
        ∧ c'.SndCrdConversionBufferIn.data.length + c'.SndCrdConversionBufferOut.data.length
          = c.SndCrdConversionBufferIn.data.length + c.SndCrdConversionBufferOut.data.length
        ∧ ∀ b ∈ ConvLoopFlags envs fuel k c, b = true := by
  intro fuel
  induction fuel with
  | zero => intro k c _ h; exact absurd h (Nat.not_lt_zero _)
  | succ fuel ih =>
    intro k c hE hfuel hcap
    simp only [ConvLoop, ConvLoopFlags]
    by_cases hge : c.SndCrdConversionBufferIn.GetAvailData ≥ c.iStereoBlockSizeSam
    · rw [if_pos hge, if_pos hge]
      have hin : E ≤ c.SndCrdConversionBufferIn.data.length := by
        rw [hE] at hge
        simp only [CBuffer.GetAvailData] at hge
        exact_mod_cast hge
      obtain ⟨b1, b2, b3, ⟨z, hz, b4⟩, b5⟩ :=
        ConvLoopBody_ring (envs k) c E hE hin (by omega)
      obtain ⟨c', r1, r2, r3, r4, r5, r6, r7, r8⟩ :=
        ih (k + 1) (ConvLoopBody (envs k) c) b1
          (by rw [b3]; simp only [List.length_drop]; omega)
          (by rw [b3, b4]; simp only [List.length_drop, List.length_append, hz]
              push_cast; omega)
      refine ⟨c', r1, r2, r3.trans b2, ?_, ?_, r6, ?_, ?_⟩
      · rw [r4, b3]
      · rw [r5, b4]
      · rw [r7, b3, b4]
        simp only [List.length_drop, List.length_append, hz]
        omega
      · intro b hb
        rcases List.mem_append.mp hb with h | h
        · rw [b5] at h
          rcases List.mem_cons.mp h with h | h
          · exact h
          · exact List.mem_singleton.mp h
        · exact r8 b h
    · rw [if_neg hge, if_neg hge]
      refine ⟨c, rfl, hE, rfl, rfl, rfl, ?_, rfl, ?_⟩
      · rw [hE] at hge
        simp only [CBuffer.GetAvailData, ge_iff_le, not_le] at hge
        exact_mod_cast hge
      · intro b hb
        exact absurd hb (List.not_mem_nil b)

/-- A device callback with conversion buffer, for arbitrary frames: it ends,
the state of the rings is kept, a block of the device size is returned and
every buffer operation is accepted. -/
theorem ProcessSndCrdAudioData_ring (fuel : Nat) (envs : Nat → CFrameEnv F) (c : CClient F)
    (vec : List Int) (E D : Nat) (hr : RingInv (E : Int) (D : Int) c) (hvec : vec.length = D)
    (hfuel : E + D ≤ fuel) :
    ∃ c' out, ProcessSndCrdAudioData fuel envs c vec = some (c', out)
      ∧ RingInv (E : Int) (D : Int) c'
      ∧ out.length = D
      ∧ ∀ b ∈ ProcessSndCrdAudioDataFlags fuel envs c vec, b = true := by
  obtain ⟨h1, h2, h3, h4, h5, h6, h7⟩ := hr
  simp only [CBuffer.GetAvailData] at h6 h7
  have hEpos : 0 < E := by exact_mod_cast h3
  have hputc : c.SndCrdConversionBufferIn.GetAvailData + (vec.length : Int)
      ≤ c.SndCrdConversionBufferIn.iMemSize := by
    simp only [CBuffer.GetAvailData]; rw [h4, hvec]; omega
  have hput := CBuffer_Put_ok c.SndCrdConversionBufferIn vec (vec.length : Int)
    (Int.ofNat_nonneg _) hputc
  have hputf := CBuffer_Put_flag c.SndCrdConversionBufferIn vec (vec.length : Int)
    (Int.ofNat_nonneg _) hputc
  rw [Int.toNat_ofNat, List.take_length] at hput
  let c1 : CClient F :=
    { c with SndCrdConversionBufferIn :=
        (c.SndCrdConversionBufferIn.Put vec (vec.length : Int)).1 }
  have hc1In : c1.SndCrdConversionBufferIn
      = { c.SndCrdConversionBufferIn with data := c.SndCrdConversionBufferIn.data ++ vec } :=
    hput
  obtain ⟨c2, r1, r2, r3, r4, r5, r6, r7, r8⟩ :=
    ConvLoop_ring envs E hEpos fuel 0 c1 h2
      (by rw [hc1In]; simp only [List.length_append]; omega)
      (by rw [hc1In]; simp only [List.length_append]
          show _ ≤ c.SndCrdConversionBufferOut.iMemSize
          rw [h5]; push_cast; omega)
  rw [hc1In] at r4 r7
  simp only [List.length_append] at r7
  have r5' : c2.SndCrdConversionBufferOut.iMemSize = c.SndCrdConversionBufferOut.iMemSize := r5
  have r7' : c2.SndCrdConversionBufferIn.data.length + c2.SndCrdConversionBufferOut.data.length
      = c.SndCrdConversionBufferIn.data.length + vec.length
        + c.SndCrdConversionBufferOut.data.length := r7
  have hgetc : (vec.length : Int) ≤ c2.SndCrdConversionBufferOut.GetAvailData := by
    simp only [CBuffer.GetAvailData]; omega
  have hget := CBuffer_Get_ok c2.SndCrdConversionBufferOut vec (vec.length : Int)
    (Int.ofNat_nonneg _) hgetc
  have hgetf := CBuffer_Get_flag c2.SndCrdConversionBufferOut vec (vec.length : Int)
    (Int.ofNat_nonneg _) hgetc
  rw [Int.toNat_ofNat, List.drop_length, List.append_nil] at hget
  refine ⟨{ c2 with SndCrdConversionBufferOut :=
      (c2.SndCrdConversionBufferOut.Get vec (vec.length : Int)).1 },
    (c2.SndCrdConversionBufferOut.Get vec (vec.length : Int)).2.1, ?_, ?_, ?_, ?_⟩
  · unfold ProcessSndCrdAudioData
    rw [if_pos h1]
    show (match ConvLoop envs fuel 0 c1 with
      | none => none
      | some c2 => _) = _
    rw [r1]
  · refine ⟨r3.trans h1, r2, h3, ?_, ?_, ?_, ?_⟩
    · show c2.SndCrdConversionBufferIn.iMemSize = _
      rw [r4]; exact h4
    · show (c2.SndCrdConversionBufferOut.Get vec (vec.length : Int)).1.iMemSize = _
      rw [hget.1]; show c2.SndCrdConversionBufferOut.iMemSize = _
      rw [r5']; exact h5
    · show (c2.SndCrdConversionBufferIn.data.length : Int)
        + ((c2.SndCrdConversionBufferOut.Get vec (vec.length : Int)).1.data.length : Int) = _
      rw [hget.1]
      simp only [List.length_drop]
      omega
    · show (c2.SndCrdConversionBufferIn.data.length : Int) < _
      exact_mod_cast r6
  · rw [hget.2, List.length_take]
    simp only [CBuffer.GetAvailData] at hgetc
    omega
  · unfold ProcessSndCrdAudioDataFlags
    rw [if_pos h1]
    show ∀ b ∈ (c.SndCrdConversionBufferIn.Put vec (vec.length : Int)).2 ::
      (ConvLoopFlags envs fuel 0 c1 ++ (match ConvLoop envs fuel 0 c1 with
        | none => []
        | some c2 => [(c2.SndCrdConversionBufferOut.Get vec (vec.length : Int)).2.2])), b = true
    rw [r1, hputf]
    intro b hb
    rcases List.mem_cons.mp hb with h | h
    · exact h
    · rcases List.mem_append.mp h with h | h
      · exact r8 b h
      · have h' : b = (c2.SndCrdConversionBufferOut.Get vec (vec.length : Int)).2.2 :=
          List.mem_singleton.mp h
        rw [h', hgetf]

/-- A sequence of device callbacks with conversion buffer, for arbitrary
frames: every call ends, the state of the rings is kept, every block returned
has the device size and every buffer operation is accepted. -/
theorem runPipeline_ring (fuel : Nat) (E D : Nat) (hfuel : E + D ≤ fuel) :
    ∀ (invs : List (CInvocation F)) (c : CClient F),
      RingInv (E : Int) (D : Int) c →
      (∀ inv ∈ invs, inv.vec.length = D) →
      ∃ c' outs, runPipeline fuel c invs = some (c', outs)
        ∧ RingInv (E : Int) (D : Int) c'
        ∧ outs.length = invs.length
        ∧ (∀ out ∈ outs, out.length = D)
        ∧ ∀ b ∈ runPipelineFlags fuel c invs, b = true := by
  intro invs
  induction invs with
  | nil =>
    intro c hr _
    exact ⟨c, [], rfl, hr, rfl, by simp, by simp [runPipelineFlags]⟩
  | cons inv rest ih =>
    intro c hr hvec
    have hvec1 := hvec inv (List.mem_cons_self _ _)
    have hvecr : ∀ i ∈ rest, i.vec.length = D := fun i hi => hvec i (List.mem_cons_of_mem _ hi)
    have hrs : RingInv (E : Int) (D : Int) (applySettings c inv) :=
      RingInv_congr _ _ c _ rfl rfl rfl rfl hr
    obtain ⟨c1, out, f1, f2, f3, f4⟩ :=
      ProcessSndCrdAudioData_ring fuel inv.envs (applySettings c inv) inv.vec E D hrs hvec1 hfuel
    obtain ⟨c', outs, e1, e2, e3, e4, e5⟩ := ih c1 f2 hvecr
    refine ⟨c', out :: outs, ?_, e2, by simp [e3], ?_, ?_⟩
    · simp only [runPipeline]
      rw [f1]
      dsimp only
      rw [e1]
    · intro o ho
      rcases List.mem_cons.mp ho with h | h
      · rw [h]; exact f3
      · exact e4 o h
    · simp only [runPipelineFlags]
      rw [f1]
      intro b hb
      rcases List.mem_append.mp hb with h | h
      · exact f4 b h
      · exact e5 b h

/-- C15. The conversion ring buffers never underrun or overflow. Both rings
have capacity `E + D`, where `E = iStereoBlockSizeSam > 0` is the stereo engine
frame and `D` the stereo device block; at the start the input ring is empty
and the output ring holds `E` samples (the state left by `Init`). Then every
sequence of calls of `ProcessSndCrdAudioData` with blocks of `D` samples ends
(each `while` loop terminates); afterwards the input ring holds fewer than `E`
samples and the fill levels of the two rings sum to `E`; every block returned
has `D` samples; and every `Put` and every `Get` on either ring was accepted:
no `Put` exceeded the capacity and no `Get` found too few samples, the final
`Get` of `D` samples included. -/
theorem ConversionBuffers_no_underrun_no_overflow (fuel E D : Nat) (c0 : CClient F)
    (invs : List (CInvocation F))
    (hconv : c0.bSndCrdConversionBufferRequired = true)
    (hE : c0.iStereoBlockSizeSam = (E : Int)) (hEpos : 0 < E)
    (hInCap : c0.SndCrdConversionBufferIn.iMemSize = (E : Int) + (D : Int))
    (hOutCap : c0.SndCrdConversionBufferOut.iMemSize = (E : Int) + (D : Int))
    (hIn : c0.SndCrdConversionBufferIn.GetAvailData = 0)
    (hOut : c0.SndCrdConversionBufferOut.GetAvailData = (E : Int))
    (hvec : ∀ inv ∈ invs, inv.vec.length = D)
    (hfuel : E + D ≤ fuel) :
    ∃ c' outs, runPipeline fuel c0 invs = some (c', outs)
      ∧ c'.SndCrdConversionBufferIn.GetAvailData < (E : Int)
      ∧ c'.SndCrdConversionBufferIn.GetAvailData
          + c'.SndCrdConversionBufferOut.GetAvailData = (E : Int)
      ∧ c'.SndCrdConversionBufferIn.iMemSize = (E : Int) + (D : Int)
      ∧ c'.SndCrdConversionBufferOut.iMemSize = (E : Int) + (D : Int)
      ∧ outs.length = invs.length
      ∧ (∀ out ∈ outs, out.length = D)
      ∧ ∀ b ∈ runPipelineFlags fuel c0 invs, b = true := by
  have hr : RingInv (E : Int) (D : Int) c0 :=
    ⟨hconv, hE, by exact_mod_cast hEpos, hInCap, hOutCap, by rw [hIn, hOut]; simp,
      by rw [hIn]; exact_mod_cast hEpos⟩
  obtain ⟨c', outs, e1, e2, e3, e4, e5⟩ := runPipeline_ring fuel E D hfuel invs c0 hr hvec
  exact ⟨c', outs, e1, e2.2.2.2.2.2.2, e2.2.2.2.2.2.1, e2.2.2.2.1, e2.2.2.2.2.1, e3, e4, e5⟩

/-- Instance of `ConversionBuffers_no_underrun_no_overflow`: the device grants
96 samples, so that after `Init` engine frames of 256 stereo samples are
converted to device blocks of 192 stereo samples; two device callbacks run
while the channel is connected. -/
theorem ConversionBuffers_no_underrun_no_overflow_witness :
    ∃ c' outs, runPipeline 500 (Init stdConsts (exampleClient stdConsts (exampleSound 96) false))
        [exampleInvocation exampleEnvConnected 192,
          exampleInvocation exampleEnvConnected 192] = some (c', outs)
      ∧ c'.SndCrdConversionBufferIn.GetAvailData < ((256 : Nat) : Int)
      ∧ c'.SndCrdConversionBufferIn.GetAvailData
          + c'.SndCrdConversionBufferOut.GetAvailData = ((256 : Nat) : Int)
      ∧ c'.SndCrdConversionBufferIn.iMemSize = ((256 : Nat) : Int) + ((192 : Nat) : Int)
      ∧ c'.SndCrdConversionBufferOut.iMemSize = ((256 : Nat) : Int) + ((192 : Nat) : Int)
      ∧ outs.length = 2
      ∧ (∀ out ∈ outs, out.length = 192)
      ∧ ∀ b ∈ runPipelineFlags 500
          (Init stdConsts (exampleClient stdConsts (exampleSound 96) false))
          [exampleInvocation exampleEnvConnected 192,
            exampleInvocation exampleEnvConnected 192], b = true :=
  ConversionBuffers_no_underrun_no_overflow 500 256 192
    (Init stdConsts (exampleClient stdConsts (exampleSound 96) false))
    [exampleInvocation exampleEnvConnected 192, exampleInvocation exampleEnvConnected 192]
    (by decide) (by decide) (by decide) (by decide) (by decide) (by decide) (by decide)
    (by intro inv h
        have h' : inv = exampleInvocation exampleEnvConnected 192 := by
          rcases List.mem_cons.mp h with h | h
          · exact h
          · exact List.mem_singleton.mp h
        subst h'
        decide)
    (by decide)

/-! ## Delay estimate -/

/-- C21 (as stated, refuted): with the conversion buffer adding a delay of 128
samples at 48000 Hz and a device that reports a latency of 10 ms, the sound
card term is `10 + 128 * 1000 / 48000 = 38 / 3` ms, not the reported 10 ms. -/
theorem SoundCardDelay_reported_counterexample :
    fTotalSoundCardDelayMs stdConsts 128 128 10 = 38 / 3
      ∧ fTotalSoundCardDelayMs stdConsts 128 128 10 ≠ 10 := by
  have h : fTotalSoundCardDelayMs stdConsts 128 128 10 = 38 / 3 := by
    simp only [fTotalSoundCardDelayMs, stdConsts]
    norm_num
  refine ⟨h, ?_⟩
  rw [h]
  norm_num

/-- C21 (amended): over the rationals, the sound card term of
`EstimatedOverallDelay` is the conversion buffer delay
`GetSndCrdConvBufAdditionalDelayMonoBlSize() * 1000 / SYSTEM_SAMPLE_RATE_HZ`
plus the latency `L` reported by the device when `L` is not zero, and plus
`3 * GetSndCrdActualMonoBlSize() * 1000 / SYSTEM_SAMPLE_RATE_HZ` when the device
reports zero (the product `3 * GetSndCrdActualMonoBlSize()` fitting an `int`);
so the term is `L` itself when `L` is not zero and the conversion buffer adds
no delay. -/
theorem SoundCardDelay_term (K : Consts) (iConvAdd iActual : Int) (L : Rat)
    (hr : -2147483648 ≤ 3 * iActual ∧ 3 * iActual < 2147483648) :
    (L ≠ 0 → fTotalSoundCardDelayMs K iConvAdd iActual L
        = L + (iConvAdd : Rat) * 1000 / (K.SYSTEM_SAMPLE_RATE_HZ : Rat))
      ∧ (L = 0 → fTotalSoundCardDelayMs K iConvAdd iActual L
        = 3 * (iActual : Rat) * 1000 / (K.SYSTEM_SAMPLE_RATE_HZ : Rat)
          + (iConvAdd : Rat) * 1000 / (K.SYSTEM_SAMPLE_RATE_HZ : Rat))
      ∧ (L ≠ 0 → iConvAdd = 0 → fTotalSoundCardDelayMs K iConvAdd iActual L = L) := by
  have hw : wrapInt32 (3 * iActual) = 3 * iActual := wrapInt32_of_range _ hr.1 (by omega)
  refine ⟨?_, ?_, ?_⟩
  · intro hL
    simp only [fTotalSoundCardDelayMs, if_neg hL]
    ring
  · intro hL
    simp only [fTotalSoundCardDelayMs, if_pos hL, hw]
    push_cast
    ring
  · intro hL h0
    simp only [fTotalSoundCardDelayMs, if_neg hL, h0]
    simp

/-- Instance of `SoundCardDelay_term`: a conversion buffer delay of 128
samples, a device block of 128 samples, 48000 Hz. -/
theorem SoundCardDelay_term_witness :
    (-2147483648 ≤ 3 * (128 : Int) ∧ 3 * (128 : Int) < 2147483648)
      ∧ fTotalSoundCardDelayMs stdConsts 128 128 0
        = 3 * ((128 : Int) : Rat) * 1000 / ((stdConsts.SYSTEM_SAMPLE_RATE_HZ : Int) : Rat)
          + ((128 : Int) : Rat) * 1000 / ((stdConsts.SYSTEM_SAMPLE_RATE_HZ : Int) : Rat) :=
  ⟨by decide, (SoundCardDelay_term stdConsts 128 128 0 (by decide)).2.1 rfl⟩

/-! ## The mono to stereo copy -/

theorem vecGet_natCast (v : List Int) (k : Nat) : vecGet v (k : Int) = v.getD k 0 := by
  simp [vecGet]

theorem vecSet_natCast (v : List Int) (k : Nat) (x : Int) : vecSet v (k : Int) x = v.set k x := by
  simp [vecSet]

/-- One iteration of the copy loop at `i = k`, `j = 2 k`. -/
theorem MonoToStereoLoop_step (k : Nat) (v : List Int) :
    MonoToStereoLoop (k + 1) (((k + 1 : Nat) : Int) - 1) (2 * ((k + 1 : Nat) : Int) - 2) v
      = MonoToStereoLoop k ((k : Int) - 1) (2 * (k : Int) - 2)
          ((v.set (2 * k + 1) (v.getD k 0)).set (2 * k) (v.getD k 0)) := by
  have h1 : (((k + 1 : Nat) : Int) - 1) = (k : Int) := by push_cast; ring
  have h2 : (2 * ((k + 1 : Nat) : Int) - 2) = ((2 * k : Nat) : Int) := by push_cast; ring
  have h3 : (((2 * k : Nat) : Int) + 1) = ((2 * k + 1 : Nat) : Int) := by push_cast; ring
  have h4 : (((2 * k : Nat) : Int) - 2) = 2 * (k : Int) - 2 := by push_cast; ring
  rw [h1, h2]
  simp only [MonoToStereoLoop]
  rw [h3, h4, vecGet_natCast, vecSet_natCast, vecSet_natCast]

/-- One iteration of the checked copy loop: the three accesses are inside the
vector. -/
theorem MonoToStereoLoopChecked_step (k : Nat) (v : List Int) (h : 2 * (k + 1) ≤ v.length) :
    MonoToStereoLoopChecked (k + 1) (((k + 1 : Nat) : Int) - 1)
        (2 * ((k + 1 : Nat) : Int) - 2) v
      = MonoToStereoLoopChecked k ((k : Int) - 1) (2 * (k : Int) - 2)
          ((v.set (2 * k + 1) (v.getD k 0)).set (2 * k) (v.getD k 0)) := by
  have h1 : (((k + 1 : Nat) : Int) - 1) = (k : Int) := by push_cast; ring
  have h2 : (2 * ((k + 1 : Nat) : Int) - 2) = ((2 * k : Nat) : Int) := by push_cast; ring
  have h3 : (((2 * k : Nat) : Int) + 1) = ((2 * k + 1 : Nat) : Int) := by push_cast; ring
  have h4 : (((2 * k : Nat) : Int) - 2) = 2 * (k : Int) - 2 := by push_cast; ring
  rw [h1, h2]
  simp only [MonoToStereoLoopChecked]
  rw [if_pos (by omega), h3, h4, vecGet_natCast, vecSet_natCast, vecSet_natCast]

/-- The copy loop over the first `k` mono samples: entry `idx` of the result is
entry `idx / 2` of the vector for `idx < 2 k` and is unchanged beyond; no
access leaves the vector. -/
theorem MonoToStereoLoop_spec (k : Nat) :
    ∀ v : List Int, 2 * k ≤ v.length →
      MonoToStereoLoopChecked k ((k : Int) - 1) (2 * (k : Int) - 2) v
          = some (MonoToStereoLoop k ((k : Int) - 1) (2 * (k : Int) - 2) v)
        ∧ ∀ idx : Nat, (MonoToStereoLoop k ((k : Int) - 1) (2 * (k : Int) - 2) v)[idx]?
            = if idx < 2 * k then v[idx / 2]? else v[idx]? := by
  induction k with
  | zero =>
    intro v _
    refine ⟨rfl, fun idx => ?_⟩
    simp [MonoToStereoLoop]
  | succ k ih =>
    intro v hv
    rw [MonoToStereoLoop_step, MonoToStereoLoopChecked_step k v hv]
    obtain ⟨e1, e2⟩ := ih ((v.set (2 * k + 1) (v.getD k 0)).set (2 * k) (v.getD k 0))
      (by simp only [List.length_set]; omega)
    refine ⟨e1, fun idx => ?_⟩
    rw [e2]
    have hk : v[k]? = some (v.getD k 0) := by
      rw [List.getD_eq_getElem?_getD, List.getElem?_eq_getElem (by omega)]
      rfl
    by_cases h1 : idx < 2 * k
    · rw [if_pos h1, if_pos (by omega)]
      rw [List.getElem?_set, if_neg (by omega), List.getElem?_set, if_neg (by omega)]
    · rw [if_neg h1]
      by_cases h2 : idx < 2 * (k + 1)
      · rw [if_pos h2]
        have hidx : idx / 2 = k := by omega
        rw [hidx, hk]
        by_cases h3 : idx = 2 * k
        · rw [List.getElem?_set, if_pos h3.symm, if_pos (by simp only [List.length_set]; omega)]
        · have h4 : idx = 2 * k + 1 := by omega
          rw [List.getElem?_set, if_neg (by omega), List.getElem?_set, if_pos h4.symm,
            if_pos (by omega)]
      · rw [if_neg h2]
        rw [List.getElem?_set, if_neg (by omega), List.getElem?_set, if_neg (by omega)]

/-- C22. The in-place mono to stereo copy is correct: for a buffer `b` of
length `2 n`, the backward loop (`i` from `n - 1` down to 0, `j = 2 i`,
`b[j] = b[j + 1] = b[i]`) performs every access inside the buffer and ends with
`b'[2 i] = b'[2 i + 1] = b[i]` for every `i < n`, where `b` is the content
before the loop; the buffer keeps its length. It is the loop run by the client
with mono block size `n` and stereo block size `2 n`, for `CC_MONO_IN_STEREO_OUT`
on the transmit side and for `CC_MONO` on the receive side. -/
theorem MonoToStereo_in_place (n : Nat) (b : List Int) (hb : b.length = 2 * n) :
    MonoToStereoLoopChecked n ((n : Int) - 1) (2 * (n : Int) - 2) b
        = some (MonoToStereoLoop n ((n : Int) - 1) (2 * (n : Int) - 2) b)
      ∧ (MonoToStereoLoop n ((n : Int) - 1) (2 * (n : Int) - 2) b).length = 2 * n
      ∧ (∀ i : Nat, i < n →
          (MonoToStereoLoop n ((n : Int) - 1) (2 * (n : Int) - 2) b)[2 * i]? = some (b.getD i 0)
            ∧ (MonoToStereoLoop n ((n : Int) - 1) (2 * (n : Int) - 2) b)[2 * i + 1]?
              = some (b.getD i 0)
            ∧ b[i]? = some (b.getD i 0))
      ∧ ∀ c : CClient F, c.iMonoBlockSizeSam = (n : Int) →
          c.iStereoBlockSizeSam = 2 * (n : Int) →
          MonoToStereo c b = MonoToStereoLoop n ((n : Int) - 1) (2 * (n : Int) - 2) b := by
  obtain ⟨e1, e2⟩ := MonoToStereoLoop_spec n b (by omega)
  refine ⟨e1, by rw [MonoToStereoLoop_length]; exact hb, fun i hi => ?_, fun c h1 h2 => ?_⟩
  · have hk : b[i]? = some (b.getD i 0) := by
      rw [List.getD_eq_getElem?_getD, List.getElem?_eq_getElem (by omega)]
      rfl
    refine ⟨?_, ?_, hk⟩
    · rw [e2, if_pos (by omega)]
      have : 2 * i / 2 = i := by omega
      rw [this, hk]
    · rw [e2, if_pos (by omega)]
      have : (2 * i + 1) / 2 = i := by omega
      rw [this, hk]
  · unfold MonoToStereo
    rw [h1, h2, Int.toNat_ofNat]

/-- Instance of `MonoToStereo_in_place`: two mono samples 5, 6 at the start of
a buffer of four samples. -/
theorem MonoToStereo_in_place_witness :
    ([5, 6, 7, 8] : List Int).length = 2 * 2
      ∧ MonoToStereoLoopChecked 2 (((2 : Nat) : Int) - 1) (2 * ((2 : Nat) : Int) - 2) [5, 6, 7, 8]
        = some (MonoToStereoLoop 2 (((2 : Nat) : Int) - 1) (2 * ((2 : Nat) : Int) - 2)
            [5, 6, 7, 8])
      ∧ MonoToStereoLoop 2 (((2 : Nat) : Int) - 1) (2 * ((2 : Nat) : Int) - 2) [5, 6, 7, 8]
        = [5, 5, 6, 6] :=
  ⟨rfl, (MonoToStereo_in_place (F := Rat) 2 [5, 6, 7, 8] rfl).1, by decide⟩

/-! ## Reinitialisation with the device stopped -/

theorem deviceCalls_append (l₁ l₂ : List (Call F)) :
    deviceCalls (l₁ ++ l₂) = deviceCalls l₁ ++ deviceCalls l₂ := by
  induction l₁ with
  | nil => rfl
  | cons a l ih => cases a <;> simp [deviceCalls, ih]

theorem setBufferSizeCalls_append (l₁ l₂ : List (Call F)) :
    setBufferSizeCalls (l₁ ++ l₂) = setBufferSizeCalls l₁ ++ setBufferSizeCalls l₂ := by
  induction l₁ with
  | nil => rfl
  | cons a l ih => cases a <;> simp [setBufferSizeCalls, ih]

theorem InitBufferSize_deviceCalls (K : Consts) (c : CClient F) :
    deviceCalls (InitBufferSize K c).log = deviceCalls c.log ++
      [Call.SoundSetBufferSize (c.iSndCrdPrefFrameSizeFactor * K.SYSTEM_FRAME_SIZE_SAMPLES)] := by
  unfold InitBufferSize
  dsimp only
  split <;> simp [deviceCalls_append, deviceCalls]

theorem InitBufferSize_setBufferSizeCalls (K : Consts) (c : CClient F) :
    setBufferSizeCalls (InitBufferSize K c).log = setBufferSizeCalls c.log ++
      [c.iSndCrdPrefFrameSizeFactor * K.SYSTEM_FRAME_SIZE_SAMPLES] := by
  unfold InitBufferSize
  dsimp only
  split <;> simp [setBufferSizeCalls_append, setBufferSizeCalls]

/-- `Init` makes one call of `Sound.SetBufferSize`, for the preferred factor
times the frame size, and no other of the recorded device calls. -/
theorem Init_deviceCalls (K : Consts) (c : CClient F) :
    deviceCalls (Init K c).log = deviceCalls c.log ++
      [Call.SoundSetBufferSize (c.iSndCrdPrefFrameSizeFactor * K.SYSTEM_FRAME_SIZE_SAMPLES)] := by
  simp [Init, InitVectors, deviceCalls_append, deviceCalls, InitBufferSize_deviceCalls]

theorem Init_setBufferSizeCalls (K : Consts) (c : CClient F) :
    setBufferSizeCalls (Init K c).log = setBufferSizeCalls c.log ++
      [c.iSndCrdPrefFrameSizeFactor * K.SYSTEM_FRAME_SIZE_SAMPLES] := by
  simp [Init, InitVectors, setBufferSizeCalls_append, setBufferSizeCalls,
    InitBufferSize_setBufferSizeCalls]

/-- `Init` leaves the preferred frame size factor as it is. -/
theorem Init_iSndCrdPrefFrameSizeFactor (K : Consts) (c : CClient F) :
    (Init K c).iSndCrdPrefFrameSizeFactor = c.iSndCrdPrefFrameSizeFactor := by
  have h1 : ∀ d : CClient F, (InitBufferSize K d).iSndCrdPrefFrameSizeFactor
      = d.iSndCrdPrefFrameSizeFactor := by
    intro d; unfold InitBufferSize; dsimp only; split <;> rfl
  have h2 : ∀ d : CClient F, (InitCompressionType K d).iSndCrdPrefFrameSizeFactor
      = d.iSndCrdPrefFrameSizeFactor := by
    intro d; unfold InitCompressionType; split <;> split <;> rfl
  have h3 : ∀ d : CClient F, (InitAudioCoding K d).iSndCrdPrefFrameSizeFactor
      = d.iSndCrdPrefFrameSizeFactor := by
    intro d; unfold InitAudioCoding; split <;> split <;> rfl
  have h4 : ∀ d : CClient F, (InitConversionBuffers d).iSndCrdPrefFrameSizeFactor
      = d.iSndCrdPrefFrameSizeFactor := by
    intro d; unfold InitConversionBuffers; dsimp only; split <;> rfl
  unfold Init
  rw [h4]
  show (InitAudioCoding K _).iSndCrdPrefFrameSizeFactor = _
  rw [h3, h2, h1]

/-- C23 (as stated, refuted): for the reset type `RS_ONLY_RESTART` and a
running device the handler stops and starts the device and emits the signal,
but does not run `Init`: it makes no call of `Sound.SetBufferSize`, which every
run of `Init` makes, and it leaves the initialization phase flag cleared, which
`Init` sets. -/
theorem OnSndCrdReinitRequest_only_restart_counterexample :
    setBufferSizeCalls (OnSndCrdReinitRequest stdConsts id
        { exampleClient stdConsts { exampleSound 128 with bStarted := true } false with
          bIsInitializationPhase := false }
        tSndCrdResetType.RS_ONLY_RESTART).log = []
      ∧ (OnSndCrdReinitRequest stdConsts id
        { exampleClient stdConsts { exampleSound 128 with bStarted := true } false with
          bIsInitializationPhase := false }
        tSndCrdResetType.RS_ONLY_RESTART).bIsInitializationPhase = false
      ∧ setBufferSizeCalls (Init stdConsts
        { exampleClient stdConsts { exampleSound 128 with bStarted := true } false with
          bIsInitializationPhase := false }).log = [128]
      ∧ (Init stdConsts
        { exampleClient stdConsts { exampleSound 128 with bStarted := true } false with
          bIsInitializationPhase := false }).bIsInitializationPhase = true := by
  decide

/-- C23 (amended): for the reset types `RS_ONLY_RESTART_AND_INIT` and
`RS_RELOAD_RESTART_AND_INIT` the handler stops the device when it is running,
reloads the driver exactly for `RS_RELOAD_RESTART_AND_INIT`, runs `Init`,
starts the device again when it was running and then emits
`SoundDeviceChanged`; for `RS_ONLY_RESTART` it stops and starts a running
device and emits `SoundDeviceChanged`, without reload and without `Init`. -/
theorem OnSndCrdReinitRequest_sequence (K : Consts) (Reload : CSound → CSound) (c : CClient F)
    (t : tSndCrdResetType) :
    deviceCalls (OnSndCrdReinitRequest K Reload c t).log
        = deviceCalls c.log
          ++ (if c.Sound.bStarted = true then [Call.SoundStop] else [])
          ++ (if t = tSndCrdResetType.RS_RELOAD_RESTART_AND_INIT then [Call.SoundReloadDevice]
              else [])
          ++ (if t ≠ tSndCrdResetType.RS_ONLY_RESTART then
                [Call.SoundSetBufferSize
                  (c.iSndCrdPrefFrameSizeFactor * K.SYSTEM_FRAME_SIZE_SAMPLES)]
              else [])
          ++ (if c.Sound.bStarted = true then [Call.SoundStart] else [])
          ++ [Call.EmitSoundDeviceChanged]
      ∧ (t = tSndCrdResetType.RS_ONLY_RESTART →
          OnSndCrdReinitRequest K Reload c t
            = emit (CSoundStopperLeave (CSoundStopperEnter c).1 (CSoundStopperEnter c).2)
                Call.EmitSoundDeviceChanged)
      ∧ (t = tSndCrdResetType.RS_ONLY_RESTART_AND_INIT →
          OnSndCrdReinitRequest K Reload c t
            = emit (CSoundStopperLeave (Init K (CSoundStopperEnter c).1)
                (CSoundStopperEnter c).2) Call.EmitSoundDeviceChanged)
      ∧ (t = tSndCrdResetType.RS_RELOAD_RESTART_AND_INIT →
          OnSndCrdReinitRequest K Reload c t
            = emit (CSoundStopperLeave
                (Init K (SoundReloadDevice Reload (CSoundStopperEnter c).1))
                (CSoundStopperEnter c).2) Call.EmitSoundDeviceChanged) := by
  refine ⟨?_, ?_, ?_, ?_⟩
  · cases t <;> cases hS : c.Sound.bStarted <;>
      simp [OnSndCrdReinitRequest, CSoundStopperEnter, CSoundStopperLeave, hS, emit, SoundStop,
        SoundStart, SoundReloadDevice, deviceCalls_append, deviceCalls, Init_deviceCalls]
  · intro ht; subst ht; simp [OnSndCrdReinitRequest]
  · intro ht; subst ht; simp [OnSndCrdReinitRequest]
  · intro ht; subst ht; simp [OnSndCrdReinitRequest]

/-- Instance of `OnSndCrdReinitRequest_sequence`: a running device and the
reset type `RS_RELOAD_RESTART_AND_INIT`. -/
theorem OnSndCrdReinitRequest_sequence_witness :
    OnSndCrdReinitRequest stdConsts id
        (exampleClient stdConsts { exampleSound 128 with bStarted := true } false)
        tSndCrdResetType.RS_RELOAD_RESTART_AND_INIT
      = emit (CSoundStopperLeave
          (Init stdConsts (SoundReloadDevice id (CSoundStopperEnter
            (exampleClient stdConsts { exampleSound 128 with bStarted := true } false)).1))
          (CSoundStopperEnter
            (exampleClient stdConsts { exampleSound 128 with bStarted := true } false)).2)
          Call.EmitSoundDeviceChanged :=
  (OnSndCrdReinitRequest_sequence stdConsts id
    (exampleClient stdConsts { exampleSound 128 with bStarted := true } false)
    tSndCrdResetType.RS_RELOAD_RESTART_AND_INIT).2.2.2 rfl

/-! ## Change of the preferred frame size factor -/

/-- C28. `SetSndCrdPrefFrameSizeFactor` rejects an invalid factor atomically:
for a factor that is none of `FRAME_SIZE_FACTOR_PREFERRED`,
`FRAME_SIZE_FACTOR_DEFAULT`, `FRAME_SIZE_FACTOR_SAFE` the whole client state is
unchanged (the device is not stopped and `Init` is not run). For one of the
three, `iSndCrdPrefFrameSizeFactor` is the new factor afterwards and `Init` has
been run with it, between the stop and the restart of a running device:
`Sound.SetBufferSize` is asked once, for the new factor times
`SYSTEM_FRAME_SIZE_SAMPLES`. -/
theorem SetSndCrdPrefFrameSizeFactor_atomic (K : Consts) (c : CClient F) (iNewFactor : Int) :
    (¬ (iNewFactor = K.FRAME_SIZE_FACTOR_PREFERRED ∨ iNewFactor = K.FRAME_SIZE_FACTOR_DEFAULT
        ∨ iNewFactor = K.FRAME_SIZE_FACTOR_SAFE) →
      SetSndCrdPrefFrameSizeFactor K c iNewFactor = c)
    ∧ ((iNewFactor = K.FRAME_SIZE_FACTOR_PREFERRED ∨ iNewFactor = K.FRAME_SIZE_FACTOR_DEFAULT
        ∨ iNewFactor = K.FRAME_SIZE_FACTOR_SAFE) →
      (SetSndCrdPrefFrameSizeFactor K c iNewFactor).iSndCrdPrefFrameSizeFactor = iNewFactor
        ∧ SetSndCrdPrefFrameSizeFactor K c iNewFactor
          = CSoundStopperLeave
              (Init K { (CSoundStopperEnter c).1 with iSndCrdPrefFrameSizeFactor := iNewFactor })
              (CSoundStopperEnter c).2
        ∧ setBufferSizeCalls (SetSndCrdPrefFrameSizeFactor K c iNewFactor).log
          = setBufferSizeCalls c.log ++ [iNewFactor * K.SYSTEM_FRAME_SIZE_SAMPLES]
        ∧ deviceCalls (SetSndCrdPrefFrameSizeFactor K c iNewFactor).log
          = deviceCalls c.log
            ++ (if c.Sound.bStarted = true then [Call.SoundStop] else [])
            ++ [Call.SoundSetBufferSize (iNewFactor * K.SYSTEM_FRAME_SIZE_SAMPLES)]
            ++ (if c.Sound.bStarted = true then [Call.SoundStart] else [])) := by
  refine ⟨fun h => ?_, fun h => ?_⟩
  · unfold SetSndCrdPrefFrameSizeFactor
    rw [if_neg h]
  · have heq : SetSndCrdPrefFrameSizeFactor K c iNewFactor
        = CSoundStopperLeave
            (Init K { (CSoundStopperEnter c).1 with iSndCrdPrefFrameSizeFactor := iNewFactor })
            (CSoundStopperEnter c).2 := by
      unfold SetSndCrdPrefFrameSizeFactor
      rw [if_pos h]
    refine ⟨?_, heq, ?_, ?_⟩
    · rw [heq]
      cases hS : c.Sound.bStarted <;>
        simp [CSoundStopperEnter, CSoundStopperLeave, hS, SoundStart,
          Init_iSndCrdPrefFrameSizeFactor]
    · rw [heq]
      cases hS : c.Sound.bStarted <;>
        simp [CSoundStopperEnter, CSoundStopperLeave, hS, SoundStart, SoundStop,
          setBufferSizeCalls_append, setBufferSizeCalls, Init_setBufferSizeCalls]
    · rw [heq]
      cases hS : c.Sound.bStarted <;>
        simp [CSoundStopperEnter, CSoundStopperLeave, hS, SoundStart, SoundStop,
          deviceCalls_append, deviceCalls, Init_deviceCalls]

/-- Instance of `SetSndCrdPrefFrameSizeFactor_atomic`: with the candidate
factors 1, 2 and 4 the factor 3 is rejected and the factor 4 is accepted. -/
theorem SetSndCrdPrefFrameSizeFactor_atomic_witness :
    SetSndCrdPrefFrameSizeFactor stdConsts
        (exampleClient stdConsts { exampleSound 128 with bStarted := true } false) 3
      = exampleClient stdConsts { exampleSound 128 with bStarted := true } false
    ∧ (SetSndCrdPrefFrameSizeFactor stdConsts
        (exampleClient stdConsts { exampleSound 128 with bStarted := true } false)
        4).iSndCrdPrefFrameSizeFactor = 4 :=
  ⟨(SetSndCrdPrefFrameSizeFactor_atomic stdConsts
      (exampleClient stdConsts { exampleSound 128 with bStarted := true } false) 3).1
      (by decide),
    ((SetSndCrdPrefFrameSizeFactor_atomic stdConsts
      (exampleClient stdConsts { exampleSound 128 with bStarted := true } false) 4).2
      (by decide)).1⟩

/-! ## Frame sizes set up by Init -/

/-- The frame size mode chosen by the first two parts of `Init`, for a frame
size `S > 0`, a double frame size `2 S` and the candidate factors 1, 2 and 4:
either the short frames (only with short-frame mode enabled; factor 1, mono
block `S`), or the long frames with a factor of at least 1 and a mono block of
factor times `2 S`. -/
theorem InitCompressionType_InitBufferSize_mode (K : Consts) (c : CClient F)
    (hS : 0 < K.SYSTEM_FRAME_SIZE_SAMPLES)
    (hD : K.DOUBLE_SYSTEM_FRAME_SIZE_SAMPLES = 2 * K.SYSTEM_FRAME_SIZE_SAMPLES)
    (hP : K.FRAME_SIZE_FACTOR_PREFERRED = 1) (hDf : K.FRAME_SIZE_FACTOR_DEFAULT = 2)
    (hSf : K.FRAME_SIZE_FACTOR_SAFE = 4) :
    ((InitCompressionType K (InitBufferSize K c)).eAudioCompressionType = EAudComprType.CT_OPUS64
        ∧ c.bEnableOPUS64 = true
        ∧ (InitCompressionType K (InitBufferSize K c)).iSndCrdFrameSizeFactor = 1
        ∧ (InitCompressionType K (InitBufferSize K c)).iMonoBlockSizeSam
          = K.SYSTEM_FRAME_SIZE_SAMPLES)
      ∨ ((InitCompressionType K (InitBufferSize K c)).eAudioCompressionType = EAudComprType.CT_OPUS
        ∧ 1 ≤ (InitCompressionType K (InitBufferSize K c)).iSndCrdFrameSizeFactor
        ∧ (InitCompressionType K (InitBufferSize K c)).iMonoBlockSizeSam
          = (InitCompressionType K (InitBufferSize K c)).iSndCrdFrameSizeFactor
            * K.DOUBLE_SYSTEM_FRAME_SIZE_SAMPLES) := by
  have hS0 : K.SYSTEM_FRAME_SIZE_SAMPLES ≠ 0 := ne_of_gt hS
  by_cases hc : (InitBufferSize K c).bSndCrdConversionBufferRequired = true
  · obtain ⟨f1, _⟩ := InitBufferSize_of_conv K c hc
    obtain ⟨g1, _⟩ := InitCompressionType_of_conv K (InitBufferSize K c) hc
    obtain ⟨m1, m2⟩ := InitCompressionType_mode_of_conv K (InitBufferSize K c) hc
    by_cases hm : (InitBufferSize K c).iSndCardMonoBlockSizeSamConvBuff
        < K.DOUBLE_SYSTEM_FRAME_SIZE_SAMPLES ∧ (InitBufferSize K c).bEnableOPUS64 = true
    · left
      refine ⟨(m1 hm).1, ?_, g1.trans f1, (m1 hm).2⟩
      have := hm.2
      rwa [InitBufferSize_bEnableOPUS64] at this
    · right
      refine ⟨(m2 hm).1, ?_, ?_⟩
      · rw [g1, f1]
      · rw [(m2 hm).2, g1, f1, one_mul]
  · have hc' : (InitBufferSize K c).bSndCrdConversionBufferRequired = false := by
      simpa using hc
    have hmono := InitBufferSize_mono_of_not_conv K c hc'
    have hfac := InitBufferSize_factor_of_not_conv K c hc'
    have hiff := (InitBufferSize_conv_iff K c).mp hc'
    rw [hP, hDf, hSf] at hiff
    have hT : InitCompressionType K (InitBufferSize K c)
        = if (InitBufferSize K c).iMonoBlockSizeSam < K.DOUBLE_SYSTEM_FRAME_SIZE_SAMPLES then
            { InitBufferSize K c with eAudioCompressionType := EAudComprType.CT_OPUS64 }
          else
            { InitBufferSize K c with
              iSndCrdFrameSizeFactor := Int.tdiv (InitBufferSize K c).iSndCrdFrameSizeFactor 2
              eAudioCompressionType := EAudComprType.CT_OPUS } := by
      unfold InitCompressionType
      rw [if_neg hc]
    by_cases hlt : (InitBufferSize K c).iMonoBlockSizeSam < K.DOUBLE_SYSTEM_FRAME_SIZE_SAMPLES
    · rw [if_pos hlt] at hT
      have t1 : (InitCompressionType K (InitBufferSize K c)).eAudioCompressionType
          = EAudComprType.CT_OPUS64 := by rw [hT]
      have t2 : (InitCompressionType K (InitBufferSize K c)).iSndCrdFrameSizeFactor
          = (InitBufferSize K c).iSndCrdFrameSizeFactor := by rw [hT]
      have t3 : (InitCompressionType K (InitBufferSize K c)).iMonoBlockSizeSam
          = (InitBufferSize K c).iMonoBlockSizeSam := by rw [hT]
      rw [hmono, hD] at hlt
      rcases hiff with ⟨hg, he⟩ | hg | hg
      · left
        refine ⟨t1, he, ?_, ?_⟩
        · rw [t2, hfac, hg]
          exact Int.mul_tdiv_cancel_left _ hS0
        · rw [t3, hmono, hg, mul_one]
      · omega
      · omega
    · rw [if_neg hlt] at hT
      have t1 : (InitCompressionType K (InitBufferSize K c)).eAudioCompressionType
          = EAudComprType.CT_OPUS := by rw [hT]
      have t2 : (InitCompressionType K (InitBufferSize K c)).iSndCrdFrameSizeFactor
          = Int.tdiv (InitBufferSize K c).iSndCrdFrameSizeFactor 2 := by rw [hT]
      have t3 : (InitCompressionType K (InitBufferSize K c)).iMonoBlockSizeSam
          = (InitBufferSize K c).iMonoBlockSizeSam := by rw [hT]
      rw [hmono, hD] at hlt
      right
      rcases hiff with ⟨hg, _⟩ | hg | hg
      · omega
      · have h2 : Int.tdiv (grantedSize K c) K.SYSTEM_FRAME_SIZE_SAMPLES = 2 := by
          rw [hg]; exact Int.mul_tdiv_cancel_left _ hS0
        have h1 : Int.tdiv 2 2 = 1 := by decide
        refine ⟨t1, ?_, ?_⟩
        · rw [t2, hfac, h2, h1]
        · rw [t3, t2, hfac, h2, h1, hmono, hg, hD]; ring
      · have h4 : Int.tdiv (grantedSize K c) K.SYSTEM_FRAME_SIZE_SAMPLES = 4 := by
          rw [hg]; exact Int.mul_tdiv_cancel_left _ hS0
        have h2 : Int.tdiv 4 2 = 2 := by decide
        refine ⟨t1, ?_, ?_⟩
        · rw [t2, hfac, h4, h2]; decide
        · rw [t3, t2, hfac, h4, h2, hmono, hg, hD]; ring

/-- The frame size, the number of channels, the block sizes and the
short-frame setting after `Init`, in terms of its first two parts. -/
theorem Init_frame_sizes (K : Consts) (c : CClient F) :
    (Init K c).iOPUSFrameSizeSamples
        = (if (Init K c).eAudioCompressionType = EAudComprType.CT_OPUS then
            K.DOUBLE_SYSTEM_FRAME_SIZE_SAMPLES
          else K.SYSTEM_FRAME_SIZE_SAMPLES)
      ∧ ((Init K c).iNumAudioChannels = 1 ∨ (Init K c).iNumAudioChannels = 2)
      ∧ (Init K c).iStereoBlockSizeSam = 2 * (Init K c).iMonoBlockSizeSam
      ∧ (Init K c).bEnableOPUS64 = c.bEnableOPUS64 := by
  obtain ⟨_, _, e3, _⟩ := Init_eq_InitCompressionType K c
  obtain ⟨a1, _, _, _, _, _, a7, a8⟩ :=
    InitAudioCoding_spec K (InitCompressionType K (InitBufferSize K c))
  have hfr := Init_eq_InitAudioCoding (fun d : CClient F => d.iOPUSFrameSizeSamples)
    (fun _ _ _ _ => rfl) (fun _ _ => rfl) (fun _ _ => rfl) K c
  have hch := Init_eq_InitAudioCoding (fun d : CClient F => d.iNumAudioChannels)
    (fun _ _ _ _ => rfl) (fun _ _ => rfl) (fun _ _ => rfl) K c
  have hmo := Init_eq_InitAudioCoding (fun d : CClient F => d.iMonoBlockSizeSam)
    (fun _ _ _ _ => rfl) (fun _ _ => rfl) (fun _ _ => rfl) K c
  have hen := Init_eq_InitAudioCoding (fun d : CClient F => d.bEnableOPUS64)
    (fun _ _ _ _ => rfl) (fun _ _ => rfl) (fun _ _ => rfl) K c
  have k1 : ∀ d : CClient F, (InitAudioCoding K d).bEnableOPUS64 = d.bEnableOPUS64 := by
    intro d; unfold InitAudioCoding; split <;> split <;> rfl
  have k2 : ∀ d : CClient F, (InitCompressionType K d).bEnableOPUS64 = d.bEnableOPUS64 := by
    intro d; unfold InitCompressionType; split <;> split <;> rfl
  have hst : (Init K c).iStereoBlockSizeSam
      = 2 * (InitAudioCoding K (InitCompressionType K (InitBufferSize K c))).iMonoBlockSizeSam := by
    simp [Init]
  refine ⟨?_, ?_, ?_, ?_⟩
  · rw [hfr, e3]
    exact a8
  · have : (Init K c).iNumAudioChannels
        = (if (InitCompressionType K (InitBufferSize K c)).eAudioChannelConf
            = EAudChanConf.CC_MONO then 1 else 2) := hch.trans a7
    rw [this]
    split
    · exact Or.inl rfl
    · exact Or.inr rfl
  · rw [hst, hmo]
  · rw [hen, k1, k2, InitBufferSize_bEnableOPUS64]

/-- C24. Sub-frame slices stay inside the audio buffer. With
`DOUBLE_SYSTEM_FRAME_SIZE_SAMPLES = 2 * SYSTEM_FRAME_SIZE_SAMPLES`, a positive
frame size and the candidate factors 1, 2 and 4: after every `Init`
`iSndCrdFrameSizeFactor >= 1`,
`iSndCrdFrameSizeFactor * iOPUSFrameSizeSamples == iMonoBlockSizeSam` and
`iStereoBlockSizeSam == 2 * iMonoBlockSizeSam`, the number of channels is 1 or
2; hence for every `0 <= i < iSndCrdFrameSizeFactor` the slice that starts at
`i * iNumAudioChannels * iOPUSFrameSizeSamples` and has
`iNumAudioChannels * iOPUSFrameSizeSamples` samples lies within
`[0, iStereoBlockSizeSam)`. -/
theorem Init_subframe_slices (K : Consts) (c : CClient F)
    (hS : 0 < K.SYSTEM_FRAME_SIZE_SAMPLES)
    (hD : K.DOUBLE_SYSTEM_FRAME_SIZE_SAMPLES = 2 * K.SYSTEM_FRAME_SIZE_SAMPLES)
    (hP : K.FRAME_SIZE_FACTOR_PREFERRED = 1) (hDf : K.FRAME_SIZE_FACTOR_DEFAULT = 2)
    (hSf : K.FRAME_SIZE_FACTOR_SAFE = 4) :
    1 ≤ (Init K c).iSndCrdFrameSizeFactor
      ∧ (Init K c).iSndCrdFrameSizeFactor * (Init K c).iOPUSFrameSizeSamples
        = (Init K c).iMonoBlockSizeSam
      ∧ (Init K c).iStereoBlockSizeSam = 2 * (Init K c).iMonoBlockSizeSam
      ∧ ((Init K c).iNumAudioChannels = 1 ∨ (Init K c).iNumAudioChannels = 2)
      ∧ ∀ i : Int, 0 ≤ i → i < (Init K c).iSndCrdFrameSizeFactor →
          0 ≤ i * (Init K c).iNumAudioChannels * (Init K c).iOPUSFrameSizeSamples
            ∧ i * (Init K c).iNumAudioChannels * (Init K c).iOPUSFrameSizeSamples
                + (Init K c).iNumAudioChannels * (Init K c).iOPUSFrameSizeSamples
              ≤ (Init K c).iStereoBlockSizeSam := by
  obtain ⟨e1, _, e3, e4⟩ := Init_eq_InitCompressionType K c
  obtain ⟨f1, f2, f3, _⟩ := Init_frame_sizes K c
  have hmode := InitCompressionType_InitBufferSize_mode K c hS hD hP hDf hSf
  rw [← e1, ← e3, ← e4] at hmode
  have hfac : 1 ≤ (Init K c).iSndCrdFrameSizeFactor := by
    rcases hmode with ⟨_, _, h, _⟩ | ⟨_, h, _⟩
    · rw [h]
    · exact h
  have hfr0 : 0 < (Init K c).iOPUSFrameSizeSamples := by
    rw [f1]; split <;> omega
  have hprod : (Init K c).iSndCrdFrameSizeFactor * (Init K c).iOPUSFrameSizeSamples
      = (Init K c).iMonoBlockSizeSam := by
    rcases hmode with ⟨ht, _, h, hm⟩ | ⟨ht, _, hm⟩
    · rw [f1, ht, if_neg (by decide), h, hm, one_mul]
    · rw [f1, ht, if_pos rfl, hm]
  refine ⟨hfac, hprod, f3, f2, ?_⟩
  intro i hi0 hi
  have h1 : (i + 1) * (Init K c).iOPUSFrameSizeSamples
      ≤ (Init K c).iSndCrdFrameSizeFactor * (Init K c).iOPUSFrameSizeSamples :=
    mul_le_mul_of_nonneg_right (by omega) (le_of_lt hfr0)
  have h2 : 0 ≤ i * (Init K c).iOPUSFrameSizeSamples := mul_nonneg hi0 (le_of_lt hfr0)
  rw [f3, ← hprod]
  rcases f2 with hc | hc
  · rw [hc]
    constructor
    · linarith
    · linarith
  · rw [hc]
    constructor
    · linarith
    · linarith

/-- Instance of `Init_subframe_slices`: frame sizes 64 and 128, the device
grants the safe size of 256 samples: factor 2, frames of 128 samples, mono
block 256. -/
theorem Init_subframe_slices_witness :
    (0 < stdConsts.SYSTEM_FRAME_SIZE_SAMPLES
        ∧ stdConsts.DOUBLE_SYSTEM_FRAME_SIZE_SAMPLES = 2 * stdConsts.SYSTEM_FRAME_SIZE_SAMPLES
        ∧ stdConsts.FRAME_SIZE_FACTOR_PREFERRED = 1 ∧ stdConsts.FRAME_SIZE_FACTOR_DEFAULT = 2
        ∧ stdConsts.FRAME_SIZE_FACTOR_SAFE = 4)
      ∧ (Init stdConsts (exampleClient stdConsts (exampleSound 256) false)).iSndCrdFrameSizeFactor
          * (Init stdConsts (exampleClient stdConsts (exampleSound 256)
            false)).iOPUSFrameSizeSamples
        = (Init stdConsts (exampleClient stdConsts (exampleSound 256) false)).iMonoBlockSizeSam
      ∧ (Init stdConsts (exampleClient stdConsts (exampleSound 256) false)).iSndCrdFrameSizeFactor
        = 2 :=
  ⟨by decide,
    (Init_subframe_slices stdConsts (exampleClient stdConsts (exampleSound 256) false)
      (by decide) (by decide) (by decide) (by decide) (by decide)).2.1,
    by decide⟩

/-- C25. Short-frame mode is used only when enabled. With
`DOUBLE_SYSTEM_FRAME_SIZE_SAMPLES = 2 * SYSTEM_FRAME_SIZE_SAMPLES`, a positive
frame size and the candidate factors 1, 2 and 4: after every `Init`,
`eAudioCompressionType == CT_OPUS64` implies that `bEnableOPUS64` is true
(`Init` does not change that setting); with short-frame mode disabled every
granted size yields `CT_OPUS` with
`iOPUSFrameSizeSamples == DOUBLE_SYSTEM_FRAME_SIZE_SAMPLES`; and
`iOPUSFrameSizeSamples == SYSTEM_FRAME_SIZE_SAMPLES` exactly when the
compression type is `CT_OPUS64`. -/
theorem Init_short_frame_mode (K : Consts) (c : CClient F)
    (hS : 0 < K.SYSTEM_FRAME_SIZE_SAMPLES)
    (hD : K.DOUBLE_SYSTEM_FRAME_SIZE_SAMPLES = 2 * K.SYSTEM_FRAME_SIZE_SAMPLES)
    (hP : K.FRAME_SIZE_FACTOR_PREFERRED = 1) (hDf : K.FRAME_SIZE_FACTOR_DEFAULT = 2)
    (hSf : K.FRAME_SIZE_FACTOR_SAFE = 4) :
    ((Init K c).eAudioCompressionType = EAudComprType.CT_OPUS64 →
        (Init K c).bEnableOPUS64 = true)
      ∧ (Init K c).bEnableOPUS64 = c.bEnableOPUS64
      ∧ (c.bEnableOPUS64 = false →
          (Init K c).eAudioCompressionType = EAudComprType.CT_OPUS
            ∧ (Init K c).iOPUSFrameSizeSamples = K.DOUBLE_SYSTEM_FRAME_SIZE_SAMPLES)
      ∧ ((Init K c).iOPUSFrameSizeSamples = K.SYSTEM_FRAME_SIZE_SAMPLES
          ↔ (Init K c).eAudioCompressionType = EAudComprType.CT_OPUS64) := by
  obtain ⟨e1, _, e3, e4⟩ := Init_eq_InitCompressionType K c
  obtain ⟨f1, _, _, f4⟩ := Init_frame_sizes K c
  have hmode := InitCompressionType_InitBufferSize_mode K c hS hD hP hDf hSf
  rw [← e1, ← e3, ← e4] at hmode
  refine ⟨?_, f4, ?_, ?_⟩
  · intro ht
    rw [f4]
    rcases hmode with ⟨_, he, _⟩ | ⟨h, _⟩
    · exact he
    · rw [h] at ht; exact absurd ht (by decide)
  · intro hdis
    rcases hmode with ⟨_, he, _⟩ | ⟨h, _⟩
    · rw [hdis] at he; exact absurd he (by decide)
    · exact ⟨h, by rw [f1, h, if_pos rfl]⟩
  · rcases hmode with ⟨h, _⟩ | ⟨h, _⟩
    · rw [f1, h, if_neg (by decide)]
      exact ⟨fun _ => rfl, fun _ => rfl⟩
    · rw [f1, h, if_pos rfl]
      constructor
      · intro hh; omega
      · intro hh; exact absurd hh (by decide)

/-- Instance of `Init_short_frame_mode`: frame sizes 64 and 128, short-frame
mode disabled and the preferred size of 64 samples granted: the long frames
are used. -/
theorem Init_short_frame_mode_witness :
    (0 < stdConsts.SYSTEM_FRAME_SIZE_SAMPLES
        ∧ stdConsts.DOUBLE_SYSTEM_FRAME_SIZE_SAMPLES = 2 * stdConsts.SYSTEM_FRAME_SIZE_SAMPLES
        ∧ stdConsts.FRAME_SIZE_FACTOR_PREFERRED = 1 ∧ stdConsts.FRAME_SIZE_FACTOR_DEFAULT = 2
        ∧ stdConsts.FRAME_SIZE_FACTOR_SAFE = 4)
      ∧ (Init stdConsts (exampleClient stdConsts (exampleSound 64) false)).eAudioCompressionType
        = EAudComprType.CT_OPUS
      ∧ (Init stdConsts (exampleClient stdConsts (exampleSound 64) false)).iOPUSFrameSizeSamples
        = stdConsts.DOUBLE_SYSTEM_FRAME_SIZE_SAMPLES :=
  ⟨by decide,
    (Init_short_frame_mode stdConsts (exampleClient stdConsts (exampleSound 64) false)
      (by decide) (by decide) (by decide) (by decide) (by decide)).2.2.1 rfl⟩

/-! ## The gain rate limiter: no update is lost -/

/-- The gain tables after a timer expiry. -/
theorem TimerGainTimeout_gains (K : Consts) (fne : F → F → Bool) (c : CClient F) :
    (TimerGainTimeout K fne c).newGain = c.newGain
      ∧ ∀ j, (TimerGainTimeout K fne c).oldGain j =
          if (c.minGainId ≤ j ∧ j < c.maxGainId) ∧ fne (c.newGain j) (c.oldGain j) = true then
            c.newGain j
          else c.oldGain j := by
  let c' : CClient F := { c with TimerGain := { c.TimerGain with bActive := false } }
  obtain ⟨_, _, h3⟩ :=
    OnTimerLoop_spec fne (c'.maxGainId - c'.minGainId).toNat c'.minGainId c' false
  have hrange : ∀ j : Int, (c'.minGainId ≤ j ∧ j < c'.minGainId +
      (((c'.maxGainId - c'.minGainId).toNat : Nat) : Int))
        ↔ (c.minGainId ≤ j ∧ j < c.maxGainId) := by
    intro j
    show (c.minGainId ≤ j ∧ j < c.minGainId + (((c.maxGainId - c.minGainId).toNat : Nat) : Int))
      ↔ _
    omega
  simp only [hrange] at h3
  have hnew : (OnTimerLoop fne (c'.maxGainId - c'.minGainId).toNat c'.minGainId
      (c', false)).1.newGain = c.newGain :=
    OnTimerLoop_inv (fun d : CClient F => d.newGain) (fun _ _ _ => rfl) fne _ _ c' false
  have heq : TimerGainTimeout K fne c = OnTimerRemoteChanGain K fne c' := rfl
  rw [heq, OnTimerRemoteChanGain_eq]
  constructor
  · split
    · rw [StartDelayTimer_newGain]; exact hnew
    · exact hnew
  · intro j
    split
    · rw [StartDelayTimer_oldGain]; exact h3 j
    · exact h3 j

/-- After a timer expiry in a state whose pending gains all lie in the range,
every gain sent last equals the gain requested last. -/
theorem TimerGainTimeout_clears (K : Consts) (fne : F → F → Bool) (c : CClient F)
    (hfne : ∀ a b, fne a b = true ↔ a ≠ b)
    (hinv : ∀ j, c.newGain j ≠ c.oldGain j → c.minGainId ≤ j ∧ j < c.maxGainId) :
    ∀ j, (TimerGainTimeout K fne c).newGain j = (TimerGainTimeout K fne c).oldGain j := by
  obtain ⟨h1, h2⟩ := TimerGainTimeout_gains K fne c
  intro j
  rw [h1, h2]
  split
  · rfl
  · rename_i hn
    by_contra hne
    exact hn ⟨hinv j hne, (hfne _ _).mpr hne⟩

/-- The invariant of the gain rate limiter is kept by every event. -/
theorem applyGainEvent_pending (K : Consts) (fne : F → F → Bool)
    (hfne : ∀ a b, fne a b = true ↔ a ≠ b) (c : CClient F) (e : GainEvent F)
    (hinv : ∀ j, c.newGain j ≠ c.oldGain j →
      (c.minGainId ≤ j ∧ j < c.maxGainId) ∧ c.TimerGain.bActive = true) :
    ∀ j, (applyGainEvent K fne c e).newGain j ≠ (applyGainEvent K fne c e).oldGain j →
      ((applyGainEvent K fne c e).minGainId ≤ j ∧ j < (applyGainEvent K fne c e).maxGainId)
        ∧ (applyGainEvent K fne c e).TimerGain.bActive = true := by
  cases e with
  | SetRemoteChanGain iId g b =>
    show ∀ j, (SetRemoteChanGain K c iId g b).newGain j ≠ (SetRemoteChanGain K c iId g b).oldGain j →
      ((SetRemoteChanGain K c iId g b).minGainId ≤ j ∧ j < (SetRemoteChanGain K c iId g b).maxGainId)
        ∧ (SetRemoteChanGain K c iId g b).TimerGain.bActive = true
    cases hT : c.TimerGain.bActive with
    | true =>
      obtain ⟨a1, a2, a3, a4, a5, _⟩ := SetRemoteChanGain_armed K c iId g b hT
      intro j hj
      rw [a1, a2, a3]
      rw [a4, a5] at hj
      refine ⟨?_, rfl⟩
      by_cases hji : j = iId
      · subst hji
        constructor
        · split <;> omega
        · split <;> omega
      · rw [Function.update_noteq hji] at hj
        have := (hinv j hj).1
        constructor
        · split <;> omega
        · split <;> omega
    | false =>
      obtain ⟨a1, _, _, a4, a5, _⟩ := SetRemoteChanGain_idle K c iId g b hT
      intro j hj
      rw [a4, a5] at hj
      by_cases hji : j = iId
      · subst hji
        simp at hj
      · rw [Function.update_noteq hji, Function.update_noteq hji] at hj
        have := (hinv j hj).2
        rw [hT] at this
        exact absurd this (by decide)
  | TimerExpiry =>
    show ∀ j, (if c.TimerGain.bActive = true then TimerGainTimeout K fne c else c).newGain j
        ≠ (if c.TimerGain.bActive = true then TimerGainTimeout K fne c else c).oldGain j → _
    cases hT : c.TimerGain.bActive with
    | true =>
      intro j hj
      rw [if_pos rfl] at hj
      exact absurd (TimerGainTimeout_clears K fne c hfne (fun i hi => (hinv i hi).1) j) hj
    | false =>
      intro j hj
      rw [if_neg (by decide)] at hj
      have := (hinv j hj).2
      rw [hT] at this
      exact absurd this (by decide)

theorem sentGains_append (f : Int → F) (l1 l2 : List (Int × F)) :
    sentGains f (l1 ++ l2) = sentGains (sentGains f l1) l2 := by
  induction l1 generalizing f with
  | nil => rfl
  | cons a l ih =>
    obtain ⟨i, g⟩ := a
    simp only [List.cons_append, sentGains]
    exact ih _

/-- The messages of a timer expiry, taken as updates, give the table of gains
that the expiry leaves. -/
theorem sentGains_filter_map (p : Int → Bool) (g : Int → F) (l : List Int) :
    ∀ (f : Int → F) (j : Int),
      sentGains f ((l.filter p).map (fun i => (i, g i))) j
        = if j ∈ l ∧ p j = true then g j else f j := by
  induction l with
  | nil => intro f j; simp [sentGains]
  | cons i l ih =>
    intro f j
    by_cases hp : p i = true
    · rw [List.filter_cons_of_pos hp]
      simp only [List.map_cons, sentGains]
      rw [ih]
      by_cases hj : j = i
      · subst hj
        simp [hp]
      · simp [hj, Function.update_noteq hj]
    · rw [List.filter_cons_of_neg hp]
      rw [ih]
      by_cases hj : j = i
      · subst hj
        have hp' : p j = false := by simpa using hp
        simp [hp']
      · simp [hj]

/-- The gain messages of a timer expiry. -/
theorem TimerGainTimeout_sent (K : Consts) (fne : F → F → Bool) (c : CClient F) :
    gainsSent (TimerGainTimeout K fne c).log = gainsSent c.log ++ pendingSends fne c := by
  let c' : CClient F := { c with TimerGain := { c.TimerGain with bActive := false } }
  obtain ⟨_, h2, _⟩ :=
    OnTimerLoop_spec fne (c'.maxGainId - c'.minGainId).toNat c'.minGainId c' false
  have heq : TimerGainTimeout K fne c = OnTimerRemoteChanGain K fne c' := rfl
  rw [heq, OnTimerRemoteChanGain_eq]
  split
  · rw [StartDelayTimer_log]; exact h2
  · exact h2

/-- One event: the requested gains follow the calls, and the gains sent last
follow the messages. -/
theorem applyGainEvent_tables (K : Consts) (fne : F → F → Bool) (c : CClient F)
    (e : GainEvent F) :
    (applyGainEvent K fne c e).newGain = requestedGains c.newGain [e]
      ∧ ∃ sent, gainsSent (applyGainEvent K fne c e).log = gainsSent c.log ++ sent
          ∧ (applyGainEvent K fne c e).oldGain = sentGains c.oldGain sent := by
  cases e with
  | SetRemoteChanGain iId g b =>
    show (SetRemoteChanGain K c iId g b).newGain = Function.update c.newGain iId g
      ∧ ∃ sent, gainsSent (SetRemoteChanGain K c iId g b).log = gainsSent c.log ++ sent
          ∧ (SetRemoteChanGain K c iId g b).oldGain = sentGains c.oldGain sent
    cases hT : c.TimerGain.bActive with
    | true =>
      obtain ⟨_, _, _, a4, a5, a6⟩ := SetRemoteChanGain_armed K c iId g b hT
      exact ⟨a5, [], by rw [a6, List.append_nil], by rw [a4]; rfl⟩
    | false =>
      obtain ⟨_, _, _, a4, a5, a6⟩ := SetRemoteChanGain_idle K c iId g b hT
      refine ⟨a5, [(iId, g)], ?_, ?_⟩
      · rw [a6, gainsSent_append]; rfl
      · rw [a4]; rfl
  | TimerExpiry =>
    show (if c.TimerGain.bActive = true then TimerGainTimeout K fne c else c).newGain = c.newGain
      ∧ ∃ sent, gainsSent (if c.TimerGain.bActive = true then TimerGainTimeout K fne c
            else c).log = gainsSent c.log ++ sent
          ∧ (if c.TimerGain.bActive = true then TimerGainTimeout K fne c else c).oldGain
            = sentGains c.oldGain sent
    cases hT : c.TimerGain.bActive with
    | true =>
      rw [if_pos rfl]
      obtain ⟨g1, g2⟩ := TimerGainTimeout_gains K fne c
      refine ⟨g1, pendingSends fne c, TimerGainTimeout_sent K fne c, ?_⟩
      funext j
      rw [g2 j]
      unfold pendingSends
      rw [sentGains_filter_map (fun i => fne (c.newGain i) (c.oldGain i)) c.newGain (dirtyIds c)
        c.oldGain j]
      simp only [dirtyIds_mem]
    | false =>
      rw [if_neg (by decide)]
      exact ⟨rfl, [], by rw [List.append_nil], rfl⟩

theorem requestedGains_cons (f : Int → F) (e : GainEvent F) (l : List (GainEvent F)) :
    requestedGains f (e :: l) = requestedGains (requestedGains f [e]) l := by
  cases e <;> rfl

/-- A sequence of events: the requested gains follow the calls, and the gains
sent last follow the messages. -/
theorem runGainEvents_tables (K : Consts) (fne : F → F → Bool) :
    ∀ (evs : List (GainEvent F)) (c : CClient F),
      (runGainEvents K fne c evs).newGain = requestedGains c.newGain evs
        ∧ ∃ sent, gainsSent (runGainEvents K fne c evs).log = gainsSent c.log ++ sent
            ∧ (runGainEvents K fne c evs).oldGain = sentGains c.oldGain sent := by
  intro evs
  induction evs with
  | nil => intro c; exact ⟨rfl, [], by rw [List.append_nil]; rfl, rfl⟩
  | cons e l ih =>
    intro c
    obtain ⟨a1, s1, a2, a3⟩ := applyGainEvent_tables K fne c e
    obtain ⟨b1, s2, b2, b3⟩ := ih (applyGainEvent K fne c e)
    refine ⟨?_, s1 ++ s2, ?_, ?_⟩
    · show (runGainEvents K fne (applyGainEvent K fne c e) l).newGain = _
      rw [b1, a1]
      exact (requestedGains_cons _ _ _).symm
    · show gainsSent (runGainEvents K fne (applyGainEvent K fne c e) l).log = _
      rw [b2, a2, List.append_assoc]
    · show (runGainEvents K fne (applyGainEvent K fne c e) l).oldGain = _
      rw [b3, a3, sentGains_append]

theorem gainsSentSince_of_append (l0 l : List (Call F)) (sent : List (Int × F))
    (h : gainsSent l = gainsSent l0 ++ sent) : gainsSentSince l0 l = sent := by
  unfold gainsSentSince
  rw [h, List.drop_left]

/-- C26. No gain update is lost. The limiter is driven by calls of
`SetRemoteChanGain` and by timer expiries, which happen only while the timer is
armed and then leave it idle and run `OnTimerRemoteChanGain`; the comparison
`!=` of gains is true exactly for different values. Starting from a state with
`newGain == oldGain` (such as the idle state after construction), in every
state reached: each id with `newGain[id] != oldGain[id]` lies in
`[minGainId, maxGainId)` and the timer is armed; `newGain` holds, for every id,
the gain requested last by the calls (the initial entry where there was no
call); `oldGain` holds, for every id, the gain of the last message sent to the
channel since the start (the initial entry where none was sent). So whenever
the timer is idle, the gain sent last equals the gain requested last, for
every id. This needs no bound on the ids of the calls. -/
theorem GainLimiter_no_update_lost (K : Consts) (fne : F → F → Bool) (c0 : CClient F)
    (evs : List (GainEvent F))
    (hfne : ∀ a b, fne a b = true ↔ a ≠ b)
    (heq : ∀ j, c0.newGain j = c0.oldGain j) :
    (∀ j, (runGainEvents K fne c0 evs).newGain j ≠ (runGainEvents K fne c0 evs).oldGain j →
        ((runGainEvents K fne c0 evs).minGainId ≤ j
          ∧ j < (runGainEvents K fne c0 evs).maxGainId)
        ∧ (runGainEvents K fne c0 evs).TimerGain.bActive = true)
      ∧ (runGainEvents K fne c0 evs).newGain = requestedGains c0.newGain evs
      ∧ gainsSent (runGainEvents K fne c0 evs).log
        = gainsSent c0.log ++ gainsSentSince c0.log (runGainEvents K fne c0 evs).log
      ∧ (runGainEvents K fne c0 evs).oldGain
        = sentGains c0.oldGain (gainsSentSince c0.log (runGainEvents K fne c0 evs).log)
      ∧ ((runGainEvents K fne c0 evs).TimerGain.bActive = false →
          ∀ j, sentGains c0.oldGain (gainsSentSince c0.log (runGainEvents K fne c0 evs).log) j
            = requestedGains c0.newGain evs j) := by
  have hrun : ∀ (l : List (GainEvent F)) (c : CClient F),
      (∀ j, c.newGain j ≠ c.oldGain j →
        (c.minGainId ≤ j ∧ j < c.maxGainId) ∧ c.TimerGain.bActive = true) →
      ∀ j, (runGainEvents K fne c l).newGain j ≠ (runGainEvents K fne c l).oldGain j →
        ((runGainEvents K fne c l).minGainId ≤ j ∧ j < (runGainEvents K fne c l).maxGainId)
          ∧ (runGainEvents K fne c l).TimerGain.bActive = true := by
    intro l
    induction l with
    | nil => intro c h; exact h
    | cons e l ih =>
      intro c h
      exact ih (applyGainEvent K fne c e) (applyGainEvent_pending K fne hfne c e h)
  have hinv := hrun evs c0 (fun j hj => absurd (heq j) hj)
  obtain ⟨t1, sent, t2, t3⟩ := runGainEvents_tables K fne evs c0
  have hs := gainsSentSince_of_append c0.log (runGainEvents K fne c0 evs).log sent t2
  rw [hs]
  refine ⟨hinv, t1, t2, t3, fun hT j => ?_⟩
  rw [← t3, ← t1]
  by_contra hne
  have := (hinv j (fun h => hne h.symm)).2
  rw [hT] at this
  exact absurd this (by decide)

/-- Instance of `GainLimiter_no_update_lost`: gains are rationals; channel 3 is
set to 1 (sent at once), then to 2 while the timer is armed, and the timer
expires twice: the messages sent are `(3, 1)` and `(3, 2)`, the timer is idle
and the gain sent last for channel 3 is the gain requested last, 2. -/
theorem GainLimiter_no_update_lost_witness :
    (runGainEvents stdConsts (fun a b : Rat => decide (a ≠ b))
        (exampleClient stdConsts (exampleSound 128) false)
        [GainEvent.SetRemoteChanGain 3 1 false, GainEvent.SetRemoteChanGain 3 2 false,
          GainEvent.TimerExpiry, GainEvent.TimerExpiry]).TimerGain.bActive = false
      ∧ gainsSentSince (exampleClient stdConsts (exampleSound 128) false).log
          (runGainEvents stdConsts (fun a b : Rat => decide (a ≠ b))
            (exampleClient stdConsts (exampleSound 128) false)
            [GainEvent.SetRemoteChanGain 3 1 false, GainEvent.SetRemoteChanGain 3 2 false,
              GainEvent.TimerExpiry, GainEvent.TimerExpiry]).log = [(3, 1), (3, 2)]
      ∧ requestedGains (exampleClient stdConsts (exampleSound 128) false).newGain
          [GainEvent.SetRemoteChanGain 3 1 false, GainEvent.SetRemoteChanGain 3 2 false,
            GainEvent.TimerExpiry, GainEvent.TimerExpiry] 3 = 2
      ∧ sentGains (exampleClient stdConsts (exampleSound 128) false).oldGain
          (gainsSentSince (exampleClient stdConsts (exampleSound 128) false).log
            (runGainEvents stdConsts (fun a b : Rat => decide (a ≠ b))
              (exampleClient stdConsts (exampleSound 128) false)
              [GainEvent.SetRemoteChanGain 3 1 false, GainEvent.SetRemoteChanGain 3 2 false,
                GainEvent.TimerExpiry, GainEvent.TimerExpiry]).log) 3
        = requestedGains (exampleClient stdConsts (exampleSound 128) false).newGain
          [GainEvent.SetRemoteChanGain 3 1 false, GainEvent.SetRemoteChanGain 3 2 false,
            GainEvent.TimerExpiry, GainEvent.TimerExpiry] 3 :=
  ⟨by decide, by decide, by decide,
    (GainLimiter_no_update_lost stdConsts (fun a b : Rat => decide (a ≠ b))
      (exampleClient stdConsts (exampleSound 128) false)
      [GainEvent.SetRemoteChanGain 3 1 false, GainEvent.SetRemoteChanGain 3 2 false,
        GainEvent.TimerExpiry, GainEvent.TimerExpiry]
      (fun a b => by simp)
      (fun _ => rfl)).2.2.2.2 (by decide) 3⟩

/-! ## The gain rate limiter: indices stay in bounds -/

/-- The bounds `0 <= minGainId <= MAX_NUM_CHANNELS` and
`0 <= maxGainId <= MAX_NUM_CHANNELS` are kept by every operation of the limiter
whose channel id is valid. -/
theorem applyGainOp_bounds (K : Consts) (fne : F → F → Bool) (c : CClient F) (op : GainOp F)
    (hop : op.idInRange K)
    (h : (0 ≤ c.minGainId ∧ c.minGainId ≤ K.MAX_NUM_CHANNELS)
      ∧ (0 ≤ c.maxGainId ∧ c.maxGainId ≤ K.MAX_NUM_CHANNELS)) :
    (0 ≤ (applyGainOp K fne c op).minGainId
        ∧ (applyGainOp K fne c op).minGainId ≤ K.MAX_NUM_CHANNELS)
      ∧ (0 ≤ (applyGainOp K fne c op).maxGainId
        ∧ (applyGainOp K fne c op).maxGainId ≤ K.MAX_NUM_CHANNELS) := by
  obtain ⟨⟨h1, h2⟩, h3, h4⟩ := h
  cases op with
  | SetRemoteChanGain iId g b =>
    obtain ⟨hi1, hi2⟩ : 0 ≤ iId ∧ iId < K.MAX_NUM_CHANNELS := hop
    show (0 ≤ (SetRemoteChanGain K c iId g b).minGainId
        ∧ (SetRemoteChanGain K c iId g b).minGainId ≤ K.MAX_NUM_CHANNELS)
      ∧ (0 ≤ (SetRemoteChanGain K c iId g b).maxGainId
        ∧ (SetRemoteChanGain K c iId g b).maxGainId ≤ K.MAX_NUM_CHANNELS)
    cases hT : c.TimerGain.bActive with
    | true =>
      obtain ⟨_, a2, a3, _⟩ := SetRemoteChanGain_armed K c iId g b hT
      rw [a2, a3]
      refine ⟨⟨?_, ?_⟩, ?_, ?_⟩ <;> split <;> omega
    | false =>
      obtain ⟨_, a2, a3, _⟩ := SetRemoteChanGain_idle K c iId g b hT
      rw [a2, a3]
      omega
  | OnTimerRemoteChanGain =>
    show (0 ≤ (OnTimerRemoteChanGain K fne c).minGainId
        ∧ (OnTimerRemoteChanGain K fne c).minGainId ≤ K.MAX_NUM_CHANNELS)
      ∧ (0 ≤ (OnTimerRemoteChanGain K fne c).maxGainId
        ∧ (OnTimerRemoteChanGain K fne c).maxGainId ≤ K.MAX_NUM_CHANNELS)
    rcases OnTimerRemoteChanGain_range K fne c with ⟨r1, r2⟩ | ⟨r1, r2⟩ <;> rw [r1, r2] <;> omega
  | TimerGainTimeout =>
    show (0 ≤ (TimerGainTimeout K fne c).minGainId
        ∧ (TimerGainTimeout K fne c).minGainId ≤ K.MAX_NUM_CHANNELS)
      ∧ (0 ≤ (TimerGainTimeout K fne c).maxGainId
        ∧ (TimerGainTimeout K fne c).maxGainId ≤ K.MAX_NUM_CHANNELS)
    have hr := OnTimerRemoteChanGain_range K fne
      { c with TimerGain := { c.TimerGain with bActive := false } }
    have heq : TimerGainTimeout K fne c = OnTimerRemoteChanGain K fne
      { c with TimerGain := { c.TimerGain with bActive := false } } := rfl
    rw [heq]
    rcases hr with ⟨r1, r2⟩ | ⟨r1, r2⟩
    · rw [r1, r2]; omega
    · rw [r1, r2]
      exact ⟨⟨h1, h2⟩, h3, h4⟩
  | StartDelayTimer =>
    show (0 ≤ (StartDelayTimer K c).minGainId
        ∧ (StartDelayTimer K c).minGainId ≤ K.MAX_NUM_CHANNELS)
      ∧ (0 ≤ (StartDelayTimer K c).maxGainId
        ∧ (StartDelayTimer K c).maxGainId ≤ K.MAX_NUM_CHANNELS)
    rw [StartDelayTimer_min, StartDelayTimer_max]
    omega

theorem runGainOps_bounds (K : Consts) (fne : F → F → Bool) :
    ∀ (ops : List (GainOp F)) (c : CClient F), (∀ op ∈ ops, op.idInRange K) →
      ((0 ≤ c.minGainId ∧ c.minGainId ≤ K.MAX_NUM_CHANNELS)
        ∧ (0 ≤ c.maxGainId ∧ c.maxGainId ≤ K.MAX_NUM_CHANNELS)) →
      (0 ≤ (runGainOps K fne c ops).minGainId
          ∧ (runGainOps K fne c ops).minGainId ≤ K.MAX_NUM_CHANNELS)
        ∧ (0 ≤ (runGainOps K fne c ops).maxGainId
          ∧ (runGainOps K fne c ops).maxGainId ≤ K.MAX_NUM_CHANNELS) := by
  intro ops
  induction ops with
  | nil => intro c _ h; exact h
  | cons op ops ih =>
    intro c hops h
    exact ih _ (fun o ho => hops o (List.mem_cons_of_mem _ ho))
      (applyGainOp_bounds K fne c op (hops op (List.mem_cons_self _ _)) h)

/-- C27. Gain table indexing stays in bounds. Starting from a state with
`0 <= minGainId <= MAX_NUM_CHANNELS` and `0 <= maxGainId <= MAX_NUM_CHANNELS`,
and provided every call of `SetRemoteChanGain` has
`0 <= iId < MAX_NUM_CHANNELS`, every state reached through `SetRemoteChanGain`,
`OnTimerRemoteChanGain`, the timer expiry and `StartDelayTimer` keeps
`0 <= minGainId` and `maxGainId <= MAX_NUM_CHANNELS`, so every index `iId`
visited by the loop of `OnTimerRemoteChanGain` satisfies
`0 <= iId < MAX_NUM_CHANNELS`. `SetRemoteChanGain` itself performs no range
check: while the timer is armed an id at or beyond `maxGainId` moves
`maxGainId` to `iId + 1` and an id below `minGainId` moves `minGainId` to
`iId`, whatever the id is. `OnControllerInFaderLevel` calls it, in the
`HEADLESS` build only, for ids in `[0, MAX_NUM_CHANNELS)` and otherwise only
emits its signal. -/
theorem GainLimiter_index_bounds (K : Consts) (fne : F → F → Bool) (c0 : CClient F)
    (ops : List (GainOp F)) (hops : ∀ op ∈ ops, op.idInRange K)
    (hmin : 0 ≤ c0.minGainId ∧ c0.minGainId ≤ K.MAX_NUM_CHANNELS)
    (hmax : 0 ≤ c0.maxGainId ∧ c0.maxGainId ≤ K.MAX_NUM_CHANNELS) :
    (0 ≤ (runGainOps K fne c0 ops).minGainId
        ∧ (runGainOps K fne c0 ops).maxGainId ≤ K.MAX_NUM_CHANNELS)
      ∧ (∀ j ∈ dirtyIds (runGainOps K fne c0 ops), 0 ≤ j ∧ j < K.MAX_NUM_CHANNELS)
      ∧ (∀ (c : CClient F) (iId : Int) (g : F) (b : Bool), c.TimerGain.bActive = true →
          (c.maxGainId ≤ iId → (SetRemoteChanGain K c iId g b).maxGainId = iId + 1)
            ∧ (iId < c.minGainId → (SetRemoteChanGain K c iId g b).minGainId = iId))
      ∧ (∀ (CalcFaderGain : Int → F) (c : CClient F) (iChannelIdx iValue : Int),
          (0 ≤ iChannelIdx ∧ iChannelIdx < K.MAX_NUM_CHANNELS →
            OnControllerInFaderLevel K true CalcFaderGain c iChannelIdx iValue
              = emit (SetRemoteChanGain K c iChannelIdx (CalcFaderGain iValue) false)
                  (Call.EmitControllerInFaderLevel iChannelIdx iValue))
          ∧ (¬ (0 ≤ iChannelIdx ∧ iChannelIdx < K.MAX_NUM_CHANNELS) →
            OnControllerInFaderLevel K true CalcFaderGain c iChannelIdx iValue
              = emit c (Call.EmitControllerInFaderLevel iChannelIdx iValue))
          ∧ OnControllerInFaderLevel K false CalcFaderGain c iChannelIdx iValue
              = emit c (Call.EmitControllerInFaderLevel iChannelIdx iValue)) := by
  obtain ⟨⟨b1, _⟩, _, b4⟩ := runGainOps_bounds K fne ops c0 hops ⟨hmin, hmax⟩
  refine ⟨⟨b1, b4⟩, ?_, ?_, ?_⟩
  · intro j hj
    rw [dirtyIds_mem] at hj
    omega
  · intro c iId g b hT
    obtain ⟨_, a2, a3, _⟩ := SetRemoteChanGain_armed K c iId g b hT
    constructor
    · intro h
      rw [a3, if_pos h]
    · intro h
      rw [a2, if_pos h]
  · intro CalcFaderGain c iChannelIdx iValue
    refine ⟨?_, ?_, ?_⟩
    · intro h
      have h' : iChannelIdx ≥ 0 ∧ iChannelIdx < K.MAX_NUM_CHANNELS := h
      simp only [OnControllerInFaderLevel, if_pos h', if_true]
    · intro h
      have h' : ¬ (iChannelIdx ≥ 0 ∧ iChannelIdx < K.MAX_NUM_CHANNELS) := h
      simp only [OnControllerInFaderLevel, if_neg h', if_true]
    · simp [OnControllerInFaderLevel]

/-- Instance of `GainLimiter_index_bounds`: 150 channels, from the state after
construction; channels 3 and 149 are set and the timer expires. -/
theorem GainLimiter_index_bounds_witness :
    (0 ≤ (runGainOps stdConsts (fun a b : Rat => decide (a ≠ b))
          (exampleClient stdConsts (exampleSound 128) false)
          [GainOp.SetRemoteChanGain 3 1 false, GainOp.SetRemoteChanGain 149 2 false,
            GainOp.TimerGainTimeout]).minGainId
        ∧ (runGainOps stdConsts (fun a b : Rat => decide (a ≠ b))
          (exampleClient stdConsts (exampleSound 128) false)
          [GainOp.SetRemoteChanGain 3 1 false, GainOp.SetRemoteChanGain 149 2 false,
            GainOp.TimerGainTimeout]).maxGainId ≤ stdConsts.MAX_NUM_CHANNELS) :=
  (GainLimiter_index_bounds stdConsts (fun a b : Rat => decide (a ≠ b))
    (exampleClient stdConsts (exampleSound 128) false)
    [GainOp.SetRemoteChanGain 3 1 false, GainOp.SetRemoteChanGain 149 2 false,
      GainOp.TimerGainTimeout]
    (by
      intro op hop
      simp only [List.mem_cons, List.mem_singleton, List.not_mem_nil, or_false] at hop
      rcases hop with h | h | h <;> subst h
      · exact ⟨by decide, by decide⟩
      · exact ⟨by decide, by decide⟩
      · trivial)
    (by decide) (by decide)).1

/-! ## Delay estimate in single precision -/

end CClient

/-! ## Connection status of the client settings -/

namespace CClientSettings

/-- Every connection status function keeps "connected implies enabled". -/
theorem applyOp_connected_enabled (s : CClientSettings) (op : Op)
    (h : s.bConnected = true → s.bConnectionEnabled = true) :
    (s.applyOp op).bConnected = true → (s.applyOp op).bConnectionEnabled = true := by
  obtain ⟨sa, sn, r, d, e, k, sig⟩ := s
  cases op with
  | StartConnection a n =>
    simp only [applyOp, StartConnection]
    split
    · exact h
    · exact h
  | EndConnection =>
    simp only [applyOp, EndConnection]
    split
    · split
      · exact h
      · exact h
    · exact h
  | AckConnecting ack =>
    cases r <;> cases ack <;> simp_all [applyOp, AckConnecting]
  | AckDisconnecting ack =>
    cases d <;> cases ack <;> simp_all [applyOp, AckDisconnecting]
  | SetConnected b =>
    cases b <;> cases e <;> cases k <;> simp_all [applyOp, SetConnected]

theorem runOps_connected_enabled (ops : List Op) :
    ∀ s : CClientSettings, (s.bConnected = true → s.bConnectionEnabled = true) →
      (runOps s ops).bConnected = true → (runOps s ops).bConnectionEnabled = true := by
  induction ops with
  | nil => intro s h; exact h
  | cons op ops ih =>
    intro s h
    exact ih (s.applyOp op) (applyOp_connected_enabled s op h)

/-- C29. Connection status invariant of `CClientSettings`: starting from the
constructor state (the four flags false), after every sequence of calls of
`StartConnection`, `EndConnection`, `AckConnecting`, `AckDisconnecting` and
`SetConnected` with arbitrary arguments, `bConnected` implies
`bConnectionEnabled`. And `StartConnection` returns true if and only if the
connection is neither enabled nor already requested and the address is not
empty; it then sets `bConnectRequested`, stores the address, stores the name
(the address when the name is empty) and emits `ConnectRequested`; when it
returns false the state is unchanged. -/
theorem ConnectionStatus_invariant (ops : List Op) :
    ((runOps ctor ops).bConnected = true → (runOps ctor ops).bConnectionEnabled = true)
      ∧ ∀ (s : CClientSettings) (serverAddress serverName : String),
          ((s.StartConnection serverAddress serverName).2 = true
            ↔ (s.bConnectionEnabled = false ∧ s.bConnectRequested = false
              ∧ serverAddress ≠ ""))
          ∧ ((s.StartConnection serverAddress serverName).2 = true →
              (s.StartConnection serverAddress serverName).1
                = { s with
                    strServerAddress := serverAddress
                    strServerName := (if serverName = "" then serverAddress else serverName)
                    bConnectRequested := true
                    signals := s.signals ++ [CClientSettingsSignal.ConnectRequested] })
          ∧ ((s.StartConnection serverAddress serverName).2 = false →
              (s.StartConnection serverAddress serverName).1 = s) := by
  refine ⟨runOps_connected_enabled ops ctor (fun h => absurd h (by decide)), ?_⟩
  intro s a n
  have ha : a.isEmpty = false ↔ a ≠ "" := by
    rw [Ne, ← String.isEmpty_iff a]
    cases a.isEmpty <;> simp
  have hn : (n.isEmpty = true) = (n = "") := propext (String.isEmpty_iff n)
  by_cases hc : s.bConnectionEnabled = false ∧ s.bConnectRequested = false ∧ a.isEmpty = false
  · have h1 : s.StartConnection a n
        = ({ s with
            strServerAddress := a
            strServerName := (if n.isEmpty = true then a else n)
            bConnectRequested := true
            signals := s.signals ++ [CClientSettingsSignal.ConnectRequested] }, true) := by
      unfold StartConnection
      rw [if_pos hc]
    rw [h1]
    refine ⟨⟨fun _ => ⟨hc.1, hc.2.1, ha.mp hc.2.2⟩, fun _ => rfl⟩, fun _ => ?_,
      fun h => Bool.noConfusion h⟩
    simp only [hn]
  · have h1 : s.StartConnection a n = (s, false) := by
      unfold StartConnection
      rw [if_neg hc]
    rw [h1]
    refine ⟨⟨fun h => Bool.noConfusion h, fun h => ?_⟩, fun h => Bool.noConfusion h,
      fun _ => rfl⟩
    exact absurd ⟨h.1, h.2.1, ha.mpr h.2.2⟩ hc

end CClientSettings

/-! ## String settings of the server settings -/

namespace CServerSettings

/-- C30 (the code at the failing input, and its sibling setters). After
`SetRecordingDir ( "rec" )` on the settings left by the constructor,
`GetRecordingDir()` returns the empty string, not `"rec"`: in general
`SetRecordingDir` clears the command line override and leaves the stored
directory as it was, because the statement in its `if` compares instead of
assigning. The sibling setters do what the claim says: `GetWelcomeMessage()`
returns `m` after `SetWelcomeMessage ( m )`, and `GetDirectoryAddress()` returns
`a` after `SetDirectoryAddress ( a )`. -/
theorem SetRecordingDir_not_stored :
    (ctor.SetRecordingDir "rec").GetRecordingDir = ""
      ∧ (ctor.SetRecordingDir "rec").GetRecordingDir ≠ "rec"
      ∧ (∀ (s : CServerSettings) (d : String),
          (s.SetRecordingDir d).recording.IsSet = false
            ∧ (s.SetRecordingDir d).GetRecordingDir = s.strRecordingDir)
      ∧ (∀ (s : CServerSettings) (m : String), (s.SetWelcomeMessage m).GetWelcomeMessage = m)
      ∧ (∀ (s : CServerSettings) (a : String),
          (s.SetDirectoryAddress a).GetDirectoryAddress = a) := by
  refine ⟨by decide, by decide, ?_, ?_, ?_⟩
  · intro s d
    simp [SetRecordingDir, GetRecordingDir, CCmdlnOption.Unset, CCmdlnOption.IsSet]
  · intro s m
    by_cases h : s.strWelcomeMessage = m
    · simp [SetWelcomeMessage, GetWelcomeMessage, CCmdlnOption.Unset, CCmdlnOption.IsSet, h]
    · simp [SetWelcomeMessage, GetWelcomeMessage, CCmdlnOption.Unset, CCmdlnOption.IsSet, h]
  · intro s a
    by_cases h : s.strDirectoryAddress = a
    · simp [SetDirectoryAddress, GetDirectoryAddress, CCmdlnOption.Unset, CCmdlnOption.IsSet, h]
    · simp [SetDirectoryAddress, GetDirectoryAddress, CCmdlnOption.Unset, CCmdlnOption.IsSet, h]

end CServerSettings

end Jamulus
